import Mathlib

/-!
# Kernel forwarder and client of the network service mesh

A shallow embedding of

* `forwarder/kernel-forwarder/pkg/kernelforwarder/{common,local,remote}.go`
* `sdk/client/client.go`
* `k8s/cmd/admission-webhook/responses.go`

and a model of the request orchestration exercised by
`controlplane/pkg/tests/nsmd_remote_test.go`.

The Go code drives the Linux kernel through `netlink`, `netns` and the
helper `fs.GetNsHandleFromInode`.  These are not part of the repository
sources; they are represented by an explicit kernel state (`Kernel`) on
which every primitive is a total function.  Every Go function becomes a
function in the monad `M`, which threads the kernel state, records the
primitive calls that were made (the trace) and distinguishes a normal
return from a Go runtime panic.
-/

namespace NSM

/-! ## Protobuf data model (`controlplane/api`) -/

/-- A `connectioncontext.Route`. -/
structure Route where
  Prefix : String
deriving DecidableEq, Repr

/-- A `connectioncontext.IpNeighbor`. -/
structure IpNeighbor where
  Ip : String
  HardwareAddress : String
deriving DecidableEq, Repr

/-- A `connectioncontext.IPContext`. -/
structure IPContext where
  SrcIpAddr : String
  DstIpAddr : String
  SrcIpRequired : Bool
  DstIpRequired : Bool
  SrcRoutes : List Route
  DstRoutes : List Route
  IpNeighbors : List IpNeighbor
deriving DecidableEq, Repr

/-- A `connectioncontext.ConnectionContext`; a nil `IpContext` is `none`. -/
structure ConnectionContext where
  IpContext : Option IPContext
deriving DecidableEq, Repr

/-- A `connection.Mechanism`; the Go map `Parameters` is an association list. -/
structure Mechanism where
  Cls : String
  Typ : String
  Parameters : List (String × String)
deriving DecidableEq, Repr

/-- A `connection.Connection`; nil pointers are `none`. -/
structure Connection where
  Id : String
  NetworkService : String
  Mechanism : Option NSM.Mechanism
  Context : Option ConnectionContext
  Labels : List (String × String)
deriving DecidableEq, Repr

/-- A `crossconnect.CrossConnect`; nil pointers are `none`. -/
structure CrossConnect where
  Id : String
  Source : Option Connection
  Destination : Option Connection
deriving DecidableEq, Repr

/-- A `monitoring.Device`. -/
structure Device where
  Name : String
  XconName : String
deriving DecidableEq, Repr

/-- Indexing a Go `map[string]string`: the zero value for a missing key. -/
def mapGet (m : List (String × String)) (key : String) : String :=
  (m.lookup key).getD ""

/-- Storing into a Go `map[string]Device`: an existing key is overwritten. -/
def mapSet (m : List (String × Device)) (key : String) (d : Device) : List (String × Device) :=
  if m.any (fun e => e.1 == key) then
    m.map (fun e => if e.1 == key then (key, d) else e)
  else m ++ [(key, d)]

/-- The nil-safe getter `(*CrossConnect).GetSource`. -/
def CrossConnect.GetSource (c : CrossConnect) : Option Connection := c.Source

/-- The nil-safe getter `(*CrossConnect).GetDestination`. -/
def CrossConnect.GetDestination (c : CrossConnect) : Option Connection := c.Destination

/-- The nil-safe getter `(*CrossConnect).GetId`. -/
def CrossConnect.GetId (c : CrossConnect) : String := c.Id

/-- The nil-safe getter `(*Connection).GetMechanism`. -/
def GetMechanism (c : Option Connection) : Option Mechanism := c.bind (fun x => x.Mechanism)

/-- The nil-safe getter `(*Mechanism).GetParameters`. -/
def GetParameters (m : Option Mechanism) : List (String × String) :=
  match m with
  | some x => x.Parameters
  | none => []

/-- The nil-safe getter `(*Connection).GetContext`. -/
def GetContext (c : Option Connection) : Option ConnectionContext := c.bind (fun x => x.Context)

/-- The nil-safe getter `(*ConnectionContext).GetIpContext`. -/
def GetIpContext (c : Option ConnectionContext) : Option IPContext := c.bind (fun x => x.IpContext)

/-- The nil-safe getter `(*Connection).GetLabels`. -/
def GetLabels (c : Option Connection) : List (String × String) :=
  match c with
  | some x => x.Labels
  | none => []

/-- The nil-safe getter `(*IPContext).GetSrcIpAddr`. -/
def GetSrcIpAddr (c : Option IPContext) : String :=
  match c with
  | some x => x.SrcIpAddr
  | none => ""

/-- The nil-safe getter `(*IPContext).GetDstIpAddr`. -/
def GetDstIpAddr (c : Option IPContext) : String :=
  match c with
  | some x => x.DstIpAddr
  | none => ""

/-- The nil-safe getter `(*IPContext).GetSrcRoutes`. -/
def GetSrcRoutes (c : Option IPContext) : List Route :=
  match c with
  | some x => x.SrcRoutes
  | none => []

/-- The nil-safe getter `(*IPContext).GetDstRoutes`. -/
def GetDstRoutes (c : Option IPContext) : List Route :=
  match c with
  | some x => x.DstRoutes
  | none => []

/-- The nil-safe getter `(*IPContext).GetIpNeighbors`. -/
def GetIpNeighbors (c : Option IPContext) : List IpNeighbor :=
  match c with
  | some x => x.IpNeighbors
  | none => []

/-- Modelled from the spec: the mechanism parameter key of the "namespace/handle
reference" (`common.NetNsInodeKey`); the package declaring it is not among the sources. -/
def NetNsInodeKey : String := "netnsInode"

/-- Modelled from the spec: the mechanism parameter key of the "interface name"
(`common.InterfaceNameKey`); the package declaring it is not among the sources. -/
def InterfaceNameKey : String := "name"

/-- Modelled from the spec: the direction constant `INCOMING` of the
`kernelforwarder/remote` package, which is not among the sources. -/
def INCOMING : Nat := 0

/-- Modelled from the spec: the direction constant `OUTGOING` of the
`kernelforwarder/remote` package, which is not among the sources. -/
def OUTGOING : Nat := 1

/-! ## Kernel state -/

/-- A route installed on a link. -/
structure KRoute where
  dst : String
  gw : Option String
deriving DecidableEq, Repr

/-- A neighbour entry installed on a link. -/
structure KNeigh where
  ip : Option String
  mac : String
  state : Nat
deriving DecidableEq, Repr

/-- A network interface.  `index` identifies the interface for its whole life,
`ns` is the inode of the network namespace holding it, `peer` is the other end
of a veth pair. -/
structure Link where
  index : Nat
  ns : String
  name : String
  type : String
  peer : Option Nat
  ifalias : String
  up : Bool
  addrs : List String
  routes : List KRoute
  neighs : List KNeigh
deriving DecidableEq, Repr

/-- The part of the Linux kernel the forwarder acts on: the existing network
namespaces (by inode), the namespace of the calling thread, and all links. -/
structure Kernel where
  namespaces : List String
  cur : String
  links : List Link
deriving DecidableEq, Repr

/-- A primitive or collaborator call, as recorded in the trace. -/
inductive Call where
  | netnsGet
  | netnsSet (h : String)
  | nsClose (h : String)
  | GetNsHandleFromInode (inode : String)
  | LinkList
  | LinkByName (name : String)
  | LinkSetAlias (i : Nat) (ifalias : String)
  | LinkSetNsFd (i : Nat) (ns : String)
  | LinkSetName (i : Nat) (name : String)
  | AddrAdd (i : Nat) (addr : String)
  | LinkSetUp (i : Nat)
  | LinkSetDown (i : Nat)
  | RouteList (i : Nat)
  | RouteAdd (i : Nat) (dst : String) (gw : Option String)
  | RouteDel (i : Nat) (dst : String)
  | NeighAdd (i : Nat) (ip : Option String) (mac : String)
  | SetupInterface (ifaceName tempName : String) (isDst : Bool)
  | ClearInterfaceSetup (ifaceName : String)
  | CreateInterfaces (srcName dstName : String)
  | DeleteInterfaces (ifaceName : String)
  | CreateInterface (ifaceName : String) (direction : Nat)
  | DeleteInterface (ifaceName : String)
deriving DecidableEq, Repr

/-! ## The monad of Go functions -/

/-- How a Go function ends: it returns a value or it panics. -/
inductive Outcome (α : Type) where
  | ret (a : α)
  | panic (msg : String)
deriving DecidableEq, Repr

/-- The result of running a Go function: how it ended, the kernel state it
left, and the calls it made, in order. -/
structure Res (α : Type) where
  out : Outcome α
  kernel : Kernel
  trace : List Call
deriving DecidableEq, Repr

/-- A Go function acting on the kernel. -/
def M (α : Type) : Type := Kernel → Res α

/-- Returning a value without touching the kernel. -/
def M.pure {α : Type} (a : α) : M α := fun s => ⟨.ret a, s, []⟩

/-- Sequencing: a panic of the first part skips the second. -/
def M.bind {α β : Type} (m : M α) (f : α → M β) : M β := fun s =>
  match (m s).out with
  | .ret a =>
    ⟨(f a (m s).kernel).out, (f a (m s).kernel).kernel, (m s).trace ++ (f a (m s).kernel).trace⟩
  | .panic msg => ⟨.panic msg, (m s).kernel, (m s).trace⟩

instance : Monad M where
  pure := M.pure
  bind := M.bind

/-- A Go panic. -/
def M.panic {α : Type} (msg : String) : M α := fun s => ⟨.panic msg, s, []⟩

/-- The Go statement `defer d()` followed by `body`: `d` runs when `body` has
returned or panicked; its own result is discarded. -/
def M.deferred {α : Type} (d : M Unit) (body : M α) : M α := fun s =>
  ⟨(body s).out, (d (body s).kernel).kernel, (body s).trace ++ (d (body s).kernel).trace⟩

/-- A primitive: a total function on the kernel state, recorded as one call. -/
def prim {α : Type} (c : Call) (f : Kernel → α × Kernel) : M α := fun s =>
  ⟨.ret (f s).1, (f s).2, [c]⟩

/-- A marker in the trace. -/
def mark (c : Call) : M Unit := fun s => ⟨.ret (), s, [c]⟩

/-! ## Primitives: `netns`, `fs` and `netlink`

The kernel model keeps what the forwarder can observe: an interface name is
unique within a namespace, so creating, renaming or moving a link fails when
the name is taken; a link is addressed by its index from the namespace that
holds it; moving a link to another namespace brings it down and flushes its
addresses, routes and neighbours; deleting one end of a veth pair deletes the
other end. -/

/-- The link with index `i` in the namespace of the calling thread. -/
def Kernel.linkAt (s : Kernel) (i : Nat) : Option Link :=
  s.links.find? (fun l => l.index == i && l.ns == s.cur)

/-- Replace the link with index `i` by its image under `f`. -/
def Kernel.modify (s : Kernel) (i : Nat) (f : Link → Link) : Kernel :=
  { s with links := s.links.map (fun l => if l.index = i then f l else l) }

/-- Whether namespace `ns` holds a link named `name`. -/
def Kernel.hasLink (s : Kernel) (ns name : String) : Bool :=
  s.links.any (fun l => l.ns == ns && l.name == name)

/-- Whether a link other than `i` bears the name `name` in namespace `ns`. -/
def Kernel.nameTaken (s : Kernel) (ns name : String) (i : Nat) : Bool :=
  s.links.any (fun l => l.ns == ns && l.name == name && l.index != i)

/-- An index above every index in use. -/
def Kernel.freshIndex (s : Kernel) : Nat :=
  s.links.foldr (fun l n => max (l.index + 1) n) 1

/-- `netns.Get`: a handle on the namespace of the calling thread. -/
def netns.Get : M (Except String String) :=
  prim .netnsGet (fun s => (.ok s.cur, s))

/-- `netns.Set`: switch the calling thread to the namespace of the handle. -/
def netns.Set (h : String) : M (Option String) :=
  prim (.netnsSet h) (fun s => (none, { s with cur := h }))

/-- `NsHandle.Close`: release a namespace handle. -/
def NsHandle.Close (h : String) : M (Option String) :=
  prim (.nsClose h) (fun s => (none, s))

/-- Modelled from the spec: `fs.GetNsHandleFromInode` of `utils/fs`, which is not among
the sources; it resolves the "namespace handle identifier" (an inode) of a
mechanism to a handle and fails when no namespace has that inode. -/
def fs.GetNsHandleFromInode (inode : String) : M (Except String String) :=
  prim (.GetNsHandleFromInode inode) (fun s =>
    if inode ∈ s.namespaces then (.ok inode, s)
    else (.error ("failed to find file in /proc/*/ns/net with inode " ++ inode), s))

/-- `netlink.LinkList`: the links of the current namespace. -/
def netlink.LinkList : M (List Link) :=
  prim .LinkList (fun s => (s.links.filter (fun l => l.ns == s.cur), s))

/-- `netlink.LinkByName`: the link of the current namespace with this name. -/
def netlink.LinkByName (name : String) : M (Except String Link) :=
  prim (.LinkByName name) (fun s =>
    match s.links.find? (fun l => l.ns == s.cur && l.name == name) with
    | some l => (.ok l, s)
    | none => (.error "Link not found", s))

/-- `netlink.LinkSetAlias`. -/
def netlink.LinkSetAlias (l : Link) (name : String) : M (Option String) :=
  prim (.LinkSetAlias l.index name) (fun s =>
    match s.linkAt l.index with
    | none => (some "no such device", s)
    | some _ => (none, s.modify l.index (fun x => { x with ifalias := name })))

/-- `netlink.LinkSetNsFd`: move a link into the namespace of the handle. -/
def netlink.LinkSetNsFd (l : Link) (h : String) : M (Option String) :=
  prim (.LinkSetNsFd l.index h) (fun s =>
    match s.linkAt l.index with
    | none => (some "no such device", s)
    | some x =>
      if x.ns = h then (none, s)
      else if s.nameTaken h x.name x.index then (some "file exists", s)
      else (none, s.modify l.index (fun y =>
        { y with ns := h, up := false, addrs := [], routes := [], neighs := [] })))

/-- `netlink.LinkSetName`: rename a link. -/
def netlink.LinkSetName (l : Link) (name : String) : M (Option String) :=
  prim (.LinkSetName l.index name) (fun s =>
    match s.linkAt l.index with
    | none => (some "no such device", s)
    | some x =>
      if s.nameTaken x.ns name x.index then (some "file exists", s)
      else (none, s.modify l.index (fun y => { y with name := name })))

/-- `netlink.AddrAdd`: add an address to a link. -/
def netlink.AddrAdd (l : Link) (addr : String) : M (Option String) :=
  prim (.AddrAdd l.index addr) (fun s =>
    match s.linkAt l.index with
    | none => (some "no such device", s)
    | some x =>
      if addr ∈ x.addrs then (some "file exists", s)
      else (none, s.modify l.index (fun y => { y with addrs := y.addrs ++ [addr] })))

/-- `netlink.LinkSetUp`. -/
def netlink.LinkSetUp (l : Link) : M (Option String) :=
  prim (.LinkSetUp l.index) (fun s =>
    match s.linkAt l.index with
    | none => (some "no such device", s)
    | some _ => (none, s.modify l.index (fun y => { y with up := true })))

/-- `netlink.LinkSetDown`. -/
def netlink.LinkSetDown (l : Link) : M (Option String) :=
  prim (.LinkSetDown l.index) (fun s =>
    match s.linkAt l.index with
    | none => (some "no such device", s)
    | some _ => (none, s.modify l.index (fun y => { y with up := false })))

/-- `netlink.RouteList` filtered by link: the routes through the link. -/
def netlink.RouteList (l : Link) : M (Except String (List KRoute)) :=
  prim (.RouteList l.index) (fun s =>
    match s.linkAt l.index with
    | none => (.ok [], s)
    | some x => (.ok x.routes, s))

/-- `netlink.RouteAdd`: add a route through link `i`; the destination must be
new in the namespace. -/
def netlink.RouteAdd (i : Nat) (dst : String) (gw : Option String) : M (Option String) :=
  prim (.RouteAdd i dst gw) (fun s =>
    match s.linkAt i with
    | none => (some "no such device", s)
    | some _ =>
      if s.links.any (fun l => l.ns == s.cur && l.routes.any (fun r => r.dst == dst)) then
        (some "file exists", s)
      else (none, s.modify i (fun y => { y with routes := y.routes ++ [⟨dst, gw⟩] })))

/-- `netlink.RouteDel`: delete the route to `dst` through link `i`. -/
def netlink.RouteDel (i : Nat) (dst : String) : M (Option String) :=
  prim (.RouteDel i dst) (fun s =>
    match s.linkAt i with
    | none => (some "no such process", s)
    | some x =>
      if x.routes.any (fun r => r.dst == dst) then
        (none, s.modify i (fun y => { y with routes := y.routes.filter (fun r => r.dst != dst) }))
      else (some "no such process", s))

/-- `netlink.NeighAdd`: add a neighbour entry on link `i`. -/
def netlink.NeighAdd (i : Nat) (state : Nat) (ip : Option String) (mac : String) :
    M (Option String) :=
  prim (.NeighAdd i ip mac) (fun s =>
    match s.linkAt i with
    | none => (some "no such device", s)
    | some x =>
      if x.neighs.any (fun n => n.ip == ip) then (some "file exists", s)
      else (none, s.modify i (fun y => { y with neighs := y.neighs ++ [⟨ip, mac, state⟩] })))

/-- The pure helpers of packages that are not among the sources: the parsers of
`net` and `netlink` (the canonical text of what was parsed, or the error) and
`(*Connection).IsRemote`. -/
structure Lib where
  ParseAddr : String → Except String String
  ParseCIDR : String → Except String String
  ParseMAC : String → Except String String
  ParseIP : String → Option String
  IsRemote : Option Connection → Bool

/-- The loop of `unique.ToFront` (package `github.com/mpvl/unique`) once the element
`last` has been kept: the next element is kept when `last` is less than it and
is dropped otherwise. -/
def uniqueToFront (last : String) : List String → List String
  | [] => []
  | x :: xs => if last < x then x :: uniqueToFront x xs else uniqueToFront last xs

/-- `unique.Strings`: the slice is expected sorted and is not sorted here; the first
element is kept, then every element greater than the last one kept, in the
order of the slice. -/
def uniqueStrings : List String → List String
  | [] => []
  | x :: xs => x :: uniqueToFront x xs

/-- The verb `%v` applied to an `error`. -/
def fmtErr (e : Option String) : String :=
  match e with
  | some m => m
  | none => "<nil>"

/-- The verb `%q` applied to a string (escapes are not modelled). -/
def fmtQuoted (s : String) : String := "\"" ++ s ++ "\""

/-! ## `common.go` -/

/-- The struct `linkRoutes`. -/
structure LinkRoutes where
  routes : List Route
  nextHop : String
deriving DecidableEq, Repr

/-- The struct `LinkData`; the field `alias` is `ifalias` here. -/
structure LinkData where
  nsHandle : String
  name : String
  tempName : String
  ifalias : String
  ip : String
  routes : LinkRoutes
  neighbors : List IpNeighbor
deriving DecidableEq, Repr

/-- The second loop of `addRoutes`, over the prefixes `unique.Strings` kept.  The next hop is
parsed with its error discarded, so reading `nextHopIp.IP` panics when the next
hop does not parse. -/
def addRoutesLoop (lib : Lib) (link : Link) (nextHop : String) : List String → M (Option String)
  | [] => pure none
  | pfx :: rest =>
    match lib.ParseCIDR pfx with
    | .error e => pure (some e)
    | .ok routeNet =>
      match lib.ParseAddr nextHop with
      | .error _ => M.panic "invalid memory address or nil pointer dereference"
      | .ok nextHopIp => do
        let err ← netlink.RouteAdd link.index routeNet (some nextHopIp)
        match err with
        | some e => pure (some e)
        | none => addRoutesLoop lib link nextHop rest

/-- `addRoutes` adds routes. -/
def addRoutes (lib : Lib) (link : Link) (lroutes : LinkRoutes) : M (Option String) :=
  addRoutesLoop lib link lroutes.nextHop (uniqueStrings (lroutes.routes.map (fun r => r.Prefix)))

/-- The inner loop of `deleteRoutes`, over the installed routes to one prefix. -/
def deleteRoutesInner (link : Link) : List KRoute → M (Option String)
  | [] => pure none
  | r :: rest => do
    let err ← netlink.RouteDel link.index r.dst
    match err with
    | some e => pure (some e)
    | none => deleteRoutesInner link rest

/-- The outer loop of `deleteRoutes`, over the prefixes `unique.Strings` kept; a prefix
with no installed route is skipped. -/
def deleteRoutesLoop (link : Link) (installedRoutes : List KRoute) : List String → M (Option String)
  | [] => pure none
  | pfx :: rest => do
    let err ← deleteRoutesInner link (installedRoutes.filter (fun r => r.dst == pfx))
    match err with
    | some e => pure (some e)
    | none => deleteRoutesLoop link installedRoutes rest

/-- `deleteRoutes` deletes routes. -/
def deleteRoutes (link : Link) (lroutes : LinkRoutes) : M (Option String) := do
  let r ← netlink.RouteList link
  match r with
  | .error e => pure (some e)
  | .ok installedRoutes =>
    deleteRoutesLoop link installedRoutes (uniqueStrings (lroutes.routes.map (fun r => r.Prefix)))

/-- `addNeighbors` adds neighbors. -/
def addNeighbors (lib : Lib) (link : Link) : List IpNeighbor → M (Option String)
  | [] => pure none
  | neighbor :: rest =>
    match lib.ParseMAC neighbor.HardwareAddress with
    | .error e => pure (some e)
    | .ok mac => do
      let err ← netlink.NeighAdd link.index 2 (lib.ParseIP neighbor.Ip) mac
      match err with
      | some e => pure (some e)
      | none => addNeighbors lib link rest

/-- `setupLink` configures the link - name, IP, routes, etc.  The assignment
`link.name = link.tempName` only changes later log messages and is left out. -/
def setupLink (lib : Lib) (l : Link) (link : LinkData) : M (Option String) := do
  let err ← (if link.tempName ≠ "" then netlink.LinkSetName l link.tempName else pure none)
  match err with
  | some e => pure (some e)
  | none =>
    match lib.ParseAddr link.ip with
    | .error e => pure (some e)
    | .ok addr => do
      let err ← netlink.AddrAdd l addr
      match err with
      | some e => pure (some e)
      | none => do
        let err ← netlink.LinkSetUp l
        match err with
        | some e => pure (some e)
        | none => do
          let err ← addRoutes lib l link.routes
          match err with
          | some e => pure (some e)
          | none => do
            let err ← addNeighbors lib l link.neighbors
            match err with
            | some e => pure (some e)
            | none => pure none

/-- The part of `setupLinkInNs` that runs inside the desired namespace, from
`netlink.LinkByName(link.name)` to the end. -/
def setupLinkInNsInner (lib : Lib) (link : LinkData) (inject : Bool) (hostNs : String) :
    M (Option String) := do
  let r ← netlink.LinkByName link.name
  match r with
  | .error e => pure (some e)
  | .ok l =>
    if inject then do
      let err ← setupLink lib l link
      match err with
      | some e => pure (some e)
      | none => pure none
    else do
      let _ ← deleteRoutes l link.routes
      let err ← netlink.LinkSetDown l
      match err with
      | some e => pure (some e)
      | none => do
        let err ← netlink.LinkSetNsFd l hostNs
        match err with
        | some e => pure (some e)
        | none => pure none

/-- The part of `setupLinkInNs` from "Save current network namespace" on, with
its two deferred calls. -/
def setupLinkInNsSwitch (lib : Lib) (link : LinkData) (inject : Bool) : M (Option String) := do
  let r ← netns.Get
  match r with
  | .error e => pure (some e)
  | .ok hostNs =>
    M.deferred (do let _ ← NsHandle.Close hostNs; pure ()) (do
      let err ← netns.Set link.nsHandle
      match err with
      | some e => pure (some e)
      | none =>
        M.deferred (do let _ ← netns.Set hostNs; pure ())
          (setupLinkInNsInner lib link inject hostNs))

/-- `setupLinkInNs` is responsible for configuring an interface inside a given
namespace - assigns IP address, routes, etc. -/
def setupLinkInNs (lib : Lib) (link : LinkData) (inject : Bool) : M (Option String) :=
  if inject then do
    let r ← netlink.LinkByName link.name
    match r with
    | .error e => pure (some e)
    | .ok ifaceLink => do
      let err ← (if link.ifalias ≠ "" then netlink.LinkSetAlias ifaceLink link.ifalias
                 else pure none)
      match err with
      | some e => pure (some e)
      | none => do
        let err ← netlink.LinkSetNsFd ifaceLink link.nsHandle
        match err with
        | some e => pure (some e)
        | none => setupLinkInNsSwitch lib link inject
  else setupLinkInNsSwitch lib link inject

/-- `SetupInterface` - setup interface to namespace. -/
def SetupInterface (lib : Lib) (ifaceName tempName : String) (conn : Option Connection)
    (isDst : Bool) : M (String × Option String) := do
  mark (.SetupInterface ifaceName tempName isDst)
  let netNsInode := mapGet (GetParameters (GetMechanism conn)) NetNsInodeKey
  let ipContext := GetIpContext (GetContext conn)
  let ip := if isDst then GetDstIpAddr ipContext else GetSrcIpAddr ipContext
  let installRoutes : LinkRoutes :=
    if isDst then ⟨GetSrcRoutes ipContext, GetSrcIpAddr ipContext⟩
    else ⟨GetDstRoutes ipContext, GetDstIpAddr ipContext⟩
  let r ← fs.GetNsHandleFromInode netNsInode
  match r with
  | .error e => pure (netNsInode, some e)
  | .ok nsHandle =>
    M.deferred (do let _ ← NsHandle.Close nsHandle; pure ()) (do
      let link : LinkData :=
        ⟨nsHandle, ifaceName, tempName, mapGet (GetLabels conn) "podName", ip, installRoutes,
          GetIpNeighbors ipContext⟩
      let err ← setupLinkInNs lib link true
      match err with
      | some e => pure (netNsInode, some e)
      | none => pure (netNsInode, none))

/-- `ClearInterfaceSetup` - deletes interface setup. -/
def ClearInterfaceSetup (lib : Lib) (ifaceName : String) (conn : Option Connection) :
    M (String × Option String) := do
  mark (.ClearInterfaceSetup ifaceName)
  let netNsInode := mapGet (GetParameters (GetMechanism conn)) NetNsInodeKey
  let ipContext := GetIpContext (GetContext conn)
  let r ← fs.GetNsHandleFromInode netNsInode
  match r with
  | .error e => pure ("", some ("failed to get source namespace handle - " ++ e))
  | .ok nsHandle =>
    M.deferred (do let _ ← NsHandle.Close nsHandle; pure ()) (do
      let link : LinkData :=
        ⟨nsHandle, ifaceName, "", "", GetSrcIpAddr ipContext, ⟨GetDstRoutes ipContext, ""⟩, []⟩
      let err ← setupLinkInNs lib link false
      match err with
      | some e =>
        pure ("", some ("failed to extract interface - source - " ++ fmtQuoted link.name
          ++ ": " ++ e))
      | none => pure (netNsInode, none))

/-! ## The forwarder and its collaborators -/

/-- The interface of `k.localConnect`: each method acts on the kernel and
returns its `error`. -/
structure LocalConnect where
  CreateInterfaces : String → String → Kernel → Option String × Kernel
  DeleteInterfaces : String → Kernel → Option String × Kernel

/-- The interface of `k.remoteConnect`. -/
structure RemoteConnect where
  CreateInterface : String → Option Connection → Nat → Kernel → Option String × Kernel
  DeleteInterface : String → Option Connection → Kernel → Option String × Kernel

/-- The struct `KernelForwarder`, reduced to the two collaborators used here. -/
structure KernelForwarder where
  localConnect : LocalConnect
  remoteConnect : RemoteConnect

/-- The call `k.localConnect.CreateInterfaces(srcName, dstName)`. -/
def KernelForwarder.CreateInterfaces (k : KernelForwarder) (srcName dstName : String) :
    M (Option String) :=
  prim (.CreateInterfaces srcName dstName) (k.localConnect.CreateInterfaces srcName dstName)

/-- The call `k.localConnect.DeleteInterfaces(ifaceName)`. -/
def KernelForwarder.DeleteInterfaces (k : KernelForwarder) (ifaceName : String) :
    M (Option String) :=
  prim (.DeleteInterfaces ifaceName) (k.localConnect.DeleteInterfaces ifaceName)

/-- The call `k.remoteConnect.CreateInterface(ifaceName, remoteConnection, direction)`. -/
def KernelForwarder.CreateInterface (k : KernelForwarder) (ifaceName : String)
    (remoteConnection : Option Connection) (direction : Nat) : M (Option String) :=
  prim (.CreateInterface ifaceName direction)
    (k.remoteConnect.CreateInterface ifaceName remoteConnection direction)

/-- The call `k.remoteConnect.DeleteInterface(ifaceName, remoteConnection)`. -/
def KernelForwarder.DeleteInterface (k : KernelForwarder) (ifaceName : String)
    (remoteConnection : Option Connection) : M (Option String) :=
  prim (.DeleteInterface ifaceName)
    (k.remoteConnect.DeleteInterface ifaceName remoteConnection)

/-- A fresh link in the namespace of the calling thread. -/
def newLink (s : Kernel) (index : Nat) (name type : String) (peer : Option Nat) : Link :=
  ⟨index, s.cur, name, type, peer, "", false, [], [], []⟩

/-- Modelled from the spec: `CreateInterfaces` of the `kernelforwarder/local` package,
which is not among the sources.  It does the "virtual-interface creation" for a local
cross-connect: a veth pair in the namespace of the calling thread, one end per
name; as `LinkData.tempName` records, the creation fails when the two names are
the same, and a name in use cannot be given to a new link. -/
def veth.CreateInterfaces (srcName dstName : String) (s : Kernel) : Option String × Kernel :=
  if srcName = dstName ∨ s.hasLink s.cur srcName ∨ s.hasLink s.cur dstName then
    (some "failed to create VETH pair - file exists", s)
  else
    (none, { s with links := s.links ++
      [newLink s s.freshIndex srcName "veth" (some (s.freshIndex + 1)),
       newLink s (s.freshIndex + 1) dstName "veth" (some s.freshIndex)] })

/-- Modelled from the spec: `DeleteInterfaces` of the `kernelforwarder/local` package,
which is not among the sources.  It removes the named interface from the namespace
of the calling thread, and with it the other end of its veth pair. -/
def veth.DeleteInterfaces (ifaceName : String) (s : Kernel) : Option String × Kernel :=
  match s.links.find? (fun l => l.ns == s.cur && l.name == ifaceName) with
  | none => (some ("failed to get link for " ++ fmtQuoted ifaceName ++ " - Link not found"), s)
  | some x =>
    (none, { s with links :=
      s.links.filter (fun l => l.index != x.index && some l.index != x.peer) })

/-- Modelled from the spec: `CreateInterface` of the `kernelforwarder/remote` package,
which is not among the sources.  It creates the tunnel interface of a remote
cross-connect in the namespace of the calling thread. -/
def vxlan.CreateInterface (ifaceName : String) (_remoteConnection : Option Connection)
    (_direction : Nat) (s : Kernel) : Option String × Kernel :=
  if s.hasLink s.cur ifaceName then
    (some "failed to create VXLAN interface - file exists", s)
  else (none, { s with links := s.links ++ [newLink s s.freshIndex ifaceName "vxlan" none] })

/-- Modelled from the spec: `DeleteInterface` of the `kernelforwarder/remote` package,
which is not among the sources.  It removes the named tunnel interface from the
namespace of the calling thread. -/
def vxlan.DeleteInterface (ifaceName : String) (_remoteConnection : Option Connection)
    (s : Kernel) : Option String × Kernel :=
  match s.links.find? (fun l => l.ns == s.cur && l.name == ifaceName) with
  | none => (some ("failed to get link for " ++ fmtQuoted ifaceName ++ " - Link not found"), s)
  | some x => (none, { s with links := s.links.filter (fun l => l.index != x.index) })

/-- The forwarder with the veth and vxlan collaborators. -/
def kernelForwarder : KernelForwarder :=
  ⟨⟨veth.CreateInterfaces, veth.DeleteInterfaces⟩, ⟨vxlan.CreateInterface, vxlan.DeleteInterface⟩⟩

/-! ## `local.go` -/

/-- The result `(map[string]monitoring.Device, error)`; a nil map is `none`. -/
abbrev Devices := Option (List (String × Device)) × Option String

/-- The function `findLocalSrcConnection`. -/
def findLocalSrcConnection (crossConnect : CrossConnect) : M (Bool × Option String) := do
  let r ← netns.Get
  match r with
  | .error e => pure (false, some e)
  | .ok hostNs =>
    M.deferred (do let _ ← NsHandle.Close hostNs; pure ())
      (M.deferred (do let _ ← netns.Set hostNs; pure ()) (do
        let srcNetNsInode :=
          mapGet (GetParameters (GetMechanism crossConnect.GetSource)) NetNsInodeKey
        let srcName := mapGet (GetParameters (GetMechanism crossConnect.GetSource)) InterfaceNameKey
        let r ← fs.GetNsHandleFromInode srcNetNsInode
        match r with
        | .error _ => pure (false, none)
        | .ok srcNetNsHandle =>
          M.deferred (do let _ ← NsHandle.Close srcNetNsHandle; pure ()) (do
            let err ← netns.Set srcNetNsHandle
            match err with
            | some e => pure (false, some e)
            | none => do
              let links ← netlink.LinkList
              pure (links.any (fun link => link.type == "veth" && link.name == srcName), none))))

/-- The temporary name `fmt.Sprintf("nsm%d", rand.Uint32())` for a draw `r`. -/
def tempIfName (r : Nat) : String := "nsm" ++ toString (r % 2 ^ 32)

/-- The function `createLocalConnection` from "In case source and destination names are
the same" to its end.  `r1` and `r2` are the two draws of `rand.Uint32`.  The
cross-connect is passed by pointer and its destination context is
overwritten; the cross-connect as the caller sees it afterwards is returned
with the result.  The assignment panics when the destination has no context. -/
def createLocalConnectionSetup (k : KernelForwarder) (lib : Lib) (crossConnect : CrossConnect)
    (r1 r2 : Nat) : M (Devices × CrossConnect) := do
  let srcName0 := mapGet (GetParameters (GetMechanism crossConnect.GetSource)) InterfaceNameKey
  let dstName0 :=
    mapGet (GetParameters (GetMechanism crossConnect.GetDestination)) InterfaceNameKey
  let tempName := if dstName0 = srcName0 then srcName0 else ""
  let srcName := if dstName0 = srcName0 then tempIfName r1 else srcName0
  let dstName := if dstName0 = srcName0 then tempIfName r2 else dstName0
  let err ← k.CreateInterfaces srcName dstName
  match err with
  | some e => pure ((none, some e), crossConnect)
  | none => do
    let (srcNetNsInode, err) ← SetupInterface lib srcName tempName crossConnect.GetSource false
    match err with
    | some e => pure ((none, some e), crossConnect)
    | none =>
      match crossConnect.Destination with
      | none => M.panic "invalid memory address or nil pointer dereference"
      | some dst =>
        match dst.Context with
        | none => M.panic "invalid memory address or nil pointer dereference"
        | some ctx => do
          let ctx1 : ConnectionContext :=
            { ctx with IpContext := GetIpContext (GetContext crossConnect.GetSource) }
          let dst1 : Connection := { dst with Context := some ctx1 }
          let crossConnect1 : CrossConnect := { crossConnect with Destination := some dst1 }
          let (dstNetNsInode, err) ←
            SetupInterface lib dstName tempName crossConnect1.GetDestination true
          match err with
          | some e => pure ((none, some e), crossConnect1)
          | none =>
            let srcName := if tempName ≠ "" then tempName else srcName
            let dstName := if tempName ≠ "" then tempName else dstName
            let srcDevice : Device := ⟨srcName, "SRC-" ++ crossConnect1.GetId⟩
            let dstDevice : Device := ⟨dstName, "DST-" ++ crossConnect1.GetId⟩
            pure ((some (mapSet (mapSet [] srcNetNsInode srcDevice) dstNetNsInode dstDevice),
              none), crossConnect1)

/-- `createLocalConnection` handles creating a local connection. -/
def createLocalConnection (k : KernelForwarder) (lib : Lib) (crossConnect : CrossConnect)
    (r1 r2 : Nat) : M (Devices × CrossConnect) := do
  let srcName := mapGet (GetParameters (GetMechanism crossConnect.GetSource)) InterfaceNameKey
  let (foundLocalSrcConn, err) ← findLocalSrcConnection crossConnect
  match err with
  | some e => pure ((none, some e), crossConnect)
  | none =>
    if foundLocalSrcConn then do
      let (_, err) ← ClearInterfaceSetup lib srcName crossConnect.GetSource
      match err with
      | some e => pure ((none, some e), crossConnect)
      | none => do
        let err ← k.DeleteInterfaces srcName
        match err with
        | some e => pure ((none, some e), crossConnect)
        | none => createLocalConnectionSetup k lib crossConnect r1 r2
    else createLocalConnectionSetup k lib crossConnect r1 r2

/-- `deleteLocalConnection` handles deleting a local connection. -/
def deleteLocalConnection (k : KernelForwarder) (lib : Lib) (crossConnect : CrossConnect) :
    M Devices := do
  let srcName := mapGet (GetParameters (GetMechanism crossConnect.GetSource)) InterfaceNameKey
  let dstName :=
    mapGet (GetParameters (GetMechanism crossConnect.GetDestination)) InterfaceNameKey
  let (srcNetNsInode, srcErr) ← ClearInterfaceSetup lib srcName crossConnect.GetSource
  let (dstNetNsInode, dstErr) ← ClearInterfaceSetup lib dstName crossConnect.GetDestination
  let err ← k.DeleteInterfaces srcName
  if srcErr ≠ none ∨ dstErr ≠ none ∨ err ≠ none then
    pure (none, some ("local: " ++ fmtErr srcErr ++ " - " ++ fmtErr dstErr))
  else
    let srcDevice : Device := ⟨srcName, "SRC-" ++ crossConnect.GetId⟩
    let dstDevice : Device := ⟨dstName, "DST-" ++ crossConnect.GetId⟩
    pure (some (mapSet (mapSet [] srcNetNsInode srcDevice) dstNetNsInode dstDevice), none)

/-- `handleLocalConnection` either creates or deletes a local connection - same host. -/
def handleLocalConnection (k : KernelForwarder) (lib : Lib) (crossConnect : CrossConnect)
    (connect : Bool) (r1 r2 : Nat) : M (Devices × CrossConnect) :=
  if connect then do
    let ((devices, err), crossConnect1) ← createLocalConnection k lib crossConnect r1 r2
    match err with
    | some e => pure ((none, some e), crossConnect1)
    | none => pure ((devices, none), crossConnect1)
  else do
    let (devices, err) ← deleteLocalConnection k lib crossConnect
    match err with
    | some e => pure ((none, some e), crossConnect)
    | none => pure ((devices, none), crossConnect)

/-! ## `remote.go` -/

/-- The function `findRemoteConnection`. -/
def findRemoteConnection (conn : Option Connection) : M (Bool × Option String) := do
  let r ← netns.Get
  match r with
  | .error e => pure (false, some e)
  | .ok hostNs =>
    M.deferred (do let _ ← NsHandle.Close hostNs; pure ())
      (M.deferred (do let _ ← netns.Set hostNs; pure ()) (do
        let netNsInode := mapGet (GetParameters (GetMechanism conn)) NetNsInodeKey
        let ifaceName := mapGet (GetParameters (GetMechanism conn)) InterfaceNameKey
        let r ← fs.GetNsHandleFromInode netNsInode
        match r with
        | .error _ => pure (false, none)
        | .ok netNsHandle =>
          M.deferred (do let _ ← NsHandle.Close netNsHandle; pure ()) (do
            let err ← netns.Set netNsHandle
            match err with
            | some e => pure (false, some e)
            | none => do
              let links ← netlink.LinkList
              pure (links.any (fun link => link.name == ifaceName), none))))

/-- `createRemoteConnection` handler for creating a remote connection. -/
def createRemoteConnection (k : KernelForwarder) (lib : Lib) (connID : String)
    (localConnection remoteConnection : Option Connection) (direction : Nat) : M Devices := do
  let xconName := if direction = INCOMING then "DST-" ++ connID else "SRC-" ++ connID
  let ifaceName := mapGet (GetParameters (GetMechanism localConnection)) InterfaceNameKey
  let (foundConn, err) ← findRemoteConnection localConnection
  match err with
  | some e => pure (none, some e)
  | none => do
    let err ← (if foundConn then do
      let (_, err) ← ClearInterfaceSetup lib ifaceName localConnection
      match err with
      | some e => pure (some e)
      | none => k.DeleteInterface ifaceName remoteConnection
      else pure none)
    match err with
    | some e => pure (none, some e)
    | none => do
      let err ← k.CreateInterface ifaceName remoteConnection direction
      match err with
      | some e => pure (none, some e)
      | none => do
        let (nsInode, err) ←
          SetupInterface lib ifaceName "" localConnection (direction = INCOMING)
        match err with
        | some e => pure (none, some e)
        | none => pure (some (mapSet [] nsInode ⟨ifaceName, xconName⟩), none)

/-- `deleteRemoteConnection` handler for deleting a remote connection. -/
def deleteRemoteConnection (k : KernelForwarder) (lib : Lib) (connID : String)
    (localConnection remoteConnection : Option Connection) (direction : Nat) : M Devices := do
  let ifaceName := mapGet (GetParameters (GetMechanism localConnection)) InterfaceNameKey
  let xconName := if direction = INCOMING then "DST-" ++ connID else "SRC-" ++ connID
  let (nsInode, localErr) ← ClearInterfaceSetup lib ifaceName localConnection
  let remoteErr ← k.DeleteInterface ifaceName remoteConnection
  if localErr ≠ none ∨ remoteErr ≠ none then
    pure (none, some ("remote: " ++ fmtErr localErr ++ " - " ++ fmtErr remoteErr))
  else
    pure (some (mapSet [] nsInode ⟨ifaceName, xconName⟩), none)

/-- `handleConnection` process the request to either creating or deleting a connection. -/
def handleConnection (k : KernelForwarder) (lib : Lib) (connID : String)
    (localConnection remoteConnection : Option Connection) (connect : Bool) (direction : Nat) :
    M Devices :=
  if connect then do
    let (devices, err) ← createRemoteConnection k lib connID localConnection remoteConnection
      direction
    match err with
    | some e => pure (none, some e)
    | none => pure (devices, none)
  else do
    let (devices, err) ← deleteRemoteConnection k lib connID localConnection remoteConnection
      direction
    match err with
    | some e => pure (none, some e)
    | none => pure (devices, none)

/-- `handleRemoteConnection` handles remote connect/disconnect requests for either
incoming or outgoing connections. -/
def handleRemoteConnection (k : KernelForwarder) (lib : Lib) (crossConnect : CrossConnect)
    (connect : Bool) : M Devices :=
  if lib.IsRemote crossConnect.GetSource ∧ ¬ lib.IsRemote crossConnect.GetDestination then
    handleConnection k lib crossConnect.GetId crossConnect.GetDestination crossConnect.GetSource
      connect INCOMING
  else if ¬ lib.IsRemote crossConnect.GetSource ∧ lib.IsRemote crossConnect.GetDestination then
    handleConnection k lib crossConnect.GetId crossConnect.GetSource crossConnect.GetDestination
      connect OUTGOING
  else
    pure (none, some "remote: invalid connection type")

end NSM

namespace NSM

/-! ## Vocabulary of the statements -/

/-- The interface-name parameter of the mechanism of a connection. -/
abbrev ifaceNameOf (conn : Option Connection) : String :=
  mapGet (GetParameters (GetMechanism conn)) InterfaceNameKey

/-- The namespace-inode parameter of the mechanism of a connection. -/
abbrev netNsInodeOf (conn : Option Connection) : String :=
  mapGet (GetParameters (GetMechanism conn)) NetNsInodeKey

/-- The calls to the collaborators of `createLocalConnection` among the calls of a trace. -/
def collaboratorCalls (t : List Call) : List Call :=
  t.filter (fun c =>
    match c with
    | .ClearInterfaceSetup _ => true
    | .DeleteInterfaces _ => true
    | .CreateInterfaces _ _ => true
    | _ => false)

/-! ## Example values -/

/-- Parsers that accept every non-empty text; `IsRemote` reads the mechanism class. -/
def exampleLib : Lib :=
  ⟨fun s => if s = "" then .error "invalid CIDR address: " else .ok s,
   fun s => if s = "" then .error "invalid CIDR address: " else .ok s,
   fun s => if s = "" then .error "invalid MAC address" else .ok s,
   fun s => if s = "" then none else some s,
   fun c => (GetMechanism c).any (fun m => m.Cls == "REMOTE")⟩

/-- A kernel with the host namespace `1`, two pod namespaces and no links. -/
def exampleKernel : Kernel := ⟨["1", "10", "20"], "1", []⟩

/-- A connection with a mechanism of class `cls` in namespace `inode`, named `name`. -/
def exampleConnection (cls inode name : String) : Connection :=
  ⟨"c", "golden_network",
   some ⟨cls, "KERNEL_INTERFACE", [(NetNsInodeKey, inode), (InterfaceNameKey, name)]⟩,
   some ⟨some ⟨"10.0.0.1/30", "10.0.0.2/30", true, true, [], [⟨"8.8.8.0/24"⟩], []⟩⟩, []⟩

/-- A local cross-connect between `eth10` in namespace `10` and `eth20` in namespace `20`. -/
def exampleLocalXcon : CrossConnect :=
  ⟨"1", some (exampleConnection "LOCAL" "10" "eth10"),
   some (exampleConnection "LOCAL" "20" "eth20")⟩

/-- A local cross-connect whose two interfaces are both named `eth0`. -/
def exampleSameNameXcon : CrossConnect :=
  ⟨"1", some (exampleConnection "LOCAL" "10" "eth0"),
   some (exampleConnection "LOCAL" "20" "eth0")⟩

/-- An incoming cross-connect: remote source, local destination. -/
def exampleIncomingXcon : CrossConnect :=
  ⟨"1", some (exampleConnection "REMOTE" "" ""),
   some (exampleConnection "LOCAL" "20" "eth20")⟩

end NSM

namespace NSM

/-- A forwarder whose `localConnect.DeleteInterfaces` fails: the link cannot be deleted. -/
def busyForwarder : KernelForwarder :=
  ⟨⟨veth.CreateInterfaces,
    fun _ s => (some "failed to delete the VETH pair - device or resource busy", s)⟩,
   ⟨vxlan.CreateInterface, vxlan.DeleteInterface⟩⟩

/-- The example kernel after the example local cross-connect has been installed. -/
def exampleInstalledKernel : Kernel :=
  (handleLocalConnection kernelForwarder exampleLib exampleLocalXcon true 0 0 exampleKernel).kernel

end NSM

namespace NSM

/-- The run of `ClearInterfaceSetup(srcName, source)` inside `createLocalConnection`: it
starts in the state left by `findLocalSrcConnection`. -/
def collisionClear (lib : Lib) (xc : CrossConnect) (s : Kernel) : Res (String × Option String) :=
  ClearInterfaceSetup lib (ifaceNameOf xc.GetSource) xc.GetSource
    (findLocalSrcConnection xc s).kernel

/-- The run of `DeleteInterfaces(srcName)` inside `createLocalConnection`: it starts in the
state left by `ClearInterfaceSetup`. -/
def collisionDelete (k : KernelForwarder) (lib : Lib) (xc : CrossConnect) (s : Kernel) :
    Res (Option String) :=
  k.DeleteInterfaces (ifaceNameOf xc.GetSource) (collisionClear lib xc s).kernel

/-- The first name `createLocalConnection` passes to `CreateInterfaces`. -/
def createSrcName (xc : CrossConnect) (r1 : Nat) : String :=
  if ifaceNameOf xc.GetDestination = ifaceNameOf xc.GetSource then tempIfName r1
  else ifaceNameOf xc.GetSource

/-- The second name `createLocalConnection` passes to `CreateInterfaces`. -/
def createDstName (xc : CrossConnect) (r2 : Nat) : String :=
  if ifaceNameOf xc.GetDestination = ifaceNameOf xc.GetSource then tempIfName r2
  else ifaceNameOf xc.GetDestination

end NSM

namespace NSM

/-! ## Predicates on computations -/

/-- The computation returns from every state. -/
def Returns {α : Type} (m : M α) : Prop := ∀ s, ∃ a, (m s).out = .ret a

/-- The computation calls no collaborator of `createLocalConnection`. -/
def Quiet {α : Type} (m : M α) : Prop := ∀ s, collaboratorCalls (m s).trace = []

end NSM

namespace NSM

/-- A change of a link that keeps its index, namespace, name, type and peer. -/
def Keeps (g : Link → Link) : Prop :=
  ∀ y, (g y).index = y.index ∧ (g y).ns = y.ns ∧ (g y).name = y.name ∧
    (g y).type = y.type ∧ (g y).peer = y.peer

/-- The computation returns `a` from the state `s` and leaves the state `s1`. -/
def Runs {α : Type} (m : M α) (s : Kernel) (a : α) (s1 : Kernel) : Prop :=
  (m s).out = .ret a ∧ (m s).kernel = s1

/-- The computation changes the kernel at most by a change of link `i` that keeps
the identity and the place of the link. -/
def AttrOnly {α : Type} (i : Nat) (m : M α) : Prop :=
  ∀ s, ∃ g, Keeps g ∧ (m s).kernel = s.modify i g

end NSM

namespace NSM

/-- What `netlink.LinkSetNsFd` does to a link that changes its namespace. -/
def moveTo (ns : String) (y : Link) : Link :=
  { y with ns := ns, up := false, addrs := [], routes := [], neighs := [] }

/-- A change of a link that keeps its index, name, type and peer. -/
def KeepsName (g : Link → Link) : Prop :=
  ∀ y, (g y).index = y.index ∧ (g y).name = y.name ∧ (g y).type = y.type ∧
    (g y).peer = y.peer

end NSM

namespace NSM

/-- The kernel with further links at the end of its list of links. -/
def Kernel.addLinks (s : Kernel) (ls : List Link) : Kernel :=
  { s with links := s.links ++ ls }

end NSM

namespace NSM

/-- The cross-connect after the assignment
`crossConnect.GetDestination().GetContext().IpContext = crossConnect.GetSource().GetContext().GetIpContext()`,
for a destination `dst` with context `ctx`. -/
def CrossConnect.overwriteDstIpContext (xc : CrossConnect) (dst : Connection)
    (ctx : ConnectionContext) : CrossConnect :=
  let ctx1 : ConnectionContext := { ctx with IpContext := GetIpContext (GetContext xc.GetSource) }
  let dst1 : Connection := { dst with Context := some ctx1 }
  { xc with Destination := some dst1 }

end NSM

namespace NSM

/-- The temporary-name argument `createLocalConnection` passes to `SetupInterface`: the
common name when source and destination bear the same name. -/
def createTempName (xc : CrossConnect) : String :=
  if ifaceNameOf xc.GetDestination = ifaceNameOf xc.GetSource then ifaceNameOf xc.GetSource
  else ""

/-- The devices `createLocalConnection` returns on success. -/
def createdDevices (xc : CrossConnect) (r1 r2 : Nat) (srcNetNsInode dstNetNsInode : String) :
    List (String × Device) :=
  mapSet
    (mapSet [] srcNetNsInode
      ⟨if createTempName xc ≠ "" then createTempName xc else createSrcName xc r1,
        "SRC-" ++ xc.GetId⟩)
    dstNetNsInode
    ⟨if createTempName xc ≠ "" then createTempName xc else createDstName xc r2,
      "DST-" ++ xc.GetId⟩

end NSM

namespace NSM

/-! ## `sdk/client/client.go` -/

/-- A `networkservice.NetworkServiceRequest`. -/
structure NetworkServiceRequest where
  Connection : Option NSM.Connection
  MechanismPreferences : List (Option Mechanism)
deriving DecidableEq, Repr

/-- The fields of `common.NSConfiguration` (package `sdk/common`, not among the sources)
that the client reads. -/
structure NSConfiguration where
  ClientNetworkService : String
  ClientLabels : String
  NscInterfaceName : String
  Routes : List String
deriving DecidableEq, Repr

/-- The struct `NsmClient`.  `Configuration` is the promoted field of the embedded
`*common.NsmConnection`; `OutgoingConnections` holds pointers, a nil pointer is
`none`. -/
structure NsmClient where
  Configuration : NSConfiguration
  ClientNetworkService : String
  ClientLabels : List (String × String)
  OutgoingConnections : List (Option Connection)
  NscInterfaceName : String
deriving DecidableEq, Repr

/-- What the client calls outside this file: `common.NewMechanism` (package
`sdk/common`, not among the sources), taken as a parameter, and the remote
`NsClient.Request`, whose answer to the `i`-th request of a call is `Request i`. -/
structure ClientEnv where
  NewMechanism : String → String → String → String → Except String Mechanism
  Request : Nat → NetworkServiceRequest → Option Connection × Option String

/-- Modelled from the spec: the mechanism class constant `cls.LOCAL` of the package
`controlplane/api/connection/mechanisms/cls`, which is not among the sources. -/
def cls.LOCAL : String := "LOCAL"

/-- The function `errors.Wrap(err, message)`: the text of the wrapped error. -/
def errorsWrap (err message : String) : String := message ++ ": " ++ err

/-- What a call of `ConnectRetry` returns and does: the returned pair, the client
afterwards, and the number of `NsClient.Request` calls issued. -/
structure ConnectResult where
  conn : Option Connection
  err : Option String
  client : NsmClient
  requests : Nat
deriving DecidableEq, Repr

/-- The loop `for retryCount >= 0` of `ConnectRetry` for a non-negative `retryCount`,
started at attempt number `attempt` (`maxRetry - retryCount` in the source).  It
yields the connection of the successful attempt or the error of the last
failed one, with the number of the attempt after the last one issued. -/
def requestLoop (env : ClientEnv) (outgoingRequest : NetworkServiceRequest) :
    (retryCount : Nat) → (attempt : Nat) → Option Connection × Option String × Nat
  | 0, attempt =>
    match env.Request attempt outgoingRequest with
    | (outgoingConnection, none) => (outgoingConnection, none, attempt + 1)
    | (_, some err) => (none, some err, attempt + 1)
  | retryCount + 1, attempt =>
    match env.Request attempt outgoingRequest with
    | (outgoingConnection, none) => (outgoingConnection, none, attempt + 1)
    | (_, some _) => requestLoop env outgoingRequest retryCount (attempt + 1)

/-- The request `ConnectRetry` builds from the client and the outgoing mechanism. -/
def NsmClient.outgoingRequest (nsmc : NsmClient) (outgoingMechanism : Mechanism) :
    NetworkServiceRequest :=
  let routes := nsmc.Configuration.Routes.map (fun r => (⟨r⟩ : Route))
  { Connection := some
      { Id := ""
        NetworkService := nsmc.Configuration.ClientNetworkService
        Mechanism := none
        Context := some ⟨some ⟨"", "", true, true, routes, [], []⟩⟩
        Labels := nsmc.ClientLabels }
    MechanismPreferences := [some outgoingMechanism] }

/-- `ConnectRetry` implements the business logic.  Spans, logging, the lock and the
delay between attempts are left out. -/
def NsmClient.ConnectRetry (env : ClientEnv) (nsmc : NsmClient)
    (name mechanism description : String) (retryCount : Int) (_retryDelay : Nat) :
    ConnectResult :=
  let name := if nsmc.NscInterfaceName ≠ "" then nsmc.NscInterfaceName else name
  match env.NewMechanism cls.LOCAL mechanism name description with
  | .error err =>
    ⟨none, some (errorsWrap err
      "failure to prepare the outgoing mechanism preference with error"), nsmc, 0⟩
  | .ok outgoingMechanism =>
    if retryCount < 0 then
      ⟨none, none, { nsmc with OutgoingConnections := nsmc.OutgoingConnections ++ [none] }, 0⟩
    else
      match requestLoop env (nsmc.outgoingRequest outgoingMechanism) retryCount.toNat 0 with
      | (_, some err, requests) =>
        ⟨none, some (errorsWrap err "nsm client: Failed to connect"), nsmc, requests⟩
      | (outgoingConnection, none, requests) =>
        ⟨outgoingConnection, none,
          { nsmc with OutgoingConnections := nsmc.OutgoingConnections ++ [outgoingConnection] },
          requests⟩

/-- `Connect` with no retry and delay. -/
def NsmClient.Connect (env : ClientEnv) (nsmc : NsmClient) (name mechanism description : String) :
    ConnectResult :=
  nsmc.ConnectRetry env name mechanism description 1 0

/-- A client without outgoing connections. -/
def exampleClient : NsmClient :=
  ⟨⟨"golden_network", "", "", ["8.8.8.0/24"]⟩, "golden_network", [], [], ""⟩

/-- An environment in which every mechanism can be built and every request is
refused; the refusal names the attempt. -/
def refusingEnv : ClientEnv :=
  ⟨fun c t name description =>
      .ok ⟨c, t, [(InterfaceNameKey, name), ("description", description)]⟩,
    fun i _ => (none, some ("attempt " ++ toString i ++ " refused"))⟩

end NSM

namespace NSM

/-- The answer to attempt number `i` of a call of `ConnectRetry`, were it issued; `none`
when the outgoing mechanism cannot be built, so that no request exists. -/
def attemptOf (env : ClientEnv) (nsmc : NsmClient) (name mechanism description : String)
    (i : Nat) : Option (Option Connection × Option String) :=
  match env.NewMechanism cls.LOCAL mechanism
      (if nsmc.NscInterfaceName ≠ "" then nsmc.NscInterfaceName else name) description with
  | .error _ => none
  | .ok outgoingMechanism => some (env.Request i (nsmc.outgoingRequest outgoingMechanism))

/-- Attempt number `i` of a call of `ConnectRetry` fails. -/
def attemptFails (env : ClientEnv) (nsmc : NsmClient) (name mechanism description : String)
    (i : Nat) : Prop :=
  ∃ c e, attemptOf env nsmc name mechanism description i = some (c, some e)

end NSM

namespace NSM

/-! ## The constants of `sdk/client/client.go` -/

/-- The constant `time.Second`: a `time.Duration` counts nanoseconds. -/
def time.Second : Int := 1000000000

/-- The constant `time.Minute`. -/
def time.Minute : Int := 60 * time.Second

/-- `ConnectTimeout` - a default connection timeout. -/
def ConnectTimeout : Int := time.Minute

/-- `ConnectionRetry` - A number of retries for establish a network service, default == 10. -/
def ConnectionRetry : Int := 18

/-- `RequestDelay` - A delay between attempts, default = 5sec. -/
def RequestDelay : Int := time.Second * 10

end NSM

/-! # The admission webhook: `k8s/cmd/admission-webhook/responses.go` -/

namespace AdmissionWebhook

/-- The struct `metav1.Status`, reduced to the field the webhook sets. -/
structure Status where
  Message : String
deriving DecidableEq, Repr

/-- The type `v1.PatchType`, a string. -/
abbrev PatchType := String

/-- The constant `v1.PatchTypeJSONPatch`. -/
def PatchTypeJSONPatch : PatchType := "JSONPatch"

/-- The struct `v1.AdmissionResponse`.  A nil pointer and a nil byte slice are `none`,
a nil map and a nil string slice are empty. -/
structure AdmissionResponse where
  UID : String
  Allowed : Bool
  Result : Option Status
  Patch : Option (List (Fin 256))
  PatchType : Option AdmissionWebhook.PatchType
  AuditAnnotations : List (String × String)
  Warnings : List String
deriving DecidableEq, Repr

/-- The zero value of `v1.AdmissionResponse`: what a composite literal starts from. -/
def AdmissionResponse.zero : AdmissionResponse := ⟨"", false, none, none, none, [], []⟩

/-- The function `errorReviewResponse`.  An `error` is given by the text its method
`Error` returns, the nil error is `none`; calling `err.Error()` on the nil error
panics.  The log line is left out. -/
def errorReviewResponse (err : Option String) : NSM.Outcome AdmissionResponse :=
  match err with
  | none => .panic "invalid memory address or nil pointer dereference"
  | some message => .ret { AdmissionResponse.zero with Result := some ⟨message⟩ }

/-- The function `okReviewResponse`. -/
def okReviewResponse : AdmissionResponse :=
  { AdmissionResponse.zero with Allowed := true }

/-- The function `createReviewResponse`. -/
def createReviewResponse (data : Option (List (Fin 256))) : AdmissionResponse :=
  { AdmissionResponse.zero with
    Allowed := true
    Patch := data
    PatchType := some PatchTypeJSONPatch }

end AdmissionWebhook

namespace NSM

/-- A destination connection in namespace `20` whose context carries an IP neighbour. -/
def exampleNeighborConnection : Connection :=
  ⟨"c", "golden_network",
   some ⟨"LOCAL", "KERNEL_INTERFACE", [(NetNsInodeKey, "20"), (InterfaceNameKey, "eth20")]⟩,
   some ⟨some ⟨"10.0.0.1/30", "10.0.0.2/30", true, true, [], [],
     [⟨"10.0.0.1", "aa:bb:cc:dd:ee:ff"⟩]⟩⟩, []⟩

/-- The example kernel with the veth pair `eth10`, `eth20` in the host namespace. -/
def exampleVethKernel : Kernel := (veth.CreateInterfaces "eth10" "eth20" exampleKernel).2

/-- A client whose configuration names the interface `nsc-env`. -/
def exampleConfiguredClient : NsmClient :=
  ⟨⟨"golden_network", "", "nsc-env", []⟩, "golden_network", [], [], "nsc-env"⟩

end NSM

namespace NSM

/-- A run from the state `s` with the result `r` restores the namespace of the calling
thread: the thread ends in the namespace it was in on entry, and if the run
called `netns.Set` for `target` then, after the host handle was taken with
`netns.Get`, its last two calls are the switch back to the namespace of entry
and then the release of the saved host handle. -/
def Restores {α : Type} (target : String) (s : Kernel) (r : Res α) : Prop :=
  r.kernel.cur = s.cur ∧
  (Call.netnsSet target ∈ r.trace →
    ∃ front, Call.netnsGet ∈ front ∧ r.trace = front ++ [.netnsSet s.cur, .nsClose s.cur])

end NSM

namespace NSM

/-- Every call of `CreateInterfaces` the computation makes has the arguments `a` and `b`. -/
def CreatesOnly {α : Type} (a b : String) (m : M α) : Prop :=
  ∀ s x y, Call.CreateInterfaces x y ∈ (m s).trace → x = a ∧ y = b

end NSM

namespace NSM

/-- A local cross-connect whose two mechanisms carry an empty interface name. -/
def exampleUnnamedXcon : CrossConnect :=
  ⟨"1", some (exampleConnection "LOCAL" "10" ""), some (exampleConnection "LOCAL" "20" "")⟩

end NSM

namespace NSM

/-- A local cross-connect whose two interfaces, `eth10` and `eth20`, are both in
namespace `10`. -/
def exampleOneNamespaceXcon : CrossConnect :=
  ⟨"1", some (exampleConnection "LOCAL" "10" "eth10"),
   some (exampleConnection "LOCAL" "10" "eth20")⟩

end NSM

namespace NSM

/-- A connection in namespace `inode` whose mechanism names no interface and whose
context carries the two addresses of the link and no route or neighbour. -/
def exampleBareConnection (inode : String) : Connection :=
  ⟨"c", "golden_network", some ⟨"LOCAL", "KERNEL_INTERFACE", [(NetNsInodeKey, inode)]⟩,
   some ⟨some ⟨"10.0.0.1/30", "10.0.0.2/30", true, true, [], [], []⟩⟩, []⟩

/-- A local cross-connect between namespaces `10` and `20` whose mechanisms name no
interface. -/
def exampleBareXcon : CrossConnect :=
  ⟨"1", some (exampleBareConnection "10"), some (exampleBareConnection "20")⟩

end NSM

namespace NSM

/-- The local side of a cross-connect with one remote side: the destination when the
source is remote, the source otherwise. -/
def localSide (lib : Lib) (xc : CrossConnect) : Option Connection :=
  if lib.IsRemote xc.GetSource then xc.GetDestination else xc.GetSource

/-- The remote side of a cross-connect with one remote side. -/
def remoteSide (lib : Lib) (xc : CrossConnect) : Option Connection :=
  if lib.IsRemote xc.GetSource then xc.GetSource else xc.GetDestination

/-- The direction of a cross-connect with one remote side: incoming when the source is
remote. -/
def directionOf (lib : Lib) (xc : CrossConnect) : Nat :=
  if lib.IsRemote xc.GetSource then INCOMING else OUTGOING

/-- The run of `ClearInterfaceSetup(ifaceName, localConnection)` in `deleteRemoteConnection`. -/
def remoteClear (lib : Lib) (xc : CrossConnect) (s : Kernel) : Res (String × Option String) :=
  ClearInterfaceSetup lib (ifaceNameOf (localSide lib xc)) (localSide lib xc) s

/-- The run of `DeleteInterface(ifaceName, remoteConnection)` in `deleteRemoteConnection`: it
starts in the state left by `ClearInterfaceSetup`. -/
def remoteDelete (k : KernelForwarder) (lib : Lib) (xc : CrossConnect) (s : Kernel) :
    Res (Option String) :=
  k.DeleteInterface (ifaceNameOf (localSide lib xc)) (remoteSide lib xc)
    (remoteClear lib xc s).kernel

/-- The example kernel after the incoming example cross-connect has been connected. -/
def exampleRemoteKernel : Kernel :=
  (handleRemoteConnection kernelForwarder exampleLib exampleIncomingXcon true exampleKernel).kernel

end NSM

/-! # The connection request/close orchestration

The control plane (`controlplane/pkg/...`) is not among the sources; only its
test `nsmd_remote_test.go` is.  This part models the orchestration of two
cooperating control-plane instances from sections 2 to 7 of the
specification. -/

namespace ControlPlane

/-- Modelled from the spec: the error taxonomy of section 7; the control plane is not
among the sources. -/
inductive Error where
  | NotFound
  | AlreadyExists
  | NoSuchNetworkService
  | NoCompatibleMechanism
  | ForwarderGone
  | Timeout
  | InstallFailed
  | RemoveFailed
  | RemoteDelegationFailed
  | InvalidConnectionType
deriving DecidableEq, Repr

/-- Modelled from the spec: a "Mechanism", "a typed, parameterized description of how a
Connection is physically realized"; `remote` is its class: a remote-transport
mechanism or a local one. -/
structure Mechanism where
  remote : Bool
  type : String
  parameters : List (String × String)
deriving DecidableEq, Repr

/-- Modelled from the spec: an "Endpoint" of section 3, with the instance hosting it. -/
structure Endpoint where
  id : String
  networkServiceName : String
  labels : List (String × String)
  mechanisms : List Mechanism
  host : String
deriving DecidableEq, Repr

/-- Modelled from the spec: a "Forwarder" of section 3; the mechanism lists hold the
supported mechanism types. -/
structure Forwarder where
  registeredName : String
  socketLocation : String
  localMechanisms : List String
  remoteMechanisms : List String
  mechanismsConfigured : Bool
deriving DecidableEq, Repr

/-- Modelled from the spec: a "Connection", one half of a cross-connect. -/
structure Connection where
  id : Nat
  networkService : String
  mechanism : Mechanism
deriving DecidableEq, Repr

/-- Modelled from the spec: the destination of a "CrossConnect": a connection, or a
"RemoteReference" naming a connection id owned by the peer instance. -/
inductive Destination where
  | connection (c : Connection)
  | remoteReference (id : Nat)
deriving DecidableEq, Repr

/-- Modelled from the spec: a "CrossConnect" of section 3. -/
structure CrossConnect where
  id : Nat
  Source : Connection
  Destination : ControlPlane.Destination
deriving DecidableEq, Repr

/-- Modelled from the spec: a "ClientConnection", the lookup unit of the Model Store. -/
structure ClientConnection where
  clientConnectionId : Nat
  crossConnect : CrossConnect
  forwarder : String
deriving DecidableEq, Repr

/-- Modelled from the spec: the "Model Store" of section 4.1; forwarders are kept in
registration order. -/
structure ModelStore where
  endpoints : List Endpoint
  forwarders : List Forwarder
  clientConnections : List ClientConnection
deriving DecidableEq, Repr

/-- Modelled from the spec: the forwarding agent behind the "install/remove mechanism"
contract of section 6, an external collaborator: the cross-connects it has
recorded, whether its install calls succeed and whether its remove calls
succeed.  The two are independent: section 7 provides for the removal at "a
forwarder that is already gone". -/
structure Agent where
  installs : Bool
  removes : Bool
  connections : List CrossConnect
deriving DecidableEq, Repr

/-- Modelled from the spec: one control-plane instance: its Model Store and its
forwarding agent. -/
structure Instance where
  name : String
  store : ModelStore
  agent : Agent
deriving DecidableEq, Repr

/-- Modelled from the spec: two cooperating instances sharing discovery state: the
instance a workload talks to and its peer. -/
structure Mesh where
  initiator : Instance
  peer : Instance
deriving DecidableEq, Repr

/-- Modelled from the spec: a `NetworkServiceRequest{connection, mechanismPreferences[]}`
of section 6, reduced to the requested network service and the ordered
preferences. -/
structure Request where
  networkService : String
  mechanismPreferences : List Mechanism
deriving DecidableEq, Repr

/-- Modelled from the spec: how a `Request` ends: with the consumer-facing connection,
with an error, or suspended at the Forwarder Readiness Gate. -/
inductive Outcome where
  | ok (c : Connection)
  | failed (e : Error)
  | suspended
deriving DecidableEq, Repr

/-- Modelled from the spec: `GetClientConnection(id)` of section 4.1: "returns the record
or a not-found indicator". -/
def ModelStore.GetClientConnection (s : ModelStore) (id : Nat) : Option ClientConnection :=
  s.clientConnections.find? (fun c => c.clientConnectionId == id)

/-- Modelled from the spec: `AddClientConnection` of section 4.1: "duplicate add of the
same id is rejected with `AlreadyExists`". -/
def ModelStore.AddClientConnection (s : ModelStore) (c : ClientConnection) :
    Except Error ModelStore :=
  if (s.GetClientConnection c.clientConnectionId).isSome then .error .AlreadyExists
  else .ok { s with clientConnections := s.clientConnections ++ [c] }

/-- Modelled from the spec: `RemoveClientConnection` of section 4.1: "fails with
`NotFound` if the target id does not exist". -/
def ModelStore.RemoveClientConnection (s : ModelStore) (id : Nat) : Except Error ModelStore :=
  if (s.GetClientConnection id).isSome then
    .ok { s with clientConnections :=
      s.clientConnections.filter (fun c => c.clientConnectionId != id) }
  else .error .NotFound

/-- Modelled from the spec: `ListEndpointsByNetworkService(name)` of section 4.1. -/
def ModelStore.ListEndpointsByNetworkService (s : ModelStore) (name : String) : List Endpoint :=
  s.endpoints.filter (fun e => e.networkServiceName == name)

/-- Modelled from the spec: `AddEndpoint` of section 4.1. -/
def ModelStore.AddEndpoint (s : ModelStore) (e : Endpoint) : Except Error ModelStore :=
  if s.endpoints.any (fun x => x.id == e.id) then .error .AlreadyExists
  else .ok { s with endpoints := s.endpoints ++ [e] }

/-- Modelled from the spec: `AddForwarder` of section 4.1; `registeredName` is the
unique key. -/
def ModelStore.AddForwarder (s : ModelStore) (f : Forwarder) : Except Error ModelStore :=
  if s.forwarders.any (fun x => x.registeredName == f.registeredName) then .error .AlreadyExists
  else .ok { s with forwarders := s.forwarders ++ [f] }

/-- Modelled from the spec: `UpdateForwarder` of section 4.1: the agent reports its
configured mechanism set. -/
def ModelStore.UpdateForwarder (s : ModelStore) (f : Forwarder) : Except Error ModelStore :=
  if s.forwarders.any (fun x => x.registeredName == f.registeredName) then
    .ok { s with forwarders :=
      s.forwarders.map (fun x => if x.registeredName == f.registeredName then f else x) }
  else .error .NotFound

/-- Modelled from the spec: `InstallMechanism(CrossConnect)` of section 6: "idempotent:
installing an already-installed CrossConnect id is a no-op success". -/
def Agent.InstallMechanism (a : Agent) (x : CrossConnect) : Except Error Agent :=
  if a.installs then
    if a.connections.any (fun y => y.id == x.id) then .ok a
    else .ok { a with connections := a.connections ++ [x] }
  else .error .InstallFailed

/-- Modelled from the spec: `RemoveMechanism(CrossConnect)` of section 6: "idempotent:
removing an already-absent id is a no-op success". -/
def Agent.RemoveMechanism (a : Agent) (x : CrossConnect) : Except Error Agent :=
  if a.removes then .ok { a with connections := a.connections.filter (fun y => y.id != x.id) }
  else .error .RemoveFailed

/-- Modelled from the spec: whether a forwarder offers mechanisms of a class: local
mechanisms or remote transports (section 3). -/
def Forwarder.offers (f : Forwarder) (remote : Bool) : Bool :=
  if remote then !f.remoteMechanisms.isEmpty else !f.localMechanisms.isEmpty

/-- Modelled from the spec: whether a forwarder supports a mechanism: a local one by its
local mechanism list, a remote transport by its remote mechanism list
(section 4.3). -/
def Forwarder.supports (f : Forwarder) (m : Mechanism) : Bool :=
  if m.remote then f.remoteMechanisms.contains m.type else f.localMechanisms.contains m.type

/-- Modelled from the spec: the mechanism negotiation of section 4.3: "pick the first
consumer-preferred mechanism type that the forwarder supports". -/
def negotiate (preferences : List Mechanism) (f : Forwarder) : Option Mechanism :=
  preferences.find? f.supports

/-- Modelled from the spec: forwarder selection of section 4.4, step 2: the "first
forwarder matching required mechanism class; tie-break by registration order".
A forwarder registered "with a bare descriptor" has not published its mechanism
lists, so it cannot be told yet whether it matches: it can be selected, and the
request then waits for it at the Readiness Gate (step 3, Scenario C). -/
def ModelStore.selectForwarder (s : ModelStore) (remote : Bool) : Option Forwarder :=
  s.forwarders.find? (fun f => !f.mechanismsConfigured || f.offers remote)

/-- Modelled from the spec: the largest id a cross-connect carries, for the fresh ids of
section 4.3. -/
def CrossConnect.topId (x : CrossConnect) : Nat :=
  max x.id (max x.Source.id
    (match x.Destination with
     | .connection c => c.id
     | .remoteReference _ => 0))

/-- Modelled from the spec: the "fresh unique ids" of section 4.3: an id above every id
of a client connection of the store and of a cross-connect the agent has
recorded. -/
def Instance.freshId (i : Instance) : Nat :=
  max (i.store.clientConnections.foldr
        (fun c n => max (max c.clientConnectionId c.crossConnect.topId + 1) n) 1)
      (i.agent.connections.foldr (fun x n => max (x.topId + 1) n) 1)

/-- Modelled from the spec: the mechanism of the destination half towards a local
endpoint: the first mechanism the endpoint advertises, a bare local mechanism
when it advertises none. -/
def Endpoint.mechanism (e : Endpoint) : Mechanism :=
  e.mechanisms.headD ⟨false, "", []⟩

/-- Modelled from the spec: steps 2 to 5 of `Request` (section 4.4) on the instance that
hosts the chosen endpoint, for the required mechanism class `remote`: select
the forwarder (without a candidate no mechanism can be agreed on), wait at the
readiness gate (a request that has to wait is `suspended`), negotiate, build
the cross-connect with fresh ids, install it, and on success commit the
ClientConnection and return the source half; a failure commits nothing. -/
def Instance.requestLocal (i : Instance) (remote : Bool) (req : Request) (e : Endpoint) :
    Outcome × Instance :=
  match i.store.selectForwarder remote with
  | none => (.failed .NoCompatibleMechanism, i)
  | some f =>
    if f.mechanismsConfigured then
      match negotiate req.mechanismPreferences f with
      | none => (.failed .NoCompatibleMechanism, i)
      | some m =>
        let src : Connection := ⟨i.freshId, req.networkService, m⟩
        let dst : Connection := ⟨i.freshId + 1, req.networkService, e.mechanism⟩
        let xcon : CrossConnect := ⟨src.id, src, .connection dst⟩
        match i.agent.InstallMechanism xcon with
        | .error err => (.failed err, i)
        | .ok agent =>
          match i.store.AddClientConnection ⟨src.id, xcon, f.registeredName⟩ with
          | .error err => (.failed err, i)
          | .ok store => (.ok src, { i with store := store, agent := agent })
    else (.suspended, i)

/-- Modelled from the spec: `Close` (section 4.4) on one instance for a connection whose
destination is local to it: look the ClientConnection up, invoke the remove
contract, and remove the ClientConnection "only after local removal
succeeds". -/
def Instance.closeLocal (i : Instance) (id : Nat) : Option Error × Instance :=
  match i.store.GetClientConnection id with
  | none => (some .NotFound, i)
  | some c =>
    match i.agent.RemoveMechanism c.crossConnect with
    | .error err => (some err, i)
    | .ok agent =>
      match i.store.RemoveClientConnection id with
      | .error err => (some err, { i with agent := agent })
      | .ok store => (none, { i with store := store, agent := agent })

/-- Modelled from the spec: the request the Remote Delegate Client sends to the peer for
the remote half: the network service with the remote transports of the local
forwarder as preferences. -/
def delegatedRequest (req : Request) (f : Forwarder) : Request :=
  ⟨req.networkService, f.remoteMechanisms.map (fun t => ⟨true, t, []⟩)⟩

/-- Modelled from the spec: `Request` (section 4.4) on the initiating instance, in the
order of the data flow of section 2.  The endpoints of the network service are
resolved in the own store, then in the store of the peer; without any the
request fails with `NoSuchNetworkService`.  For a local endpoint steps 2 to 5
run here.  For an endpoint on the peer the local forwarder is selected and
awaited and the source mechanism negotiated, the remote half is requested from
the peer (step 6), whose error or suspension is passed on unchanged
(section 4.5), and the local cross-connect, whose destination is a
`RemoteReference` to the id the peer returned, is installed and committed; if
that fails the half on the peer is closed again.  The preference of the workload
is negotiated against the forwarder of the initiating instance, not that of
the peer: `TestNSMDCloseCrossConnection` registers on the peer a forwarder
without local mechanisms, and its request for a kernel interface succeeds. -/
def Mesh.Request (m : Mesh) (req : Request) : Outcome × Mesh :=
  match m.initiator.store.ListEndpointsByNetworkService req.networkService with
  | e :: _ =>
    ((m.initiator.requestLocal false req e).1,
      { m with initiator := (m.initiator.requestLocal false req e).2 })
  | [] =>
    match m.peer.store.ListEndpointsByNetworkService req.networkService with
    | [] => (.failed .NoSuchNetworkService, m)
    | e :: _ =>
      match m.initiator.store.selectForwarder false with
      | none => (.failed .NoCompatibleMechanism, m)
      | some f =>
        if f.mechanismsConfigured then
          match negotiate req.mechanismPreferences f with
          | none => (.failed .NoCompatibleMechanism, m)
          | some mech =>
            match m.peer.requestLocal true (delegatedRequest req f) e with
            | (.failed err, _) => (.failed err, m)
            | (.suspended, _) => (.suspended, m)
            | (.ok remoteConnection, peer) =>
              let src : Connection := ⟨m.initiator.freshId, req.networkService, mech⟩
              let xcon : CrossConnect := ⟨src.id, src, .remoteReference remoteConnection.id⟩
              match m.initiator.agent.InstallMechanism xcon with
              | .error err =>
                (.failed err, { m with peer := (peer.closeLocal remoteConnection.id).2 })
              | .ok agent =>
                match m.initiator.store.AddClientConnection
                    ⟨src.id, xcon, f.registeredName⟩ with
                | .error err =>
                  (.failed err, { m with peer := (peer.closeLocal remoteConnection.id).2 })
                | .ok store =>
                  (.ok src,
                    { initiator := { m.initiator with store := store, agent := agent }
                      peer := peer })
        else (.suspended, m)

/-- Modelled from the spec: `Close(connectionId)` (section 4.4) on the initiating
instance: a missing ClientConnection is `NotFound`; otherwise the local half is
removed, and "if the Destination is a RemoteReference" `Close` is issued to the
peer for that id, also when the local removal failed; the error of the local
side, else that of the peer, is reported. -/
def Mesh.Close (m : Mesh) (id : Nat) : Option Error × Mesh :=
  match m.initiator.store.GetClientConnection id with
  | none => (some .NotFound, m)
  | some c =>
    match c.crossConnect.Destination with
    | .connection _ =>
      ((m.initiator.closeLocal id).1, { m with initiator := (m.initiator.closeLocal id).2 })
    | .remoteReference remoteId =>
      (((m.initiator.closeLocal id).1).orElse (fun _ => (m.peer.closeLocal remoteId).1),
        { initiator := (m.initiator.closeLocal id).2, peer := (m.peer.closeLocal remoteId).2 })

/-- Modelled from the spec: the two instances together with the requests in flight, which
the control plane itself (not among the sources) would hold as suspended
tasks: the requests suspended at the Forwarder Readiness Gate, in order of
arrival, and the answers already given. -/
structure System where
  mesh : Mesh
  waiting : List Request
  answers : List (Request × Outcome)
deriving DecidableEq, Repr

/-- Modelled from the spec: a workload submits a request (section 4.4): it is answered, or,
when "a not-yet-ready forwarder causes the call to suspend", it stays in flight
at the gate. -/
def System.submit (s : System) (req : Request) : System :=
  match s.mesh.Request req with
  | (.suspended, _) => { s with waiting := s.waiting ++ [req] }
  | (o, m) => { s with mesh := m, answers := s.answers ++ [(req, o)] }

/-- Modelled from the spec: the release at the Forwarder Readiness Gate (section 4.2):
"Multiple concurrent waiters on the same forwarder are all released by a single
configuration update".  Every request in flight is resumed, in order of arrival,
on the state it finds ("re-validated after waking from a wait"); one that has
to wait again stays in flight. -/
def System.release (s : System) : System :=
  s.waiting.foldl System.submit { s with waiting := [] }

/-- Modelled from the spec: `UpdateForwarder` on the Model Store of the peer instance
(section 4.1), whose update event drives the Forwarder Readiness Gate. -/
def System.UpdatePeerForwarder (s : System) (f : Forwarder) : Option Error × System :=
  match s.mesh.peer.store.UpdateForwarder f with
  | .error e => (some e, s)
  | .ok store =>
    (none, System.release
      { s with mesh := { s.mesh with peer := { s.mesh.peer with store := store } } })

/-! ## The fixtures of `nsmd_remote_test.go` -/

/-- The kernel-interface preference of the scenarios. -/
def kernelPreference : Mechanism :=
  ⟨false, "KERNEL_INTERFACE", [("netnsInode", "10"), ("name", "icmp-responder1")]⟩

/-- The forwarder of the initiating instance in the tests (`testForwarder1`, declared
outside the sources): kernel interfaces locally, VXLAN as remote transport. -/
def masterForwarder : Forwarder :=
  ⟨"test_data_plane", "tcp:some_addr", ["KERNEL_INTERFACE"], ["VXLAN"], true⟩

/-- The forwarder of the peer instance in the tests (`testForwarder2`, declared outside
the sources). -/
def workerForwarder : Forwarder :=
  ⟨"test_data_plane2", "tcp:some_addr", ["KERNEL_INTERFACE"], ["VXLAN"], true⟩

/-- The endpoint of `golden_network`, registered on the peer. -/
def goldenEndpoint : Endpoint := ⟨"test", "golden_network", [], [], "worker"⟩

/-- The two instances of the scenarios before any request. -/
def scenarioMesh : Mesh :=
  ⟨⟨"master", ⟨[], [masterForwarder], []⟩, ⟨true, true, []⟩⟩,
   ⟨"worker", ⟨[goldenEndpoint], [workerForwarder], []⟩, ⟨true, true, []⟩⟩⟩

/-- The request of the scenarios. -/
def scenarioRequest : Request := ⟨"golden_network", [kernelPreference]⟩

/-- The forwarder of the peer instance in `TestNSMDDelayRemoteMechanisms`, as first
registered: without mechanisms, not configured. -/
def delayedForwarder : Forwarder := ⟨"test_data_plane2", "tcp:some_addr", [], [], false⟩

/-- The same forwarder as updated later in the test: with the mechanisms of the
forwarder of the other scenarios, configured. -/
def configuredForwarder : Forwarder :=
  { delayedForwarder with
    localMechanisms := workerForwarder.localMechanisms
    remoteMechanisms := workerForwarder.remoteMechanisms
    mechanismsConfigured := true }

/-- The two instances of `TestNSMDDelayRemoteMechanisms` before the request. -/
def delayedMesh : Mesh :=
  ⟨⟨"master", ⟨[], [masterForwarder], []⟩, ⟨true, true, []⟩⟩,
   ⟨"worker", ⟨[goldenEndpoint], [delayedForwarder], []⟩, ⟨true, true, []⟩⟩⟩

end ControlPlane

namespace ControlPlane

/-- The mesh with another forwarding agent on the peer instance. -/
def Mesh.withPeerAgent (m : Mesh) (a : Agent) : Mesh :=
  { m with peer := { m.peer with agent := a } }

/-- The mesh with another forwarding agent on the initiating instance. -/
def Mesh.withInitiatorAgent (m : Mesh) (a : Agent) : Mesh :=
  { m with initiator := { m.initiator with agent := a } }

/-- The mesh with other forwarders registered on the peer instance. -/
def Mesh.withPeerForwarders (m : Mesh) (fs : List Forwarder) : Mesh :=
  { m with peer := { m.peer with store := { m.peer.store with forwarders := fs } } }

/-- The mesh with other forwarders registered on the initiating instance. -/
def Mesh.withInitiatorForwarders (m : Mesh) (fs : List Forwarder) : Mesh :=
  { m with initiator := { m.initiator with store := { m.initiator.store with forwarders := fs } } }

/-- A configured forwarder whose only remote transport is GRE. -/
def greForwarder : Forwarder :=
  ⟨"test_data_plane2", "tcp:some_addr", ["KERNEL_INTERFACE"], ["GRE"], true⟩

/-- The forwarder of the peer instance in `TestNSMDCloseCrossConnection`: VXLAN as remote
transport, no local mechanism, configured. -/
def closeWorkerForwarder : Forwarder :=
  ⟨"test_data_plane", "tcp:some_addr", [], ["VXLAN"], true⟩

/-- The two instances of `TestNSMDCloseCrossConnection` before the request. -/
def closeMesh : Mesh :=
  ⟨⟨"master", ⟨[], [masterForwarder], []⟩, ⟨true, true, []⟩⟩,
   ⟨"worker", ⟨[goldenEndpoint], [closeWorkerForwarder], []⟩, ⟨true, true, []⟩⟩⟩

/-- A cross-connect of an earlier connection, recorded by an agent. -/
def earlierCrossConnect : CrossConnect :=
  ⟨7, ⟨7, "golden_network", ⟨true, "VXLAN", []⟩⟩,
    .connection ⟨8, "golden_network", ⟨false, "", []⟩⟩⟩

end ControlPlane

/-! # Theorems -/

namespace NSM

/-! ## Calculus of the monad -/

@[simp] theorem pure_out {α : Type} (a : α) (s : Kernel) : ((pure a : M α) s).out = .ret a := rfl
@[simp] theorem pure_kernel {α : Type} (a : α) (s : Kernel) : ((pure a : M α) s).kernel = s := rfl
@[simp] theorem pure_trace {α : Type} (a : α) (s : Kernel) : ((pure a : M α) s).trace = [] := rfl

@[simp] theorem panic_out {α : Type} (msg : String) (s : Kernel) :
    ((M.panic msg : M α) s).out = .panic msg := rfl

theorem bind_ret {α β : Type} (m : M α) (f : α → M β) (s : Kernel) (a : α)
    (h : (m s).out = .ret a) :
    (m >>= f) s = ⟨(f a (m s).kernel).out, (f a (m s).kernel).kernel,
      (m s).trace ++ (f a (m s).kernel).trace⟩ := by
  show M.bind m f s = _
  simp [M.bind, h]

theorem bind_panic {α β : Type} (m : M α) (f : α → M β) (s : Kernel) (msg : String)
    (h : (m s).out = .panic msg) :
    (m >>= f) s = ⟨.panic msg, (m s).kernel, (m s).trace⟩ := by
  show M.bind m f s = _
  simp [M.bind, h]

theorem bind_out_ret {α β : Type} {m : M α} {f : α → M β} {s : Kernel} {b : β} :
    ((m >>= f) s).out = .ret b ↔
      ∃ a, (m s).out = .ret a ∧ (f a (m s).kernel).out = .ret b := by
  cases h : (m s).out with
  | ret a => rw [bind_ret m f s a h]; simp
  | panic msg => rw [bind_panic m f s msg h]; simp

@[simp] theorem prim_out {α : Type} (c : Call) (f : Kernel → α × Kernel) (s : Kernel) :
    (prim c f s).out = .ret (f s).1 := rfl
@[simp] theorem prim_kernel {α : Type} (c : Call) (f : Kernel → α × Kernel) (s : Kernel) :
    (prim c f s).kernel = (f s).2 := rfl
@[simp] theorem prim_trace {α : Type} (c : Call) (f : Kernel → α × Kernel) (s : Kernel) :
    (prim c f s).trace = [c] := rfl

@[simp] theorem mark_out (c : Call) (s : Kernel) : (mark c s).out = .ret () := rfl
@[simp] theorem mark_kernel (c : Call) (s : Kernel) : (mark c s).kernel = s := rfl
@[simp] theorem mark_trace (c : Call) (s : Kernel) : (mark c s).trace = [c] := rfl

@[simp] theorem deferred_out {α : Type} (d : M Unit) (body : M α) (s : Kernel) :
    (M.deferred d body s).out = (body s).out := rfl

/-- `SetupInterface` always returns the namespace inode of the mechanism. -/
theorem SetupInterface_fst (lib : Lib) (ifaceName tempName : String) (conn : Option Connection)
    (isDst : Bool) (s : Kernel) (x : String) (e : Option String)
    (h : (SetupInterface lib ifaceName tempName conn isDst s).out = .ret (x, e)) :
    x = mapGet (GetParameters (GetMechanism conn)) NetNsInodeKey := by
  unfold SetupInterface at h
  rw [bind_out_ret] at h
  obtain ⟨_, _, h⟩ := h
  rw [bind_out_ret] at h
  obtain ⟨r, _, h⟩ := h
  cases r with
  | error e1 => simp at h; exact h.1.symm
  | ok nsHandle =>
    simp only [deferred_out] at h
    rw [bind_out_ret] at h
    obtain ⟨err, _, h⟩ := h
    cases err <;> simp at h <;> exact h.1.symm

end NSM

namespace NSM

theorem prim_bind {α β : Type} (c : Call) (f : Kernel → α × Kernel) (g : α → M β) (s : Kernel) :
    (prim c f >>= g) s
      = ⟨(g (f s).1 (f s).2).out, (g (f s).1 (f s).2).kernel, c :: (g (f s).1 (f s).2).trace⟩ := by
  rw [bind_ret (prim c f) g s (f s).1 rfl]; rfl

theorem mark_bind {β : Type} (c : Call) (g : Unit → M β) (s : Kernel) :
    (mark c >>= g) s = ⟨(g () s).out, (g () s).kernel, c :: (g () s).trace⟩ := by
  rw [bind_ret (mark c) g s () rfl]; rfl

theorem deferred_apply {α : Type} (d : M Unit) (body : M α) (s : Kernel) :
    M.deferred d body s
      = ⟨(body s).out, (d (body s).kernel).kernel, (body s).trace ++ (d (body s).kernel).trace⟩ :=
  rfl

theorem bind_out {α β : Type} (m : M α) (f : α → M β) (s : Kernel) :
    ((m >>= f) s).out = match (m s).out with
      | .ret a => (f a (m s).kernel).out
      | .panic msg => .panic msg := by
  show (M.bind m f s).out = _
  unfold M.bind
  split <;> simp [*]

theorem bind_kernel {α β : Type} (m : M α) (f : α → M β) (s : Kernel) :
    ((m >>= f) s).kernel = match (m s).out with
      | .ret a => (f a (m s).kernel).kernel
      | .panic _ => (m s).kernel := by
  show (M.bind m f s).kernel = _
  unfold M.bind
  split <;> simp [*]

theorem bind_trace {α β : Type} (m : M α) (f : α → M β) (s : Kernel) :
    ((m >>= f) s).trace = match (m s).out with
      | .ret a => (m s).trace ++ (f a (m s).kernel).trace
      | .panic _ => (m s).trace := by
  show (M.bind m f s).trace = _
  unfold M.bind
  split <;> simp [*]

@[simp] theorem deferred_kernel {α : Type} (d : M Unit) (body : M α) (s : Kernel) :
    (M.deferred d body s).kernel = (d (body s).kernel).kernel := rfl

@[simp] theorem deferred_trace {α : Type} (d : M Unit) (body : M α) (s : Kernel) :
    (M.deferred d body s).trace = (body s).trace ++ (d (body s).kernel).trace := rfl

theorem find_none_of_hasLink {s : Kernel} {ns name : String} (h : s.hasLink ns name = false) :
    s.links.find? (fun l => l.ns == ns && l.name == name) = none := by
  simpa [Kernel.hasLink, List.find?_eq_none] using h

theorem ClearInterfaceSetup_absent (lib : Lib) (ifaceName : String) (conn : Option Connection)
    (s : Kernel)
    (h : s.hasLink (mapGet (GetParameters (GetMechanism conn)) NetNsInodeKey) ifaceName = false) :
    ∃ e, (ClearInterfaceSetup lib ifaceName conn s).out = .ret ("", some e) := by
  by_cases hns : mapGet (GetParameters (GetMechanism conn)) NetNsInodeKey ∈ s.namespaces
  · simp [ClearInterfaceSetup, bind_out, bind_kernel, fs.GetNsHandleFromInode, hns,
      setupLinkInNs, setupLinkInNsSwitch, netns.Get, netns.Set, setupLinkInNsInner,
      netlink.LinkByName, find_none_of_hasLink h]
  · simp [ClearInterfaceSetup, bind_out, bind_kernel, fs.GetNsHandleFromInode, hns]

end NSM

namespace NSM

/-! ## Functions that never panic -/

theorem returns_pure {α : Type} (a : α) : Returns (pure a : M α) := fun _ => ⟨a, rfl⟩

theorem returns_prim {α : Type} (c : Call) (f : Kernel → α × Kernel) : Returns (prim c f) :=
  fun s => ⟨(f s).1, rfl⟩

theorem returns_mark (c : Call) : Returns (mark c) := fun _ => ⟨(), rfl⟩

theorem returns_bind {α β : Type} {m : M α} {f : α → M β} (hm : Returns m)
    (hf : ∀ a, Returns (f a)) : Returns (m >>= f) := by
  intro s
  obtain ⟨a, ha⟩ := hm s
  obtain ⟨b, hb⟩ := hf a (m s).kernel
  exact ⟨b, by rw [bind_out, ha]; exact hb⟩

theorem returns_deferred {α : Type} (d : M Unit) {body : M α} (hb : Returns body) :
    Returns (M.deferred d body) := fun s => hb s

theorem returns_ite {α : Type} {c : Prop} [Decidable c] {a b : M α} (ha : Returns a)
    (hb : Returns b) : Returns (if c then a else b) := by
  split <;> assumption

theorem netlink.RouteDel_returns (i : Nat) (dst : String) : Returns (netlink.RouteDel i dst) :=
  returns_prim _ _

theorem deleteRoutesInner_returns (link : Link) (l : List KRoute) :
    Returns (deleteRoutesInner link l) := by
  induction l with
  | nil => exact returns_pure _
  | cons r rest ih =>
    unfold deleteRoutesInner
    refine returns_bind (returns_prim _ _) (fun err => ?_)
    cases err with
    | none => exact ih
    | some e => exact returns_pure _

theorem deleteRoutesLoop_returns (link : Link) (installed : List KRoute) (l : List String) :
    Returns (deleteRoutesLoop link installed l) := by
  induction l with
  | nil => exact returns_pure _
  | cons r rest ih =>
    unfold deleteRoutesLoop
    refine returns_bind (deleteRoutesInner_returns _ _) (fun err => ?_)
    cases err with
    | none => exact ih
    | some e => exact returns_pure _

theorem deleteRoutes_returns (link : Link) (lroutes : LinkRoutes) :
    Returns (deleteRoutes link lroutes) := by
  unfold deleteRoutes
  refine returns_bind (returns_prim _ _) (fun r => ?_)
  cases r with
  | error e => exact returns_pure _
  | ok installed => exact deleteRoutesLoop_returns _ _ _

theorem setupLinkInNs_false_returns (lib : Lib) (link : LinkData) :
    Returns (setupLinkInNs lib link false) := by
  simp only [setupLinkInNs, Bool.false_eq_true, if_false]
  unfold setupLinkInNsSwitch
  refine returns_bind (returns_prim _ _) (fun r => ?_)
  cases r with
  | error e => exact returns_pure _
  | ok hostNs =>
    refine returns_deferred _ (returns_bind (returns_prim _ _) (fun err => ?_))
    cases err with
    | some e => exact returns_pure _
    | none =>
      refine returns_deferred _ ?_
      unfold setupLinkInNsInner
      refine returns_bind (returns_prim _ _) (fun r => ?_)
      cases r with
      | error e => exact returns_pure _
      | ok l =>
        simp only [Bool.false_eq_true, if_false]
        refine returns_bind (deleteRoutes_returns _ _) (fun _ => ?_)
        refine returns_bind (returns_prim _ _) (fun err => ?_)
        cases err with
        | some e => exact returns_pure _
        | none =>
          refine returns_bind (returns_prim _ _) (fun err => ?_)
          cases err <;> exact returns_pure _

theorem ClearInterfaceSetup_returns (lib : Lib) (ifaceName : String) (conn : Option Connection) :
    Returns (ClearInterfaceSetup lib ifaceName conn) := by
  unfold ClearInterfaceSetup
  refine returns_bind (returns_mark _) (fun _ => ?_)
  refine returns_bind (returns_prim _ _) (fun r => ?_)
  cases r with
  | error e => exact returns_pure _
  | ok nsHandle =>
    refine returns_deferred _ (returns_bind (setupLinkInNs_false_returns _ _) (fun err => ?_))
    cases err <;> exact returns_pure _

/-- When `ClearInterfaceSetup` reports no error it returns the namespace inode. -/
theorem ClearInterfaceSetup_fst (lib : Lib) (ifaceName : String) (conn : Option Connection)
    (s : Kernel) (x : String)
    (h : (ClearInterfaceSetup lib ifaceName conn s).out = .ret (x, none)) :
    x = mapGet (GetParameters (GetMechanism conn)) NetNsInodeKey := by
  unfold ClearInterfaceSetup at h
  rw [bind_out_ret] at h
  obtain ⟨_, _, h⟩ := h
  rw [bind_out_ret] at h
  obtain ⟨r, _, h⟩ := h
  cases r with
  | error e1 => simp at h
  | ok nsHandle =>
    simp only [deferred_out] at h
    rw [bind_out_ret] at h
    obtain ⟨err, _, h⟩ := h
    cases err <;> simp at h
    exact h.symm

end NSM

namespace NSM

/-! ## Removal of absent interfaces -/

theorem deleteLocalConnection_absent (k : KernelForwarder) (lib : Lib) (xc : CrossConnect)
    (s : Kernel)
    (h : s.hasLink (netNsInodeOf xc.GetSource) (ifaceNameOf xc.GetSource) = false) :
    ∃ e, (deleteLocalConnection k lib xc s).out = .ret (none, some e) := by
  obtain ⟨e, he⟩ := ClearInterfaceSetup_absent lib (ifaceNameOf xc.GetSource) xc.GetSource s h
  obtain ⟨⟨b, dstErr⟩, hd⟩ := ClearInterfaceSetup_returns lib (ifaceNameOf xc.GetDestination)
    xc.GetDestination (ClearInterfaceSetup lib (ifaceNameOf xc.GetSource) xc.GetSource s).kernel
  refine ⟨"local: " ++ e ++ " - " ++ fmtErr dstErr, ?_⟩
  simp only [ifaceNameOf] at he hd
  simp [deleteLocalConnection, bind_out, bind_kernel, he, hd, KernelForwarder.DeleteInterfaces,
    fmtErr]

theorem deleteRemoteConnection_absent (k : KernelForwarder) (lib : Lib) (connID : String)
    (lc rc : Option Connection) (direction : Nat) (s : Kernel)
    (h : s.hasLink (netNsInodeOf lc) (ifaceNameOf lc) = false) :
    ∃ e, (deleteRemoteConnection k lib connID lc rc direction s).out = .ret (none, some e) := by
  obtain ⟨e, he⟩ := ClearInterfaceSetup_absent lib (ifaceNameOf lc) lc s h
  simp only [ifaceNameOf] at he
  simp [deleteRemoteConnection, bind_out, bind_kernel, he, KernelForwarder.DeleteInterface,
    fmtErr]

/-- C2, as amended: removing a cross-connect whose interfaces are absent is not a
no-op success.  When neither the source nor the destination interface exists
in its namespace, `handleLocalConnection` and `handleRemoteConnection` with
`connect = false` both return an error and nil devices. -/
theorem remove_absent_returns_error (k : KernelForwarder) (lib : Lib) (xc : CrossConnect)
    (r1 r2 : Nat) (s : Kernel)
    (hsrc : s.hasLink (netNsInodeOf xc.GetSource) (ifaceNameOf xc.GetSource) = false)
    (hdst : s.hasLink (netNsInodeOf xc.GetDestination) (ifaceNameOf xc.GetDestination) = false) :
    (∃ e, (handleLocalConnection k lib xc false r1 r2 s).out = .ret ((none, some e), xc)) ∧
    (∃ e, (handleRemoteConnection k lib xc false s).out = .ret (none, some e)) := by
  constructor
  · obtain ⟨e, he⟩ := deleteLocalConnection_absent k lib xc s hsrc
    exact ⟨e, by simp [handleLocalConnection, bind_out, he]⟩
  · unfold handleRemoteConnection
    split
    · obtain ⟨e, he⟩ := deleteRemoteConnection_absent k lib xc.GetId xc.GetDestination
        xc.GetSource INCOMING s hdst
      exact ⟨e, by simp [handleConnection, bind_out, he]⟩
    · split
      · obtain ⟨e, he⟩ := deleteRemoteConnection_absent k lib xc.GetId xc.GetSource
          xc.GetDestination OUTGOING s hsrc
        exact ⟨e, by simp [handleConnection, bind_out, he]⟩
      · exact ⟨_, rfl⟩

/-- Witness of `remove_absent_returns_error`: the example cross-connect on a kernel
without links. -/
theorem remove_absent_returns_error_witness :
    (∃ e, (handleLocalConnection kernelForwarder exampleLib exampleLocalXcon false 0 0
        exampleKernel).out = .ret ((none, some e), exampleLocalXcon)) ∧
    (∃ e, (handleRemoteConnection kernelForwarder exampleLib exampleLocalXcon false
        exampleKernel).out = .ret (none, some e)) :=
  remove_absent_returns_error kernelForwarder exampleLib exampleLocalXcon 0 0 exampleKernel
    (by decide) (by decide)

/-- C2, counterexample: on a kernel without links the local delete path returns an
error instead of succeeding. -/
theorem remove_absent_not_success :
    exampleKernel.hasLink (netNsInodeOf exampleLocalXcon.GetSource)
        (ifaceNameOf exampleLocalXcon.GetSource) = false ∧
    exampleKernel.hasLink (netNsInodeOf exampleLocalXcon.GetDestination)
        (ifaceNameOf exampleLocalXcon.GetDestination) = false ∧
    (handleLocalConnection kernelForwarder exampleLib exampleLocalXcon false 0 0
        exampleKernel).out
      = .ret ((none, some ("local: failed to extract interface - source - \"eth10\": " ++
          "Link not found - failed to extract interface - source - \"eth20\": Link not found")),
          exampleLocalXcon) := by
  decide

end NSM

namespace NSM

/-! ## `handleRemoteConnection` -/

theorem bind_trace_ne_nil {α β : Type} {m : M α} {f : α → M β} {s : Kernel}
    (h : (m s).trace ≠ []) : ((m >>= f) s).trace ≠ [] := by
  rw [bind_trace]
  split
  · simp [h]
  · exact h

theorem prim_bind_trace_ne_nil {α β : Type} (c : Call) (g : Kernel → α × Kernel) (f : α → M β)
    (s : Kernel) : ((prim c g >>= f) s).trace ≠ [] :=
  bind_trace_ne_nil (by simp)

theorem handleConnection_trace_ne_nil (k : KernelForwarder) (lib : Lib) (connID : String)
    (lc rc : Option Connection) (connect : Bool) (direction : Nat) (s : Kernel) :
    (handleConnection k lib connID lc rc connect direction s).trace ≠ [] := by
  unfold handleConnection
  cases connect with
  | true =>
    simp only [if_true]
    refine bind_trace_ne_nil (bind_trace_ne_nil ?_)
    exact prim_bind_trace_ne_nil _ _ _ _
  | false =>
    simp only [Bool.false_eq_true, if_false]
    refine bind_trace_ne_nil (bind_trace_ne_nil ?_)
    unfold ClearInterfaceSetup
    exact bind_trace_ne_nil (by simp)

theorem handleRemoteConnection_cases (k : KernelForwarder) (lib : Lib) (xc : CrossConnect)
    (connect : Bool) (s : Kernel) :
    handleRemoteConnection k lib xc connect s =
      if lib.IsRemote xc.GetSource = lib.IsRemote xc.GetDestination then
        ⟨.ret (none, some "remote: invalid connection type"), s, []⟩
      else if lib.IsRemote xc.GetSource then
        handleConnection k lib xc.GetId xc.GetDestination xc.GetSource connect INCOMING s
      else
        handleConnection k lib xc.GetId xc.GetSource xc.GetDestination connect OUTGOING s := by
  unfold handleRemoteConnection
  cases hs : lib.IsRemote xc.GetSource <;> cases hd : lib.IsRemote xc.GetDestination <;>
    simp <;> rfl

/-- C4: `handleRemoteConnection` delegates to `handleConnection` when exactly one
side of the cross-connect is remote (incoming for a remote source, outgoing
for a remote destination), and otherwise returns the error
"remote: invalid connection type" with nil devices without any call; it
returns that error without any call exactly when `Source.IsRemote()` equals
`Destination.IsRemote()`. -/
theorem handleRemoteConnection_invalid_iff (k : KernelForwarder) (lib : Lib) (xc : CrossConnect)
    (connect : Bool) (s : Kernel) :
    (handleRemoteConnection k lib xc connect s =
      if lib.IsRemote xc.GetSource = lib.IsRemote xc.GetDestination then
        ⟨.ret (none, some "remote: invalid connection type"), s, []⟩
      else if lib.IsRemote xc.GetSource then
        handleConnection k lib xc.GetId xc.GetDestination xc.GetSource connect INCOMING s
      else
        handleConnection k lib xc.GetId xc.GetSource xc.GetDestination connect OUTGOING s) ∧
    (((handleRemoteConnection k lib xc connect s).out
          = .ret (none, some "remote: invalid connection type") ∧
        (handleRemoteConnection k lib xc connect s).trace = [] ∧
        (handleRemoteConnection k lib xc connect s).kernel = s) ↔
      lib.IsRemote xc.GetSource = lib.IsRemote xc.GetDestination) := by
  refine ⟨handleRemoteConnection_cases k lib xc connect s, ?_⟩
  constructor
  · intro h
    by_contra hne
    rw [handleRemoteConnection_cases, if_neg hne] at h
    split at h
    · exact handleConnection_trace_ne_nil _ _ _ _ _ _ _ _ h.2.1
    · exact handleConnection_trace_ne_nil _ _ _ _ _ _ _ _ h.2.1
  · intro h
    rw [handleRemoteConnection_cases, if_pos h]
    exact ⟨rfl, rfl, rfl⟩

end NSM

namespace NSM

theorem createRemoteConnection_devices (k : KernelForwarder) (lib : Lib) (connID : String)
    (lc rc : Option Connection) (direction : Nat) (s : Kernel)
    (devs : Option (List (String × Device)))
    (h : (createRemoteConnection k lib connID lc rc direction s).out = .ret (devs, none)) :
    devs = some [(netNsInodeOf lc, ⟨ifaceNameOf lc,
      if direction = INCOMING then "DST-" ++ connID else "SRC-" ++ connID⟩)] := by
  unfold createRemoteConnection at h
  rw [bind_out_ret] at h
  obtain ⟨⟨found, err⟩, _, h⟩ := h
  cases err with
  | some e => simp at h
  | none =>
    simp only at h
    rw [bind_out_ret] at h
    obtain ⟨err, _, h⟩ := h
    cases err with
    | some e => simp at h
    | none =>
      simp only at h
      rw [bind_out_ret] at h
      obtain ⟨err, _, h⟩ := h
      cases err with
      | some e => simp at h
      | none =>
        simp only at h
        rw [bind_out_ret] at h
        obtain ⟨⟨nsInode, err⟩, hsetup, h⟩ := h
        cases err with
        | some e => simp at h
        | none =>
          have hx := SetupInterface_fst _ _ _ _ _ _ _ _ hsetup
          simp at h
          subst hx
          rw [← h]
          simp [mapSet]

theorem deleteRemoteConnection_devices (k : KernelForwarder) (lib : Lib) (connID : String)
    (lc rc : Option Connection) (direction : Nat) (s : Kernel)
    (devs : Option (List (String × Device)))
    (h : (deleteRemoteConnection k lib connID lc rc direction s).out = .ret (devs, none)) :
    devs = some [(netNsInodeOf lc, ⟨ifaceNameOf lc,
      if direction = INCOMING then "DST-" ++ connID else "SRC-" ++ connID⟩)] := by
  unfold deleteRemoteConnection at h
  rw [bind_out_ret] at h
  obtain ⟨⟨nsInode, localErr⟩, hclear, h⟩ := h
  simp only at h
  rw [bind_out_ret] at h
  obtain ⟨remoteErr, _, h⟩ := h
  cases localErr with
  | some e => simp at h
  | none =>
    cases remoteErr with
    | some e => simp at h
    | none =>
      have hx := ClearInterfaceSetup_fst _ _ _ _ _ hclear
      simp at h
      subst hx
      rw [← h]
      simp [mapSet]

theorem handleConnection_devices (k : KernelForwarder) (lib : Lib) (connID : String)
    (lc rc : Option Connection) (connect : Bool) (direction : Nat) (s : Kernel)
    (devs : Option (List (String × Device)))
    (h : (handleConnection k lib connID lc rc connect direction s).out = .ret (devs, none)) :
    devs = some [(netNsInodeOf lc, ⟨ifaceNameOf lc,
      if direction = INCOMING then "DST-" ++ connID else "SRC-" ++ connID⟩)] := by
  unfold handleConnection at h
  cases connect with
  | true =>
    simp only [if_true] at h
    rw [bind_out_ret] at h
    obtain ⟨⟨d, err⟩, hc, h⟩ := h
    cases err with
    | some e => simp at h
    | none =>
      simp at h
      subst h
      exact createRemoteConnection_devices _ _ _ _ _ _ _ _ hc
  | false =>
    simp only [Bool.false_eq_true, if_false] at h
    rw [bind_out_ret] at h
    obtain ⟨⟨d, err⟩, hc, h⟩ := h
    cases err with
    | some e => simp at h
    | none =>
      simp at h
      subst h
      exact deleteRemoteConnection_devices _ _ _ _ _ _ _ _ hc

end NSM

namespace NSM

/-! ## The error of `deleteLocalConnection` -/

/-- C6, at the failing input: both interfaces of the installed example
cross-connect are cleared without error and only `DeleteInterfaces` fails, yet the
error returned by `deleteLocalConnection` is "local: <nil> - <nil>": the message of
the failed step is lost. -/
theorem deleteLocalConnection_drops_delete_error :
    (ClearInterfaceSetup exampleLib "eth10" exampleLocalXcon.GetSource
        exampleInstalledKernel).out = .ret ("10", none) ∧
    (ClearInterfaceSetup exampleLib "eth20" exampleLocalXcon.GetDestination
        (ClearInterfaceSetup exampleLib "eth10" exampleLocalXcon.GetSource
          exampleInstalledKernel).kernel).out = .ret ("20", none) ∧
    (busyForwarder.DeleteInterfaces "eth10"
        (ClearInterfaceSetup exampleLib "eth20" exampleLocalXcon.GetDestination
          (ClearInterfaceSetup exampleLib "eth10" exampleLocalXcon.GetSource
            exampleInstalledKernel).kernel).kernel).out
      = .ret (some "failed to delete the VETH pair - device or resource busy") ∧
    (deleteLocalConnection busyForwarder exampleLib exampleLocalXcon exampleInstalledKernel).out
      = .ret (none, some "local: <nil> - <nil>") := by
  decide

end NSM

namespace NSM

/-! ## Collaborator calls in a trace -/

@[simp] theorem collaboratorCalls_nil : collaboratorCalls [] = [] := rfl

@[simp] theorem collaboratorCalls_append (t u : List Call) :
    collaboratorCalls (t ++ u) = collaboratorCalls t ++ collaboratorCalls u := by
  simp [collaboratorCalls]

theorem quiet_pure {α : Type} (a : α) : Quiet (pure a : M α) := fun _ => rfl

theorem quiet_prim {α : Type} (c : Call) (f : Kernel → α × Kernel)
    (hc : collaboratorCalls [c] = []) : Quiet (prim c f) := fun _ => hc

theorem quiet_bind {α β : Type} {m : M α} {f : α → M β} (hm : Quiet m)
    (hf : ∀ a, Quiet (f a)) : Quiet (m >>= f) := by
  intro s
  rw [bind_trace]
  split
  · rw [collaboratorCalls_append, hm s, hf _ _]; rfl
  · exact hm s

theorem quiet_deferred {α : Type} {d : M Unit} {body : M α} (hd : Quiet d) (hb : Quiet body) :
    Quiet (M.deferred d body) := by
  intro s
  rw [deferred_trace, collaboratorCalls_append, hb s, hd _]; rfl

theorem quiet_close (h : String) : Quiet (do let _ ← NsHandle.Close h; pure ()) :=
  quiet_bind (quiet_prim _ _ rfl) (fun _ => quiet_pure _)

theorem quiet_set (h : String) : Quiet (do let _ ← netns.Set h; pure ()) :=
  quiet_bind (quiet_prim _ _ rfl) (fun _ => quiet_pure _)

theorem findLocalSrcConnection_quiet (xc : CrossConnect) : Quiet (findLocalSrcConnection xc) := by
  unfold findLocalSrcConnection
  refine quiet_bind (quiet_prim _ _ rfl) (fun r => ?_)
  cases r with
  | error e => exact quiet_pure _
  | ok hostNs =>
    refine quiet_deferred (quiet_close _) (quiet_deferred (quiet_set _) ?_)
    refine quiet_bind (quiet_prim _ _ rfl) (fun r => ?_)
    cases r with
    | error e => exact quiet_pure _
    | ok h =>
      refine quiet_deferred (quiet_close _) (quiet_bind (quiet_prim _ _ rfl) (fun err => ?_))
      cases err with
      | some e => exact quiet_pure _
      | none => exact quiet_bind (quiet_prim _ _ rfl) (fun _ => quiet_pure _)

theorem deleteRoutesInner_quiet (link : Link) (l : List KRoute) :
    Quiet (deleteRoutesInner link l) := by
  induction l with
  | nil => exact quiet_pure _
  | cons r rest ih =>
    unfold deleteRoutesInner
    refine quiet_bind (quiet_prim _ _ rfl) (fun err => ?_)
    cases err with
    | none => exact ih
    | some e => exact quiet_pure _

theorem deleteRoutesLoop_quiet (link : Link) (installed : List KRoute) (l : List String) :
    Quiet (deleteRoutesLoop link installed l) := by
  induction l with
  | nil => exact quiet_pure _
  | cons r rest ih =>
    unfold deleteRoutesLoop
    refine quiet_bind (deleteRoutesInner_quiet _ _) (fun err => ?_)
    cases err with
    | none => exact ih
    | some e => exact quiet_pure _

theorem deleteRoutes_quiet (link : Link) (lroutes : LinkRoutes) :
    Quiet (deleteRoutes link lroutes) := by
  unfold deleteRoutes
  refine quiet_bind (quiet_prim _ _ rfl) (fun r => ?_)
  cases r with
  | error e => exact quiet_pure _
  | ok installed => exact deleteRoutesLoop_quiet _ _ _

theorem setupLinkInNs_false_quiet (lib : Lib) (link : LinkData) :
    Quiet (setupLinkInNs lib link false) := by
  simp only [setupLinkInNs, Bool.false_eq_true, if_false]
  unfold setupLinkInNsSwitch
  refine quiet_bind (quiet_prim _ _ rfl) (fun r => ?_)
  cases r with
  | error e => exact quiet_pure _
  | ok hostNs =>
    refine quiet_deferred (quiet_close _) (quiet_bind (quiet_prim _ _ rfl) (fun err => ?_))
    cases err with
    | some e => exact quiet_pure _
    | none =>
      refine quiet_deferred (quiet_set _) ?_
      unfold setupLinkInNsInner
      refine quiet_bind (quiet_prim _ _ rfl) (fun r => ?_)
      cases r with
      | error e => exact quiet_pure _
      | ok l =>
        simp only [Bool.false_eq_true, if_false]
        refine quiet_bind (deleteRoutes_quiet _ _) (fun _ => ?_)
        refine quiet_bind (quiet_prim _ _ rfl) (fun err => ?_)
        cases err with
        | some e => exact quiet_pure _
        | none =>
          refine quiet_bind (quiet_prim _ _ rfl) (fun err => ?_)
          cases err <;> exact quiet_pure _

/-- The only collaborator call in the trace of `ClearInterfaceSetup` is its own marker. -/
theorem ClearInterfaceSetup_calls (lib : Lib) (ifaceName : String) (conn : Option Connection)
    (s : Kernel) :
    collaboratorCalls (ClearInterfaceSetup lib ifaceName conn s).trace
      = [.ClearInterfaceSetup ifaceName] := by
  have q : Quiet (do
      let r ← fs.GetNsHandleFromInode (mapGet (GetParameters (GetMechanism conn)) NetNsInodeKey)
      match r with
      | .error e => pure ("", some ("failed to get source namespace handle - " ++ e))
      | .ok nsHandle =>
        M.deferred (do let _ ← NsHandle.Close nsHandle; pure ()) (do
          let err ← setupLinkInNs lib
            ⟨nsHandle, ifaceName, "", "", GetSrcIpAddr (GetIpContext (GetContext conn)),
              ⟨GetDstRoutes (GetIpContext (GetContext conn)), ""⟩, []⟩ false
          match err with
          | some e =>
            pure ("", some ("failed to extract interface - source - " ++ fmtQuoted ifaceName
              ++ ": " ++ e))
          | none => pure (mapGet (GetParameters (GetMechanism conn)) NetNsInodeKey, none)) :
      M (String × Option String)) := by
    refine quiet_bind (quiet_prim _ _ rfl) (fun r => ?_)
    cases r with
    | error e => exact quiet_pure _
    | ok h =>
      refine quiet_deferred (quiet_close _) (quiet_bind (setupLinkInNs_false_quiet _ _) ?_)
      intro err
      cases err <;> exact quiet_pure _
  unfold ClearInterfaceSetup
  rw [bind_trace]
  simp only [mark_out, mark_trace, mark_kernel, collaboratorCalls_append]
  rw [q s]
  rfl

end NSM

namespace NSM

/-! ## Name collision in `createLocalConnection` -/

theorem createLocalConnectionSetup_trace (k : KernelForwarder) (lib : Lib) (xc : CrossConnect)
    (r1 r2 : Nat) (s : Kernel) :
    ∃ rest, (createLocalConnectionSetup k lib xc r1 r2 s).trace
      = .CreateInterfaces (createSrcName xc r1) (createDstName xc r2) :: rest := by
  unfold createLocalConnectionSetup
  rw [bind_trace]
  simp only [KernelForwarder.CreateInterfaces, prim_out, prim_trace, createSrcName,
    createDstName, ifaceNameOf]
  exact ⟨_, rfl⟩

theorem createLocalConnection_found (k : KernelForwarder) (lib : Lib) (xc : CrossConnect)
    (r1 r2 : Nat) (s : Kernel) (hfound : (findLocalSrcConnection xc s).out = .ret (true, none)) :
    createLocalConnection k lib xc r1 r2 s =
      ⟨((do
          let (_, err) ← ClearInterfaceSetup lib (ifaceNameOf xc.GetSource) xc.GetSource
          match err with
          | some e => pure ((none, some e), xc)
          | none => do
            let err ← k.DeleteInterfaces (ifaceNameOf xc.GetSource)
            match err with
            | some e => pure ((none, some e), xc)
            | none => createLocalConnectionSetup k lib xc r1 r2 : M (Devices × CrossConnect))
          (findLocalSrcConnection xc s).kernel).out,
        ((do
          let (_, err) ← ClearInterfaceSetup lib (ifaceNameOf xc.GetSource) xc.GetSource
          match err with
          | some e => pure ((none, some e), xc)
          | none => do
            let err ← k.DeleteInterfaces (ifaceNameOf xc.GetSource)
            match err with
            | some e => pure ((none, some e), xc)
            | none => createLocalConnectionSetup k lib xc r1 r2 : M (Devices × CrossConnect))
          (findLocalSrcConnection xc s).kernel).kernel,
        (findLocalSrcConnection xc s).trace ++ ((do
          let (_, err) ← ClearInterfaceSetup lib (ifaceNameOf xc.GetSource) xc.GetSource
          match err with
          | some e => pure ((none, some e), xc)
          | none => do
            let err ← k.DeleteInterfaces (ifaceNameOf xc.GetSource)
            match err with
            | some e => pure ((none, some e), xc)
            | none => createLocalConnectionSetup k lib xc r1 r2 : M (Devices × CrossConnect))
          (findLocalSrcConnection xc s).kernel).trace⟩ := by
  unfold createLocalConnection
  rw [bind_ret _ _ s (true, none) hfound]
  rfl

/-- C3: when `findLocalSrcConnection` reports that the source interface exists,
`createLocalConnection` runs `ClearInterfaceSetup(srcName, source)`, then
`DeleteInterfaces(srcName)`, and only then `CreateInterfaces`.  If the clearing fails,
its error is returned with nil devices and neither `DeleteInterfaces` nor
`CreateInterfaces` is called; if the deletion fails, its error is returned with nil
devices and `CreateInterfaces` is not called. -/
theorem createLocalConnection_collision (k : KernelForwarder) (lib : Lib) (xc : CrossConnect)
    (r1 r2 : Nat) (s : Kernel)
    (hfound : (findLocalSrcConnection xc s).out = .ret (true, none)) :
    (∀ x e, (collisionClear lib xc s).out = .ret (x, some e) →
      (createLocalConnection k lib xc r1 r2 s).out = .ret ((none, some e), xc) ∧
      collaboratorCalls (createLocalConnection k lib xc r1 r2 s).trace
        = [.ClearInterfaceSetup (ifaceNameOf xc.GetSource)]) ∧
    (∀ x, (collisionClear lib xc s).out = .ret (x, none) →
      (∀ e, (collisionDelete k lib xc s).out = .ret (some e) →
        (createLocalConnection k lib xc r1 r2 s).out = .ret ((none, some e), xc) ∧
        collaboratorCalls (createLocalConnection k lib xc r1 r2 s).trace
          = [.ClearInterfaceSetup (ifaceNameOf xc.GetSource),
             .DeleteInterfaces (ifaceNameOf xc.GetSource)]) ∧
      ((collisionDelete k lib xc s).out = .ret none →
        ∃ rest, collaboratorCalls (createLocalConnection k lib xc r1 r2 s).trace
          = [.ClearInterfaceSetup (ifaceNameOf xc.GetSource),
             .DeleteInterfaces (ifaceNameOf xc.GetSource),
             .CreateInterfaces (createSrcName xc r1) (createDstName xc r2)] ++ rest)) := by
  have hq := findLocalSrcConnection_quiet xc s
  have hc := ClearInterfaceSetup_calls lib (ifaceNameOf xc.GetSource) xc.GetSource
    (findLocalSrcConnection xc s).kernel
  rw [createLocalConnection_found k lib xc r1 r2 s hfound]
  simp only [collaboratorCalls_append, hq, List.nil_append]
  refine ⟨fun x e hx => ?_, fun x hx => ⟨fun e he => ?_, fun he => ?_⟩⟩
  · unfold collisionClear at hx
    simp [bind_out, bind_trace, hx, hc]
  · unfold collisionDelete collisionClear at he
    unfold collisionClear at hx
    simp only [KernelForwarder.DeleteInterfaces, prim_out] at he
    simp [bind_out, bind_trace, bind_kernel, hx, hc, KernelForwarder.DeleteInterfaces, he]
    rfl
  · unfold collisionDelete collisionClear at he
    unfold collisionClear at hx
    simp only [KernelForwarder.DeleteInterfaces, prim_out] at he
    obtain ⟨rest, hrest⟩ := createLocalConnectionSetup_trace k lib xc r1 r2
      (k.localConnect.DeleteInterfaces (ifaceNameOf xc.GetSource)
        (ClearInterfaceSetup lib (ifaceNameOf xc.GetSource) xc.GetSource
          (findLocalSrcConnection xc s).kernel).kernel).2
    refine ⟨collaboratorCalls rest, ?_⟩
    simp [bind_out, bind_trace, bind_kernel, hx, hc, KernelForwarder.DeleteInterfaces, he,
      hrest]
    rfl

/-- Witness of `createLocalConnection_collision`: installing the example cross-connect a
second time finds the source interface, clears and deletes it, and creates the
pair again. -/
theorem createLocalConnection_collision_witness :
    (findLocalSrcConnection exampleLocalXcon exampleInstalledKernel).out = .ret (true, none) ∧
    ∃ rest, collaboratorCalls (createLocalConnection kernelForwarder exampleLib
        exampleLocalXcon 0 0 exampleInstalledKernel).trace
      = [.ClearInterfaceSetup (ifaceNameOf exampleLocalXcon.GetSource),
         .DeleteInterfaces (ifaceNameOf exampleLocalXcon.GetSource),
         .CreateInterfaces (createSrcName exampleLocalXcon 0) (createDstName exampleLocalXcon 0)]
        ++ rest :=
  ⟨by decide,
    ((createLocalConnection_collision kernelForwarder exampleLib exampleLocalXcon 0 0
      exampleInstalledKernel (by decide)).2 "10" (by decide)).2 (by decide)⟩

end NSM

namespace NSM

/-! ## Runs of computations -/

theorem runs_bind {α β : Type} {m : M α} {f : α → M β} {s s2 : Kernel} {b : β} :
    Runs (m >>= f) s b s2 ↔ ∃ a s1, Runs m s a s1 ∧ Runs (f a) s1 b s2 := by
  unfold Runs
  cases h : (m s).out with
  | ret a =>
    rw [bind_ret m f s a h]
    constructor
    · rintro ⟨h1, h2⟩
      exact ⟨a, _, ⟨rfl, rfl⟩, h1, h2⟩
    · rintro ⟨a1, s1, ⟨h1, h2⟩, h3, h4⟩
      cases h1
      subst h2
      exact ⟨h3, h4⟩
  | panic msg =>
    rw [bind_panic m f s msg h]
    constructor
    · rintro ⟨h1, _⟩
      cases h1
    · rintro ⟨a1, s1, ⟨h1, _⟩, _⟩
      cases h1

theorem runs_pure {α : Type} {a b : α} {s s1 : Kernel} :
    Runs (pure a : M α) s b s1 ↔ a = b ∧ s = s1 := by
  unfold Runs
  simp

theorem runs_prim {α : Type} {c : Call} {f : Kernel → α × Kernel} {s s1 : Kernel} {a : α} :
    Runs (prim c f) s a s1 ↔ (f s).1 = a ∧ (f s).2 = s1 := by
  unfold Runs
  simp

theorem runs_mark {c : Call} {s s1 : Kernel} {a : Unit} :
    Runs (mark c) s a s1 ↔ s = s1 := by
  unfold Runs
  simp

theorem runs_deferred {α : Type} {d : M Unit} {body : M α} {s s2 : Kernel} {a : α} :
    Runs (M.deferred d body) s a s2 ↔ ∃ s1, Runs body s a s1 ∧ (d s1).kernel = s2 := by
  unfold Runs
  simp only [deferred_out, deferred_kernel]
  constructor
  · rintro ⟨h1, h2⟩
    exact ⟨_, ⟨h1, rfl⟩, h2⟩
  · rintro ⟨s1, ⟨h1, h2⟩, h3⟩
    subst h2
    exact ⟨h1, h3⟩

theorem runs_panic {α : Type} {msg : String} {s s1 : Kernel} {a : α} :
    ¬ Runs (M.panic msg : M α) s a s1 := by
  unfold Runs
  simp

theorem close_kernel (h : String) (s : Kernel) :
    ((do let _ ← NsHandle.Close h; pure () : M Unit) s).kernel = s := by
  simp [bind_kernel, NsHandle.Close]

theorem set_kernel (h : String) (s : Kernel) :
    ((do let _ ← netns.Set h; pure () : M Unit) s).kernel = { s with cur := h } := by
  simp [bind_kernel, netns.Set]

/-! ## Kernel algebra -/

@[simp] theorem modify_cur (s : Kernel) (i : Nat) (g : Link → Link) :
    (s.modify i g).cur = s.cur := rfl

@[simp] theorem modify_namespaces (s : Kernel) (i : Nat) (g : Link → Link) :
    (s.modify i g).namespaces = s.namespaces := rfl

theorem modify_links (s : Kernel) (i : Nat) (g : Link → Link) :
    (s.modify i g).links = s.links.map (fun l => if l.index = i then g l else l) := rfl

theorem keeps_id : Keeps id := fun _ => ⟨rfl, rfl, rfl, rfl, rfl⟩

theorem keeps_comp {g h : Link → Link} (hg : Keeps g) (hh : Keeps h) : Keeps (h ∘ g) := by
  intro y
  obtain ⟨a1, a2, a3, a4, a5⟩ := hg y
  obtain ⟨b1, b2, b3, b4, b5⟩ := hh (g y)
  simp only [Function.comp]
  exact ⟨b1.trans a1, b2.trans a2, b3.trans a3, b4.trans a4, b5.trans a5⟩

theorem modify_id (s : Kernel) (i : Nat) : s.modify i id = s := by
  cases s
  simp [Kernel.modify]

theorem modify_modify (s : Kernel) (i : Nat) (g h : Link → Link)
    (hg : ∀ y, (g y).index = y.index) :
    (s.modify i g).modify i h = s.modify i (h ∘ g) := by
  simp only [Kernel.modify, List.map_map, Kernel.mk.injEq, true_and]
  apply List.map_congr_left
  intro l _
  by_cases hl : l.index = i
  · simp [hl, hg l]
  · simp [hl]

theorem modify_setCur (s : Kernel) (i : Nat) (g : Link → Link) (c : String) :
    ({ s with cur := c } : Kernel).modify i g = { s.modify i g with cur := c } := rfl

theorem find_modify (s : Kernel) (i : Nat) (g : Link → Link) (p : Link → Bool)
    (hp : ∀ y, p (g y) = p y) :
    (s.modify i g).links.find? p
      = (s.links.find? p).map (fun l => if l.index = i then g l else l) := by
  rw [modify_links, List.find?_map]
  have hfun : (p ∘ fun l => if l.index = i then g l else l) = p := by
    funext l
    simp only [Function.comp]
    split
    · exact hp l
    · rfl
  rw [hfun]

theorem find_name_modify (s : Kernel) (i : Nat) (g : Link → Link) (hg : Keeps g)
    (ns name : String) :
    (s.modify i g).links.find? (fun l => l.ns == ns && l.name == name)
      = (s.links.find? (fun l => l.ns == ns && l.name == name)).map
          (fun l => if l.index = i then g l else l) :=
  find_modify s i g _ (fun y => by rw [(hg y).2.1, (hg y).2.2.1])

theorem linkAt_modify (s : Kernel) (i j : Nat) (g : Link → Link) (hg : Keeps g) :
    (s.modify i g).linkAt j = (s.linkAt j).map (fun l => if l.index = i then g l else l) := by
  unfold Kernel.linkAt
  exact find_modify s i g _ (fun y => by rw [(hg y).1, (hg y).2.1])

theorem linkAt_modify_isSome (s : Kernel) (i j : Nat) (g : Link → Link) (hg : Keeps g) :
    ((s.modify i g).linkAt j).isSome = (s.linkAt j).isSome := by
  rw [linkAt_modify s i j g hg]
  simp

theorem nameTaken_modify (s : Kernel) (i j : Nat) (g : Link → Link) (hg : Keeps g)
    (ns name : String) :
    (s.modify i g).nameTaken ns name j = s.nameTaken ns name j := by
  unfold Kernel.nameTaken
  rw [modify_links, List.any_map]
  congr 1
  funext l
  simp only [Function.comp]
  split
  · rw [(hg l).1, (hg l).2.1, (hg l).2.2.1]
  · rfl

end NSM

namespace NSM

/-! ## Computations that only change attributes of one link -/

theorem attrOnly_pure {α : Type} (i : Nat) (a : α) : AttrOnly i (pure a : M α) :=
  fun s => ⟨id, keeps_id, (modify_id s i).symm⟩

theorem attrOnly_bind {α β : Type} {i : Nat} {m : M α} {f : α → M β} (hm : AttrOnly i m)
    (hf : ∀ a, AttrOnly i (f a)) : AttrOnly i (m >>= f) := by
  intro s
  obtain ⟨g, hg, hk⟩ := hm s
  rw [bind_kernel]
  cases h : (m s).out with
  | ret a =>
    obtain ⟨h2, hh2, hk2⟩ := hf a (m s).kernel
    refine ⟨h2 ∘ g, keeps_comp hg hh2, ?_⟩
    show (f a (m s).kernel).kernel = _
    rw [hk2, hk]
    exact modify_modify s i g h2 (fun y => (hg y).1)
  | panic msg => exact ⟨g, hg, hk⟩

theorem attrOnly_panic {α : Type} (i : Nat) (msg : String) : AttrOnly i (M.panic msg : M α) :=
  fun s => ⟨id, keeps_id, (modify_id s i).symm⟩

/-- A primitive that either leaves the kernel alone or applies `g` to link `i`. -/
theorem attrOnly_prim {α : Type} (i : Nat) (c : Call) (f : Kernel → α × Kernel)
    (g : Link → Link) (hg : Keeps g) (hf : ∀ s, (f s).2 = s ∨ (f s).2 = s.modify i g) :
    AttrOnly i (prim c f) := by
  intro s
  rcases hf s with h | h
  · exact ⟨id, keeps_id, by rw [prim_kernel, h, modify_id]⟩
  · exact ⟨g, hg, by rw [prim_kernel, h]⟩

theorem netlink.LinkSetAlias_attrOnly (l : Link) (name : String) :
    AttrOnly l.index (netlink.LinkSetAlias l name) := by
  refine attrOnly_prim _ _ _ (fun x => { x with ifalias := name })
    (fun _ => ⟨rfl, rfl, rfl, rfl, rfl⟩) (fun s => ?_)
  cases h : s.linkAt l.index <;> simp [h]

theorem netlink.AddrAdd_attrOnly (l : Link) (addr : String) :
    AttrOnly l.index (netlink.AddrAdd l addr) := by
  refine attrOnly_prim _ _ _ (fun y => { y with addrs := y.addrs ++ [addr] })
    (fun _ => ⟨rfl, rfl, rfl, rfl, rfl⟩) (fun s => ?_)
  cases h : s.linkAt l.index with
  | none => simp
  | some x => by_cases hx : addr ∈ x.addrs <;> simp [hx]

theorem netlink.LinkSetUp_attrOnly (l : Link) : AttrOnly l.index (netlink.LinkSetUp l) := by
  refine attrOnly_prim _ _ _ (fun y => { y with up := true })
    (fun _ => ⟨rfl, rfl, rfl, rfl, rfl⟩) (fun s => ?_)
  cases h : s.linkAt l.index <;> simp [h]

theorem netlink.LinkSetDown_attrOnly (l : Link) : AttrOnly l.index (netlink.LinkSetDown l) := by
  refine attrOnly_prim _ _ _ (fun y => { y with up := false })
    (fun _ => ⟨rfl, rfl, rfl, rfl, rfl⟩) (fun s => ?_)
  cases h : s.linkAt l.index <;> simp [h]

theorem netlink.RouteList_attrOnly (l : Link) : AttrOnly l.index (netlink.RouteList l) := by
  refine attrOnly_prim _ _ _ id keeps_id (fun s => ?_)
  cases h : s.linkAt l.index <;> simp [h]

theorem netlink.RouteAdd_attrOnly (i : Nat) (dst : String) (gw : Option String) :
    AttrOnly i (netlink.RouteAdd i dst gw) := by
  refine attrOnly_prim _ _ _ (fun y => { y with routes := y.routes ++ [⟨dst, gw⟩] })
    (fun _ => ⟨rfl, rfl, rfl, rfl, rfl⟩) (fun s => ?_)
  cases h : s.linkAt i with
  | none => simp
  | some x =>
    simp only
    split <;> simp

theorem netlink.RouteDel_attrOnly (i : Nat) (dst : String) :
    AttrOnly i (netlink.RouteDel i dst) := by
  refine attrOnly_prim _ _ _ (fun y => { y with routes := y.routes.filter (fun r => r.dst != dst) })
    (fun _ => ⟨rfl, rfl, rfl, rfl, rfl⟩) (fun s => ?_)
  cases h : s.linkAt i with
  | none => simp
  | some x =>
    simp only
    split <;> simp

theorem netlink.NeighAdd_attrOnly (i state : Nat) (ip : Option String) (mac : String) :
    AttrOnly i (netlink.NeighAdd i state ip mac) := by
  refine attrOnly_prim _ _ _ (fun y => { y with neighs := y.neighs ++ [⟨ip, mac, state⟩] })
    (fun _ => ⟨rfl, rfl, rfl, rfl, rfl⟩) (fun s => ?_)
  cases h : s.linkAt i with
  | none => simp
  | some x =>
    simp only
    split <;> simp

theorem addRoutesLoop_attrOnly (lib : Lib) (link : Link) (nextHop : String) (l : List String) :
    AttrOnly link.index (addRoutesLoop lib link nextHop l) := by
  induction l with
  | nil => exact attrOnly_pure _ _
  | cons pfx rest ih =>
    unfold addRoutesLoop
    cases lib.ParseCIDR pfx with
    | error e => exact attrOnly_pure _ _
    | ok routeNet =>
      cases lib.ParseAddr nextHop with
      | error e => exact attrOnly_panic _ _
      | ok gw =>
        refine attrOnly_bind (netlink.RouteAdd_attrOnly _ _ _) (fun err => ?_)
        cases err with
        | some e => exact attrOnly_pure _ _
        | none => exact ih

theorem addNeighbors_attrOnly (lib : Lib) (link : Link) (l : List IpNeighbor) :
    AttrOnly link.index (addNeighbors lib link l) := by
  induction l with
  | nil => exact attrOnly_pure _ _
  | cons n rest ih =>
    unfold addNeighbors
    cases lib.ParseMAC n.HardwareAddress with
    | error e => exact attrOnly_pure _ _
    | ok mac =>
      refine attrOnly_bind (netlink.NeighAdd_attrOnly _ _ _ _) (fun err => ?_)
      cases err with
      | some e => exact attrOnly_pure _ _
      | none => exact ih

theorem deleteRoutesInner_attrOnly (link : Link) (l : List KRoute) :
    AttrOnly link.index (deleteRoutesInner link l) := by
  induction l with
  | nil => exact attrOnly_pure _ _
  | cons r rest ih =>
    unfold deleteRoutesInner
    refine attrOnly_bind (netlink.RouteDel_attrOnly _ _) (fun err => ?_)
    cases err with
    | some e => exact attrOnly_pure _ _
    | none => exact ih

theorem deleteRoutesLoop_attrOnly (link : Link) (installed : List KRoute) (l : List String) :
    AttrOnly link.index (deleteRoutesLoop link installed l) := by
  induction l with
  | nil => exact attrOnly_pure _ _
  | cons r rest ih =>
    unfold deleteRoutesLoop
    refine attrOnly_bind (deleteRoutesInner_attrOnly _ _) (fun err => ?_)
    cases err with
    | some e => exact attrOnly_pure _ _
    | none => exact ih

theorem deleteRoutes_attrOnly (link : Link) (lroutes : LinkRoutes) :
    AttrOnly link.index (deleteRoutes link lroutes) := by
  unfold deleteRoutes
  refine attrOnly_bind (netlink.RouteList_attrOnly _) (fun r => ?_)
  cases r with
  | error e => exact attrOnly_pure _ _
  | ok installed => exact deleteRoutesLoop_attrOnly _ _ _

/-- Without a temporary name `setupLink` only changes attributes of the link. -/
theorem setupLink_attrOnly (lib : Lib) (l : Link) (link : LinkData) (h : link.tempName = "") :
    AttrOnly l.index (setupLink lib l link) := by
  unfold setupLink
  simp only [h, ne_eq, not_true_eq_false, if_false]
  refine attrOnly_bind (attrOnly_pure _ _) (fun err => ?_)
  cases err with
  | some e => exact attrOnly_pure _ _
  | none =>
    simp only
    cases lib.ParseAddr link.ip with
    | error e => exact attrOnly_pure _ _
    | ok addr =>
      refine attrOnly_bind (netlink.AddrAdd_attrOnly _ _) (fun err => ?_)
      cases err with
      | some e => exact attrOnly_pure _ _
      | none =>
        refine attrOnly_bind (netlink.LinkSetUp_attrOnly _) (fun err => ?_)
        cases err with
        | some e => exact attrOnly_pure _ _
        | none =>
          refine attrOnly_bind (addRoutesLoop_attrOnly _ _ _ _) (fun err => ?_)
          cases err with
          | some e => exact attrOnly_pure _ _
          | none =>
            refine attrOnly_bind (addNeighbors_attrOnly _ _ _) (fun err => ?_)
            cases err <;> exact attrOnly_pure _ _

end NSM

namespace NSM

/-! ## What a successful `SetupInterface` does -/

theorem linkAt_of_find {s : Kernel} {name : String} {X : Link}
    (hX : s.links.find? (fun l => l.ns == s.cur && l.name == name) = some X)
    (huniq : ∀ l ∈ s.links, l.index = X.index → l = X) :
    s.linkAt X.index = some X := by
  have hmem : X ∈ s.links := List.mem_of_find?_eq_some hX
  have hp := List.find?_some hX
  simp only [Bool.and_eq_true, beq_iff_eq] at hp
  unfold Kernel.linkAt
  cases h : s.links.find? (fun l => l.index == X.index && l.ns == s.cur) with
  | none =>
    rw [List.find?_eq_none] at h
    have := h X hmem
    simp [hp.1] at this
  | some Z =>
    have hz := List.find?_some h
    simp only [Bool.and_eq_true, beq_iff_eq] at hz
    rw [huniq Z (List.mem_of_find?_eq_some h) hz.1]

/-- The part of `setupLinkInNs` inside the desired namespace, when it succeeds without
a temporary name: it looks the link up by name in that namespace and changes
attributes of the link it found; the namespace of the thread is restored. -/
theorem setupLinkInNsSwitch_spec (lib : Lib) (link : LinkData) (s s1 : Kernel)
    (ht : link.tempName = "")
    (hrun : Runs (setupLinkInNsSwitch lib link true) s none s1) :
    ∃ Y g, s.links.find? (fun l => l.ns == link.nsHandle && l.name == link.name) = some Y ∧
      Keeps g ∧ s1 = s.modify Y.index g := by
  unfold setupLinkInNsSwitch at hrun
  rw [runs_bind] at hrun
  obtain ⟨r, s2, h2, hrun⟩ := hrun
  unfold netns.Get at h2
  rw [runs_prim] at h2
  obtain ⟨hr, hs2⟩ := h2
  subst hr hs2
  simp only at hrun
  rw [runs_deferred] at hrun
  obtain ⟨s3, hrun, hclose⟩ := hrun
  rw [close_kernel] at hclose
  subst hclose
  rw [runs_bind] at hrun
  obtain ⟨err, s4, h4, hrun⟩ := hrun
  unfold netns.Set at h4
  rw [runs_prim] at h4
  obtain ⟨herr, hs4⟩ := h4
  subst herr hs4
  simp only at hrun
  rw [runs_deferred] at hrun
  obtain ⟨s5, hrun, hset⟩ := hrun
  rw [set_kernel] at hset
  unfold setupLinkInNsInner at hrun
  rw [runs_bind] at hrun
  obtain ⟨r, s6, h6, hrun⟩ := hrun
  unfold netlink.LinkByName at h6
  rw [runs_prim] at h6
  simp only at h6
  cases hY : s.links.find? (fun l => l.ns == link.nsHandle && l.name == link.name) with
  | none =>
    simp only [hY] at h6
    obtain ⟨hr, hs6⟩ := h6
    subst hr hs6
    simp only [runs_pure] at hrun
    cases hrun.1
  | some Y =>
    simp only [hY] at h6
    obtain ⟨hr, hs6⟩ := h6
    subst hr hs6
    simp only [if_true] at hrun
    rw [runs_bind] at hrun
    obtain ⟨err, s7, h7, hrun⟩ := hrun
    obtain ⟨g, hg, hk⟩ := setupLink_attrOnly lib Y link ht
      ({ namespaces := s.namespaces, cur := link.nsHandle, links := s.links } : Kernel)
    cases err with
    | some e =>
      simp only [runs_pure] at hrun
      cases hrun.1
    | none =>
      simp only [runs_pure] at hrun
      refine ⟨Y, g, rfl, hg, ?_⟩
      rw [← hset, ← hrun.2, ← h7.2, hk]
      rfl

end NSM

namespace NSM

theorem keepsName_of_keeps {g : Link → Link} (hg : Keeps g) : KeepsName g :=
  fun y => ⟨(hg y).1, (hg y).2.2.1, (hg y).2.2.2.1, (hg y).2.2.2.2⟩

theorem keepsName_moveTo (ns : String) : KeepsName (moveTo ns) :=
  fun _ => ⟨rfl, rfl, rfl, rfl⟩

theorem keepsName_comp {g h : Link → Link} (hg : KeepsName g) (hh : KeepsName h) :
    KeepsName (h ∘ g) := by
  intro y
  obtain ⟨a1, a2, a3, a4⟩ := hg y
  obtain ⟨b1, b2, b3, b4⟩ := hh (g y)
  simp only [Function.comp]
  exact ⟨b1.trans a1, b2.trans a2, b3.trans a3, b4.trans a4⟩

theorem alias_attrOnly (l : Link) (name : String) :
    AttrOnly l.index
      (if name ≠ "" then netlink.LinkSetAlias l name else (pure none : M (Option String))) := by
  split
  · exact netlink.LinkSetAlias_attrOnly l name
  · exact attrOnly_pure _ _

/-- A successful `setupLinkInNs` with `inject = true` and no temporary name: the link
found by name in the current namespace ends in the desired namespace with its
name, and no other link there bore that name. -/
theorem setupLinkInNs_spec (lib : Lib) (link : LinkData) (s s1 : Kernel) (X : Link)
    (ht : link.tempName = "")
    (hX : s.links.find? (fun l => l.ns == s.cur && l.name == link.name) = some X)
    (huniq : ∀ l ∈ s.links, l.index = X.index → l = X)
    (hrun : Runs (setupLinkInNs lib link true) s none s1) :
    (s.cur ≠ link.nsHandle → s.nameTaken link.nsHandle link.name X.index = false) ∧
    ∃ g, KeepsName g ∧ (g X).ns = link.nsHandle ∧ s1 = s.modify X.index g := by
  have hXp := List.find?_some hX
  simp only [Bool.and_eq_true, beq_iff_eq] at hXp
  obtain ⟨hXns, hXname⟩ := hXp
  have hat := linkAt_of_find hX huniq
  simp only [setupLinkInNs, if_true] at hrun
  rw [runs_bind] at hrun
  obtain ⟨r, s2, h2, hrun⟩ := hrun
  unfold netlink.LinkByName at h2
  rw [runs_prim] at h2
  simp only [hX] at h2
  obtain ⟨hr, hs2⟩ := h2
  subst hr hs2
  simp only at hrun
  rw [runs_bind] at hrun
  obtain ⟨err, sa, ha, hrun⟩ := hrun
  obtain ⟨ga, hga, hka⟩ := alias_attrOnly X link.ifalias s
  have hsa : sa = s.modify X.index ga := by rw [← ha.2, hka]
  cases err with
  | some e =>
    simp only [runs_pure] at hrun
    cases hrun.1
  | none =>
    simp only at hrun
    rw [runs_bind] at hrun
    obtain ⟨err, sm, hm, hrun⟩ := hrun
    unfold netlink.LinkSetNsFd at hm
    rw [runs_prim] at hm
    have hata : sa.linkAt X.index = some (ga X) := by
      rw [hsa, linkAt_modify s X.index X.index ga hga, hat]
      simp
    simp only [hata] at hm
    have hgaX := hga X
    by_cases hsame : (ga X).ns = link.nsHandle
    · -- the link already is in the desired namespace
      simp only [hsame, if_true] at hm
      obtain ⟨herr, hsm⟩ := hm
      subst herr hsm
      simp only at hrun
      obtain ⟨Y, g, hY, hg, hs1⟩ := setupLinkInNsSwitch_spec lib link sa s1 ht hrun
      have hcur : s.cur = link.nsHandle := by rw [← hXns, ← hgaX.2.1]; exact hsame
      refine ⟨fun hne => absurd hcur hne, ?_⟩
      have hYeq : Y = ga X := by
        rw [hsa, find_name_modify s X.index ga hga, ← hcur, hX] at hY
        simpa using hY.symm
      refine ⟨g ∘ ga, keepsName_comp (keepsName_of_keeps hga) (keepsName_of_keeps hg), ?_, ?_⟩
      · simp only [Function.comp]
        rw [(hg (ga X)).2.1]
        exact hsame
      · rw [hs1, hsa, hYeq, hgaX.1]
        exact modify_modify s X.index ga g (fun y => (hga y).1)
    · -- the link is moved
      simp only [hsame, if_false] at hm
      have hcur : s.cur ≠ link.nsHandle := by
        intro h
        apply hsame
        rw [hgaX.2.1, hXns]
        exact h
      cases htaken : sa.nameTaken link.nsHandle (ga X).name (ga X).index with
      | true =>
        simp only [htaken, if_true] at hm
        obtain ⟨herr, hsm⟩ := hm
        subst herr hsm
        simp only [runs_pure] at hrun
        cases hrun.1
      | false =>
        simp only [htaken, Bool.false_eq_true, if_false] at hm
        obtain ⟨herr, hsm⟩ := hm
        subst herr
        simp only at hrun
        have htaken' : s.nameTaken link.nsHandle link.name X.index = false := by
          rw [hsa, nameTaken_modify s X.index _ ga hga, hgaX.2.2.1, hgaX.1, hXname] at htaken
          exact htaken
        have hsm' : sm = s.modify X.index (moveTo link.nsHandle ∘ ga) := by
          rw [← hsm, hsa]
          exact modify_modify s X.index ga (moveTo link.nsHandle) (fun y => (hga y).1)
        obtain ⟨Y, g, hY, hg, hs1⟩ := setupLinkInNsSwitch_spec lib link sm s1 ht hrun
        have hYidx : Y.index = X.index := by
          have hYmem := List.mem_of_find?_eq_some hY
          have hYp := List.find?_some hY
          simp only [Bool.and_eq_true, beq_iff_eq] at hYp
          rw [hsm', modify_links, List.mem_map] at hYmem
          obtain ⟨l, hl, hlY⟩ := hYmem
          by_cases hli : l.index = X.index
          · rw [if_pos hli] at hlY
            rw [← hlY]
            simp only [Function.comp]
            exact ((keepsName_moveTo _ (ga l)).1.trans (hga l).1).trans hli
          · rw [if_neg hli] at hlY
            subst hlY
            exfalso
            unfold Kernel.nameTaken at htaken'
            rw [List.any_eq_false] at htaken'
            have := htaken' l hl
            simp [hYp.1, hYp.2, hli] at this
        refine ⟨fun _ => htaken', g ∘ (moveTo link.nsHandle ∘ ga), ?_, ?_, ?_⟩
        · exact keepsName_comp (keepsName_comp (keepsName_of_keeps hga) (keepsName_moveTo _))
            (keepsName_of_keeps hg)
        · simp only [Function.comp]
          rw [(hg _).2.1]
          rfl
        · rw [hs1, hsm', hYidx]
          exact modify_modify s X.index _ g
            (fun y => (keepsName_moveTo _ (ga y)).1.trans (hga y).1)

/-- A successful `SetupInterface` without a temporary name. -/
theorem SetupInterface_spec (lib : Lib) (name : String) (conn : Option Connection)
    (isDst : Bool) (s : Kernel) (X : Link) (x : String)
    (hX : s.links.find? (fun l => l.ns == s.cur && l.name == name) = some X)
    (huniq : ∀ l ∈ s.links, l.index = X.index → l = X)
    (hrun : (SetupInterface lib name "" conn isDst s).out = .ret (x, none)) :
    netNsInodeOf conn ∈ s.namespaces ∧
    (s.cur ≠ netNsInodeOf conn → s.nameTaken (netNsInodeOf conn) name X.index = false) ∧
    ∃ g, KeepsName g ∧ (g X).ns = netNsInodeOf conn ∧
      (SetupInterface lib name "" conn isDst s).kernel = s.modify X.index g := by
  have hr : Runs (SetupInterface lib name "" conn isDst) s (x, none)
      (SetupInterface lib name "" conn isDst s).kernel := ⟨hrun, rfl⟩
  generalize (SetupInterface lib name "" conn isDst s).kernel = s1 at hr ⊢
  unfold SetupInterface at hr
  rw [runs_bind] at hr
  obtain ⟨_, s2, h2, hr⟩ := hr
  rw [runs_mark] at h2
  subst h2
  rw [runs_bind] at hr
  obtain ⟨r, s3, h3, hr⟩ := hr
  unfold fs.GetNsHandleFromInode at h3
  rw [runs_prim] at h3
  by_cases hns : netNsInodeOf conn ∈ s.namespaces
  · simp only [netNsInodeOf] at hns
    simp only [hns, if_true] at h3
    obtain ⟨hr3, hs3⟩ := h3
    subst hr3 hs3
    simp only at hr
    rw [runs_deferred] at hr
    obtain ⟨s4, hr, hclose⟩ := hr
    rw [close_kernel] at hclose
    subst hclose
    rw [runs_bind] at hr
    obtain ⟨err, s5, h5, hr⟩ := hr
    cases err with
    | some e =>
      simp only [runs_pure] at hr
      cases hr.1
    | none =>
      simp only [runs_pure] at hr
      obtain ⟨_, hs5⟩ := hr
      subst hs5
      obtain ⟨a, g, hg, hgX, hk⟩ := setupLinkInNs_spec lib _ s s5 X rfl hX huniq h5
      exact ⟨hns, a, g, hg, hgX, hk⟩
  · simp only [netNsInodeOf] at hns
    simp only [hns, if_false] at h3
    obtain ⟨hr3, hs3⟩ := h3
    subst hr3 hs3
    simp only [runs_pure] at hr
    cases hr.1

end NSM

namespace NSM

/-! ## The veth pair of a local cross-connect -/

@[simp] theorem addLinks_cur (s : Kernel) (ls : List Link) : (s.addLinks ls).cur = s.cur := rfl

@[simp] theorem addLinks_namespaces (s : Kernel) (ls : List Link) :
    (s.addLinks ls).namespaces = s.namespaces := rfl

@[simp] theorem addLinks_links (s : Kernel) (ls : List Link) :
    (s.addLinks ls).links = s.links ++ ls := rfl

theorem index_lt_freshIndex (s : Kernel) : ∀ l ∈ s.links, l.index < s.freshIndex := by
  unfold Kernel.freshIndex
  induction s.links with
  | nil => simp
  | cons x xs ih =>
    intro l hl
    simp only [List.foldr_cons]
    rcases List.mem_cons.1 hl with h | h
    · subst h
      omega
    · have := ih l h
      omega

theorem hasLink_eq_false {s : Kernel} {ns name : String} (h : s.hasLink ns name = false) :
    ∀ l ∈ s.links, ¬ (l.ns = ns ∧ l.name = name) := by
  unfold Kernel.hasLink at h
  rw [List.any_eq_false] at h
  intro l hl hc
  have := h l hl
  simp [hc.1, hc.2] at this

/-- Changing the first of two added links. -/
theorem modify_addLinks_fst (s : Kernel) (L1 L2 : Link) (g : Link → Link)
    (hold : ∀ l ∈ s.links, l.index ≠ L1.index) (h2 : L2.index ≠ L1.index) :
    (s.addLinks [L1, L2]).modify L1.index g = s.addLinks [g L1, L2] := by
  simp only [Kernel.modify, Kernel.addLinks, List.map_append, List.map_cons, List.map_nil,
    if_true, if_neg h2, Kernel.mk.injEq, true_and]
  congr 1
  conv_rhs => rw [← List.map_id s.links]
  apply List.map_congr_left
  intro l hl
  simp [hold l hl]

/-- Changing the second of two added links. -/
theorem modify_addLinks_snd (s : Kernel) (L1 L2 : Link) (g : Link → Link)
    (hold : ∀ l ∈ s.links, l.index ≠ L2.index) (h1 : L1.index ≠ L2.index) :
    (s.addLinks [L1, L2]).modify L2.index g = s.addLinks [L1, g L2] := by
  simp only [Kernel.modify, Kernel.addLinks, List.map_append, List.map_cons, List.map_nil,
    if_true, if_neg h1, Kernel.mk.injEq, true_and]
  congr 1
  conv_rhs => rw [← List.map_id s.links]
  apply List.map_congr_left
  intro l hl
  simp [hold l hl]

/-- Looking up the first added link by a property no older link has. -/
theorem find_addLinks_fst (s : Kernel) (L1 L2 : Link) (p : Link → Bool)
    (hold : ∀ l ∈ s.links, p l = false) (h1 : p L1 = true) :
    (s.addLinks [L1, L2]).links.find? p = some L1 := by
  simp only [addLinks_links, List.find?_append]
  have : s.links.find? p = none := by
    rw [List.find?_eq_none]
    intro l hl
    simp [hold l hl]
  simp [this, h1]

/-- Looking up the second added link by a property no older link and not the first
added link has. -/
theorem find_addLinks_snd (s : Kernel) (L1 L2 : Link) (p : Link → Bool)
    (hold : ∀ l ∈ s.links, p l = false) (h1 : p L1 = false) (h2 : p L2 = true) :
    (s.addLinks [L1, L2]).links.find? p = some L2 := by
  simp only [addLinks_links, List.find?_append]
  have : s.links.find? p = none := by
    rw [List.find?_eq_none]
    intro l hl
    simp [hold l hl]
  simp [this, h1, h2]

/-- When `veth.CreateInterfaces` succeeds. -/
theorem veth.CreateInterfaces_ok (a b : String) (s s1 : Kernel)
    (h : veth.CreateInterfaces a b s = (none, s1)) :
    a ≠ b ∧ s.hasLink s.cur a = false ∧ s.hasLink s.cur b = false ∧
    s1 = s.addLinks [newLink s s.freshIndex a "veth" (some (s.freshIndex + 1)),
      newLink s (s.freshIndex + 1) b "veth" (some s.freshIndex)] := by
  unfold veth.CreateInterfaces at h
  split at h
  · simp at h
  · rename_i hc
    simp only [not_or, Bool.not_eq_true] at hc
    simp only [Prod.mk.injEq, true_and] at h
    exact ⟨hc.1, hc.2.1, hc.2.2, h.symm⟩

/-- Deleting the first of two added links, a veth pair, restores the kernel. -/
theorem veth.DeleteInterfaces_pair (a : String) (s : Kernel) (L1 L2 : Link)
    (hold : s.hasLink s.cur a = false) (hns : L1.ns = s.cur) (hname : L1.name = a)
    (hi1 : L1.index = s.freshIndex) (hi2 : L2.index = s.freshIndex + 1)
    (hpeer : L1.peer = some (s.freshIndex + 1)) :
    veth.DeleteInterfaces a (s.addLinks [L1, L2]) = (none, s) := by
  have hfind : (s.addLinks [L1, L2]).links.find?
      (fun l => l.ns == (s.addLinks [L1, L2]).cur && l.name == a) = some L1 := by
    apply find_addLinks_fst
    · intro l hl
      have := hasLink_eq_false hold l hl
      simp only [addLinks_cur, Bool.and_eq_false_imp, beq_iff_eq]
      intro h1
      simp only [beq_eq_false_iff_ne]
      exact fun h2 => this ⟨h1, h2⟩
    · simp [hns, hname]
  unfold veth.DeleteInterfaces
  rw [hfind]
  simp only [Prod.mk.injEq, true_and]
  cases s with
  | mk nss cur links =>
    simp only [Kernel.addLinks, Kernel.mk.injEq, true_and]
    rw [List.filter_append]
    have h1 : List.filter (fun l => l.index != L1.index && some l.index != L1.peer) [L1, L2]
        = [] := by
      simp [hpeer, hi2]
    have h2 : List.filter (fun l => l.index != L1.index && some l.index != L1.peer) links
        = links := by
      rw [List.filter_eq_self]
      intro l hl
      have := index_lt_freshIndex ⟨nss, cur, links⟩ l hl
      simp only [hi1, hpeer, Bool.and_eq_true, bne_iff_ne, ne_eq, Option.some.injEq]
      constructor <;> omega
    rw [h1, h2, List.append_nil]

end NSM

namespace NSM

theorem hasLink_of_forall {s : Kernel} {ns name : String}
    (h : ∀ l ∈ s.links, ¬ (l.ns = ns ∧ l.name = name)) : s.hasLink ns name = false := by
  unfold Kernel.hasLink
  rw [List.any_eq_false]
  intro l hl
  have := h l hl
  simp only [Bool.and_eq_true, beq_iff_eq]
  exact this

theorem uniq_addLinks_fst (s : Kernel) (L1 L2 : Link) (hi1 : L1.index = s.freshIndex)
    (hi2 : L2.index = s.freshIndex + 1) :
    ∀ l ∈ (s.addLinks [L1, L2]).links, l.index = L1.index → l = L1 := by
  intro l hl hidx
  simp only [addLinks_links, List.mem_append, List.mem_cons, List.mem_singleton,
    List.not_mem_nil, or_false] at hl
  rcases hl with h | h | h
  · have := index_lt_freshIndex s l h
    omega
  · exact h
  · subst h
    omega

theorem uniq_addLinks_snd (s : Kernel) (L1 L2 : Link) (hi1 : L1.index = s.freshIndex)
    (hi2 : L2.index = s.freshIndex + 1) :
    ∀ l ∈ (s.addLinks [L1, L2]).links, l.index = L2.index → l = L2 := by
  intro l hl hidx
  simp only [addLinks_links, List.mem_append, List.mem_cons, List.mem_singleton,
    List.not_mem_nil, or_false] at hl
  rcases hl with h | h | h
  · have := index_lt_freshIndex s l h
    omega
  · subst h
    omega
  · exact h

theorem old_index_ne (s : Kernel) (i : Nat) (hi : s.freshIndex ≤ i) :
    ∀ l ∈ s.links, l.index ≠ i := by
  intro l hl
  have := index_lt_freshIndex s l hl
  omega

/-- What a successful `createLocalConnectionSetup` leaves behind when the two interface
names differ: the kernel it started from with one veth pair added, the source
end in the source namespace under the source name. -/
theorem createLocalConnectionSetup_spec (lib : Lib) (xc : CrossConnect) (r1 r2 : Nat)
    (s : Kernel) (devs : Option (List (String × Device))) (xc1 : CrossConnect)
    (hne : ifaceNameOf xc.GetSource ≠ ifaceNameOf xc.GetDestination)
    (hrun : (createLocalConnectionSetup kernelForwarder lib xc r1 r2 s).out
      = .ret ((devs, none), xc1)) :
    ∃ M1 M2 dst ctx,
      (createLocalConnectionSetup kernelForwarder lib xc r1 r2 s).kernel = s.addLinks [M1, M2] ∧
      M1.index = s.freshIndex ∧ M1.ns = netNsInodeOf xc.GetSource ∧
      M1.name = ifaceNameOf xc.GetSource ∧ M1.type = "veth" ∧
      M1.peer = some (s.freshIndex + 1) ∧
      M2.index = s.freshIndex + 1 ∧ M2.name = ifaceNameOf xc.GetDestination ∧
      netNsInodeOf xc.GetSource ∈ s.namespaces ∧
      s.hasLink s.cur (ifaceNameOf xc.GetSource) = false ∧
      s.hasLink (netNsInodeOf xc.GetSource) (ifaceNameOf xc.GetSource) = false ∧
      xc.Destination = some dst ∧ dst.Context = some ctx ∧
      xc1 = xc.overwriteDstIpContext dst ctx := by
  have hr : Runs (createLocalConnectionSetup kernelForwarder lib xc r1 r2) s ((devs, none), xc1)
      (createLocalConnectionSetup kernelForwarder lib xc r1 r2 s).kernel := ⟨hrun, rfl⟩
  generalize (createLocalConnectionSetup kernelForwarder lib xc r1 r2 s).kernel = sEnd at hr ⊢
  have hne' : ¬ (mapGet (GetParameters (GetMechanism xc.GetDestination)) InterfaceNameKey
      = mapGet (GetParameters (GetMechanism xc.GetSource)) InterfaceNameKey) :=
    fun h => hne h.symm
  unfold createLocalConnectionSetup at hr
  simp only [if_neg hne'] at hr
  rw [runs_bind] at hr
  obtain ⟨err, s0, h0, hr⟩ := hr
  unfold KernelForwarder.CreateInterfaces at h0
  rw [runs_prim] at h0
  cases err with
  | some e =>
    simp only [runs_pure] at hr
    cases hr.1
  | none =>
    simp only at hr
    have hcreate : veth.CreateInterfaces (ifaceNameOf xc.GetSource)
        (ifaceNameOf xc.GetDestination) s = (none, s0) := Prod.ext h0.1 h0.2
    obtain ⟨_, holdA, holdB, hs0⟩ := veth.CreateInterfaces_ok _ _ _ _ hcreate
    subst hs0
    rw [runs_bind] at hr
    obtain ⟨⟨x, err⟩, s2, h2, hr⟩ := hr
    cases err with
    | some e =>
      simp only [runs_pure] at hr
      cases hr.1
    | none =>
      simp only at hr
      have hX1 := find_addLinks_fst s
        (newLink s s.freshIndex (ifaceNameOf xc.GetSource) "veth" (some (s.freshIndex + 1)))
        (newLink s (s.freshIndex + 1) (ifaceNameOf xc.GetDestination) "veth" (some s.freshIndex))
        (fun l => l.ns == s.cur && l.name == ifaceNameOf xc.GetSource)
        (fun l hl => by
          have := hasLink_eq_false holdA l hl
          simp only [Bool.and_eq_false_imp, beq_iff_eq, beq_eq_false_iff_ne]
          exact fun a b => this ⟨a, b⟩)
        (by simp [newLink])
      obtain ⟨hnsA, htaken, g1, hg1, hg1ns, hk1⟩ := SetupInterface_spec lib _ xc.GetSource false _
        _ x hX1 (uniq_addLinks_fst s _ _ rfl rfl) h2.1
      rw [h2.2] at hk1
      rw [show (newLink s s.freshIndex (ifaceNameOf xc.GetSource) "veth"
          (some (s.freshIndex + 1))).index = s.freshIndex from rfl] at hk1 htaken
      have hk1' := modify_addLinks_fst s
        (newLink s s.freshIndex (ifaceNameOf xc.GetSource) "veth" (some (s.freshIndex + 1)))
        (newLink s (s.freshIndex + 1) (ifaceNameOf xc.GetDestination) "veth" (some s.freshIndex))
        g1 (old_index_ne s _ (Nat.le_refl _)) (by simp [newLink])
      rw [show (newLink s s.freshIndex (ifaceNameOf xc.GetSource) "veth"
          (some (s.freshIndex + 1))).index = s.freshIndex from rfl] at hk1'
      rw [hk1'] at hk1
      subst hk1
      cases hd : xc.Destination with
      | none =>
        simp only [hd] at hr
        exact absurd hr runs_panic
      | some dst =>
        simp only [hd] at hr
        cases hc : dst.Context with
        | none =>
          simp only [hc] at hr
          exact absurd hr runs_panic
        | some ctx =>
          simp only [hc] at hr
          rw [runs_bind] at hr
          obtain ⟨⟨y, err⟩, s3, h3, hr⟩ := hr
          cases err with
          | some e =>
            simp only [runs_pure] at hr
            cases hr.1
          | none =>
            simp only [runs_pure, ne_eq, not_true_eq_false, if_false, Prod.mk.injEq] at hr
            obtain ⟨⟨_, hxc1⟩, hs3⟩ := hr
            subst hs3
            have hX2 := find_addLinks_snd s
              (g1 (newLink s s.freshIndex (ifaceNameOf xc.GetSource) "veth"
                (some (s.freshIndex + 1))))
              (newLink s (s.freshIndex + 1) (ifaceNameOf xc.GetDestination) "veth"
                (some s.freshIndex))
              (fun l => l.ns == s.cur && l.name == ifaceNameOf xc.GetDestination)
              (fun l hl => by
                have := hasLink_eq_false holdB l hl
                simp only [Bool.and_eq_false_imp, beq_iff_eq, beq_eq_false_iff_ne]
                exact fun a b => this ⟨a, b⟩)
              (by
                simp only [Bool.and_eq_false_imp, beq_iff_eq, beq_eq_false_iff_ne]
                intro _
                rw [(hg1 _).2.1]
                exact hne)
              (by simp [newLink])
            obtain ⟨_, _, g2, hg2, _, hk2⟩ := SetupInterface_spec lib _ _ true _ _ y hX2
              (uniq_addLinks_snd s _ _ (hg1 _).1 rfl) h3.1
            rw [h3.2] at hk2
            have hk2' := modify_addLinks_snd s
              (g1 (newLink s s.freshIndex (ifaceNameOf xc.GetSource) "veth"
                (some (s.freshIndex + 1))))
              (newLink s (s.freshIndex + 1) (ifaceNameOf xc.GetDestination) "veth"
                (some s.freshIndex))
              g2 (old_index_ne s _ (Nat.le_succ _))
              (by rw [(hg1 _).1]; simp [newLink])
            rw [hk2'] at hk2
            refine ⟨_, _, dst, ctx, hk2, (hg1 _).1, hg1ns, (hg1 _).2.1, (hg1 _).2.2.1,
              (hg1 _).2.2.2, (hg2 _).1, (hg2 _).2.1, hnsA, holdA, ?_, rfl, hc, hxc1.symm⟩
            by_cases hcur : s.cur = netNsInodeOf xc.GetSource
            · rw [← hcur]
              exact holdA
            · apply hasLink_of_forall
              intro l hl hcon
              have htk := htaken hcur
              unfold Kernel.nameTaken at htk
              rw [List.any_eq_false] at htk
              have := htk l (by simp [hl])
              have hidx := old_index_ne s s.freshIndex (Nat.le_refl _) l hl
              simp [hcon.1, hcon.2, hidx] at this

end NSM

namespace NSM

/-! ## Installing a local cross-connect twice -/

theorem setCur_self (s : Kernel) : ({ s with cur := s.cur } : Kernel) = s := by
  cases s
  rfl

/-- `findLocalSrcConnection` reports without error whether the source namespace holds a
veth link with the source name, and restores the namespace of the thread. -/
theorem findLocalSrcConnection_runs (xc : CrossConnect) (s : Kernel)
    (hns : netNsInodeOf xc.GetSource ∈ s.namespaces) :
    Runs (findLocalSrcConnection xc) s
      (s.links.any (fun l => l.ns == netNsInodeOf xc.GetSource &&
        (l.type == "veth" && l.name == ifaceNameOf xc.GetSource)), none) s := by
  simp only [netNsInodeOf] at hns
  constructor
  · simp [findLocalSrcConnection, bind_out, bind_kernel, netns.Get, netns.Set,
      fs.GetNsHandleFromInode, netlink.LinkList, hns, List.any_filter]
  · simp [findLocalSrcConnection, bind_out, bind_kernel, netns.Get, netns.Set,
      fs.GetNsHandleFromInode, netlink.LinkList, hns, NsHandle.Close]

theorem restore_modify (s : Kernel) (c : String) (i : Nat) (g : Link → Link) :
    ({ ({ s with cur := c } : Kernel).modify i g with cur := s.cur } : Kernel)
      = s.modify i g := by
  cases s
  rfl

theorem nameTaken_setCur (s : Kernel) (c ns name : String) (i : Nat) :
    ({ s with cur := c } : Kernel).nameTaken ns name i = s.nameTaken ns name i := rfl

/-- `ClearInterfaceSetup` succeeds on a link that exists in its namespace and whose name
is free in the namespace of the thread: the link ends in the namespace of the
thread. -/
theorem ClearInterfaceSetup_ok (lib : Lib) (name : String) (conn : Option Connection)
    (s : Kernel) (X : Link)
    (hns : netNsInodeOf conn ∈ s.namespaces)
    (hX : s.links.find? (fun l => l.ns == netNsInodeOf conn && l.name == name) = some X)
    (huniq : ∀ l ∈ s.links, l.index = X.index → l = X)
    (hfree : s.cur ≠ netNsInodeOf conn → s.nameTaken s.cur name X.index = false) :
    ∃ g, KeepsName g ∧ (g X).ns = s.cur ∧
      Runs (ClearInterfaceSetup lib name conn) s (netNsInodeOf conn, none)
        (s.modify X.index g) := by
  have hXp := List.find?_some hX
  simp only [Bool.and_eq_true, beq_iff_eq] at hXp
  obtain ⟨hXns, hXname⟩ := hXp
  -- the state inside the namespace of the link
  have hat : ({ s with cur := netNsInodeOf conn } : Kernel).linkAt X.index = some X :=
    linkAt_of_find (s := { s with cur := netNsInodeOf conn }) hX huniq
  obtain ⟨gr, hgr, hkr⟩ := deleteRoutes_attrOnly X
    ⟨GetDstRoutes (GetIpContext (GetContext conn)), ""⟩
    ({ s with cur := netNsInodeOf conn } : Kernel)
  obtain ⟨ar, har⟩ := deleteRoutes_returns X
    ⟨GetDstRoutes (GetIpContext (GetContext conn)), ""⟩
    ({ s with cur := netNsInodeOf conn } : Kernel)
  have hdown : Keeps (fun y : Link => { y with up := false }) :=
    fun _ => ⟨rfl, rfl, rfl, rfl, rfl⟩
  have hgd : Keeps ((fun y : Link => { y with up := false }) ∘ gr) := keeps_comp hgr hdown
  -- the state after the link was brought down
  have hatr : (({ s with cur := netNsInodeOf conn } : Kernel).modify X.index gr).linkAt X.index
      = some (gr X) := by
    rw [linkAt_modify _ _ _ _ hgr, hat]
    simp
  have hatd : (({ s with cur := netNsInodeOf conn } : Kernel).modify X.index
      ((fun y : Link => { y with up := false }) ∘ gr)).linkAt X.index
      = some ({ gr X with up := false }) := by
    rw [linkAt_modify _ _ _ _ hgd, hat]
    simp
  by_cases hcur : s.cur = netNsInodeOf conn
  · -- the link stays where it is
    refine ⟨(fun y : Link => { y with up := false }) ∘ gr, keepsName_of_keeps hgd, ?_, ?_⟩
    · rw [(hgd X).2.1, hXns, hcur]
    · unfold ClearInterfaceSetup
      rw [runs_bind]
      refine ⟨(), s, ⟨rfl, rfl⟩, ?_⟩
      rw [runs_bind]
      refine ⟨.ok (netNsInodeOf conn), s, ?_, ?_⟩
      · unfold fs.GetNsHandleFromInode
        rw [runs_prim]
        simp only [netNsInodeOf] at hns
        simp [hns]
      · simp only
        rw [runs_deferred]
        refine ⟨_, ?_, close_kernel _ _⟩
        rw [runs_bind]
        refine ⟨none, s.modify X.index ((fun y : Link => { y with up := false }) ∘ gr), ?_,
          ⟨rfl, rfl⟩⟩
        simp only [setupLinkInNs, Bool.false_eq_true, if_false]
        unfold setupLinkInNsSwitch
        rw [runs_bind]
        refine ⟨.ok s.cur, s, ⟨rfl, rfl⟩, ?_⟩
        simp only
        rw [runs_deferred]
        refine ⟨_, ?_, close_kernel _ _⟩
        rw [runs_bind]
        refine ⟨none, { s with cur := netNsInodeOf conn }, ⟨rfl, rfl⟩, ?_⟩
        simp only
        rw [runs_deferred]
        refine ⟨({ s with cur := netNsInodeOf conn } : Kernel).modify X.index
          ((fun y : Link => { y with up := false }) ∘ gr), ?_, ?_⟩
        · unfold setupLinkInNsInner
          rw [runs_bind]
          refine ⟨.ok X, { s with cur := netNsInodeOf conn }, ?_, ?_⟩
          · unfold netlink.LinkByName
            rw [runs_prim]
            simp [hX]
          · simp only [Bool.false_eq_true, if_false]
            rw [runs_bind]
            refine ⟨ar, _, ⟨har, hkr⟩, ?_⟩
            rw [runs_bind]
            refine ⟨none, ({ s with cur := netNsInodeOf conn } : Kernel).modify X.index
              ((fun y : Link => { y with up := false }) ∘ gr), ?_, ?_⟩
            · unfold netlink.LinkSetDown
              rw [runs_prim]
              simp only [hatr]
              exact ⟨trivial, modify_modify _ _ _ _ (fun y => (hgr y).1)⟩
            · simp only
              rw [runs_bind]
              refine ⟨none, ({ s with cur := netNsInodeOf conn } : Kernel).modify X.index
                ((fun y : Link => { y with up := false }) ∘ gr), ?_, ⟨rfl, rfl⟩⟩
              unfold netlink.LinkSetNsFd
              rw [runs_prim]
              simp only [hatd]
              have : (gr X).ns = s.cur := by rw [(hgr X).2.1, hXns, hcur]
              simp [this]
        · rw [set_kernel]
          exact restore_modify s _ _ _
  · -- the link is moved to the namespace of the thread
    have htk := hfree hcur
    refine ⟨moveTo s.cur ∘ ((fun y : Link => { y with up := false }) ∘ gr),
      keepsName_comp (keepsName_of_keeps hgd) (keepsName_moveTo _), rfl, ?_⟩
    unfold ClearInterfaceSetup
    rw [runs_bind]
    refine ⟨(), s, ⟨rfl, rfl⟩, ?_⟩
    rw [runs_bind]
    refine ⟨.ok (netNsInodeOf conn), s, ?_, ?_⟩
    · unfold fs.GetNsHandleFromInode
      rw [runs_prim]
      simp only [netNsInodeOf] at hns
      simp [hns]
    · simp only
      rw [runs_deferred]
      refine ⟨_, ?_, close_kernel _ _⟩
      rw [runs_bind]
      refine ⟨none, s.modify X.index
        (moveTo s.cur ∘ ((fun y : Link => { y with up := false }) ∘ gr)), ?_,
        ⟨rfl, rfl⟩⟩
      simp only [setupLinkInNs, Bool.false_eq_true, if_false]
      unfold setupLinkInNsSwitch
      rw [runs_bind]
      refine ⟨.ok s.cur, s, ⟨rfl, rfl⟩, ?_⟩
      simp only
      rw [runs_deferred]
      refine ⟨_, ?_, close_kernel _ _⟩
      rw [runs_bind]
      refine ⟨none, { s with cur := netNsInodeOf conn }, ⟨rfl, rfl⟩, ?_⟩
      simp only
      rw [runs_deferred]
      refine ⟨({ s with cur := netNsInodeOf conn } : Kernel).modify X.index
        (moveTo s.cur ∘ ((fun y : Link => { y with up := false }) ∘ gr)), ?_, ?_⟩
      · unfold setupLinkInNsInner
        rw [runs_bind]
        refine ⟨.ok X, { s with cur := netNsInodeOf conn }, ?_, ?_⟩
        · unfold netlink.LinkByName
          rw [runs_prim]
          simp [hX]
        · simp only [Bool.false_eq_true, if_false]
          rw [runs_bind]
          refine ⟨ar, _, ⟨har, hkr⟩, ?_⟩
          rw [runs_bind]
          refine ⟨none, ({ s with cur := netNsInodeOf conn } : Kernel).modify X.index
            ((fun y : Link => { y with up := false }) ∘ gr), ?_, ?_⟩
          · unfold netlink.LinkSetDown
            rw [runs_prim]
            simp only [hatr]
            exact ⟨trivial, modify_modify _ _ _ _ (fun y => (hgr y).1)⟩
          · simp only
            rw [runs_bind]
            refine ⟨none, ({ s with cur := netNsInodeOf conn } : Kernel).modify X.index
              (moveTo s.cur ∘ ((fun y : Link => { y with up := false }) ∘ gr)), ?_,
              ⟨rfl, rfl⟩⟩
            unfold netlink.LinkSetNsFd
            rw [runs_prim]
            simp only [hatd]
            have hne : ¬ ((gr X).ns = s.cur) := by
              rw [(hgr X).2.1, hXns]
              exact fun h => hcur h.symm
            have htk' : (({ s with cur := netNsInodeOf conn } : Kernel).modify X.index
                ((fun y : Link => { y with up := false }) ∘ gr)).nameTaken s.cur (gr X).name
                  (gr X).index = false := by
              rw [nameTaken_modify _ _ _ _ hgd, nameTaken_setCur, (hgr X).2.2.1, (hgr X).1,
                hXname]
              exact htk
            simp only [hne, if_false, htk', Bool.false_eq_true]
            exact ⟨trivial, modify_modify _ _ _ _ (fun y => (hgd y).1)⟩
      · rw [set_kernel]
        exact restore_modify s _ _ _

end NSM

namespace NSM

/-- The successful runs of `createLocalConnectionSetup`, step by step. -/
theorem createLocalConnectionSetup_runs_iff (k : KernelForwarder) (lib : Lib)
    (xc xc1 : CrossConnect) (r1 r2 : Nat) (s s1 : Kernel)
    (devs : Option (List (String × Device))) :
    Runs (createLocalConnectionSetup k lib xc r1 r2) s ((devs, none), xc1) s1 ↔
    ∃ dst ctx x y s0 s2,
      xc.Destination = some dst ∧ dst.Context = some ctx ∧
      xc1 = xc.overwriteDstIpContext dst ctx ∧
      Runs (k.CreateInterfaces (createSrcName xc r1) (createDstName xc r2)) s none s0 ∧
      Runs (SetupInterface lib (createSrcName xc r1) (createTempName xc) xc.GetSource false) s0
        (x, none) s2 ∧
      Runs (SetupInterface lib (createDstName xc r2) (createTempName xc)
        (xc.overwriteDstIpContext dst ctx).GetDestination true) s2 (y, none) s1 ∧
      devs = some (createdDevices xc r1 r2 x y) := by
  unfold createLocalConnectionSetup
  simp only [runs_bind]
  constructor
  · rintro ⟨err, s0, h0, hr⟩
    cases err with
    | some e =>
      simp only [runs_pure] at hr
      cases hr.1
    | none =>
      simp only [runs_bind] at hr
      obtain ⟨⟨x, err⟩, s2, h2, hr⟩ := hr
      cases err with
      | some e =>
        simp only [runs_pure] at hr
        cases hr.1
      | none =>
        simp only at hr
        cases hd : xc.Destination with
        | none =>
          simp only [hd] at hr
          exact absurd hr runs_panic
        | some dst =>
          simp only [hd] at hr
          cases hc : dst.Context with
          | none =>
            simp only [hc] at hr
            exact absurd hr runs_panic
          | some ctx =>
            simp only [hc, runs_bind] at hr
            obtain ⟨⟨y, err⟩, s3, h3, hr⟩ := hr
            cases err with
            | some e =>
              simp only [runs_pure] at hr
              cases hr.1
            | none =>
              simp only [runs_pure, Prod.mk.injEq] at hr
              obtain ⟨⟨⟨hdevs, _⟩, hxc1⟩, hs3⟩ := hr
              subst hs3
              exact ⟨dst, ctx, x, y, s0, s2, rfl, hc, hxc1.symm, h0, h2, h3, hdevs.symm⟩
  · rintro ⟨dst, ctx, x, y, s0, s2, hd, hc, hxc1, h0, h2, h3, hdevs⟩
    refine ⟨none, s0, h0, ?_⟩
    simp only [runs_bind]
    refine ⟨(x, none), s2, h2, ?_⟩
    simp only [hd, hc, runs_bind]
    refine ⟨(y, none), s1, h3, ?_⟩
    simp only [runs_pure, Prod.mk.injEq]
    exact ⟨⟨⟨hdevs.symm, trivial⟩, hxc1.symm⟩, trivial⟩

end NSM

namespace NSM

/-- A successful set-up can be repeated from the same state, with other random
draws and for the cross-connect as the first set-up left it, when the two
interface names differ. -/
theorem createLocalConnectionSetup_again (k : KernelForwarder) (lib : Lib)
    (xc xc1 xc2 : CrossConnect) (r1 r2 r3 r4 : Nat) (s s1 : Kernel)
    (devs : Option (List (String × Device)))
    (hne : ifaceNameOf xc.GetSource ≠ ifaceNameOf xc.GetDestination)
    (hrun : Runs (createLocalConnectionSetup k lib xc r1 r2) s ((devs, none), xc1) s1)
    (hxc2 : xc2 = xc ∨ xc2 = xc1) :
    Runs (createLocalConnectionSetup k lib xc2 r3 r4) s ((devs, none), xc1) s1 := by
  have hne' : ¬ (ifaceNameOf xc.GetDestination = ifaceNameOf xc.GetSource) :=
    fun h => hne h.symm
  rw [createLocalConnectionSetup_runs_iff] at hrun
  obtain ⟨dst, ctx, x, y, s0, s2, hd, hc, hxc1, h0, h2, h3, hdevs⟩ := hrun
  have hsrcName : ∀ r, createSrcName xc r = ifaceNameOf xc.GetSource := by
    intro r
    unfold createSrcName
    rw [if_neg hne']
  have hdstName : ∀ r, createDstName xc r = ifaceNameOf xc.GetDestination := by
    intro r
    unfold createDstName
    rw [if_neg hne']
  have hdev : createdDevices xc r3 r4 x y = createdDevices xc r1 r2 x y := by
    unfold createdDevices
    simp only [hsrcName, hdstName]
  rw [createLocalConnectionSetup_runs_iff]
  rcases hxc2 with h | h
  · subst h
    rw [hsrcName] at h0 h2 ⊢
    rw [hdstName] at h0 h3 ⊢
    exact ⟨dst, ctx, x, y, s0, s2, hd, hc, hxc1, h0, h2, h3, by rw [hdev]; exact hdevs⟩
  · subst h
    subst hxc1
    have e1 : (xc.overwriteDstIpContext dst ctx).GetSource = xc.GetSource := rfl
    have e2 : ifaceNameOf (xc.overwriteDstIpContext dst ctx).GetDestination
        = ifaceNameOf xc.GetDestination := by
      simp only [CrossConnect.overwriteDstIpContext, CrossConnect.GetDestination, hd]
      rfl
    have e3 : ∀ r, createSrcName (xc.overwriteDstIpContext dst ctx) r = createSrcName xc r := by
      intro r
      unfold createSrcName
      rw [e1, e2]
    have e4 : ∀ r, createDstName (xc.overwriteDstIpContext dst ctx) r = createDstName xc r := by
      intro r
      unfold createDstName
      rw [e1, e2]
    have e5 : createTempName (xc.overwriteDstIpContext dst ctx) = createTempName xc := by
      unfold createTempName
      rw [e1, e2]
    have e6 : createdDevices (xc.overwriteDstIpContext dst ctx) r3 r4 x y
        = createdDevices xc r1 r2 x y := by
      rw [← hdev]
      unfold createdDevices
      rw [e3, e4, e5]
      rfl
    refine ⟨⟨dst.Id, dst.NetworkService, dst.Mechanism,
        some ⟨GetIpContext (GetContext xc.GetSource)⟩, dst.Labels⟩,
      ⟨GetIpContext (GetContext xc.GetSource)⟩, x, y, s0, s2, rfl, rfl, rfl, ?_, ?_, ?_, ?_⟩
    · rw [e3, e4, hsrcName, hdstName]
      rw [hsrcName, hdstName] at h0
      exact h0
    · rw [e3, e5, e1, hsrcName]
      rw [hsrcName] at h2
      exact h2
    · rw [e4, e5, hdstName]
      rw [hdstName] at h3
      exact h3
    · rw [hdevs, ← e6]

end NSM

namespace NSM

/-- Installing again, starting from the state a successful `createLocalConnectionSetup`
left: the source interface is found, cleared and deleted, which restores the
state the set-up started from, and the set-up is repeated. -/
theorem reinstall_after_setup (lib : Lib) (xc xc1 xc2 : CrossConnect) (r1 r2 r3 r4 : Nat)
    (sc s1 : Kernel) (devs : Option (List (String × Device)))
    (hne : ifaceNameOf xc.GetSource ≠ ifaceNameOf xc.GetDestination)
    (hrun : Runs (createLocalConnectionSetup kernelForwarder lib xc r1 r2) sc
      ((devs, none), xc1) s1)
    (hxc2 : xc2 = xc ∨ xc2 = xc1) :
    Runs (handleLocalConnection kernelForwarder lib xc2 true r3 r4) s1 ((devs, none), xc1) s1 := by
  obtain ⟨M1, M2, dst, ctx, hk, hi1, hns1, hname1, htype1, hpeer1, hi2, hname2, hnsA, holdH,
    holdA, hd, hc, hxc1⟩ := createLocalConnectionSetup_spec lib xc r1 r2 sc devs xc1 hne hrun.1
  rw [hrun.2] at hk
  -- the second cross-connect has the source and the names of the first
  have hsrc : xc2.GetSource = xc.GetSource := by
    rcases hxc2 with h | h
    · rw [h]
    · rw [h, hxc1]; rfl
  have hdstName : ifaceNameOf xc2.GetDestination = ifaceNameOf xc.GetDestination := by
    rcases hxc2 with h | h
    · rw [h]
    · rw [h, hxc1]
      simp only [CrossConnect.overwriteDstIpContext, CrossConnect.GetDestination, hd]
      rfl
  -- the source interface is found
  have hfind : Runs (findLocalSrcConnection xc2) s1 (true, none) s1 := by
    have h := findLocalSrcConnection_runs xc2 s1 (by rw [hsrc, hk]; exact hnsA)
    have hany : s1.links.any (fun l => l.ns == netNsInodeOf xc2.GetSource &&
        (l.type == "veth" && l.name == ifaceNameOf xc2.GetSource)) = true := by
      rw [List.any_eq_true]
      refine ⟨M1, by rw [hk]; simp, ?_⟩
      rw [hsrc]
      simp [hns1, htype1, hname1]
    rw [hany] at h
    exact h
  -- it is cleared
  have hX : s1.links.find? (fun l => l.ns == netNsInodeOf xc2.GetSource &&
      l.name == ifaceNameOf xc2.GetSource) = some M1 := by
    rw [hk, hsrc]
    apply find_addLinks_fst
    · intro l hl
      have := hasLink_eq_false holdA l hl
      simp only [Bool.and_eq_false_imp, beq_iff_eq, beq_eq_false_iff_ne]
      exact fun a b => this ⟨a, b⟩
    · simp [hns1, hname1]
  have huniq : ∀ l ∈ s1.links, l.index = M1.index → l = M1 := by
    rw [hk]
    exact uniq_addLinks_fst sc M1 M2 hi1 hi2
  have hfree : s1.cur ≠ netNsInodeOf xc2.GetSource →
      s1.nameTaken s1.cur (ifaceNameOf xc2.GetSource) M1.index = false := by
    intro _
    unfold Kernel.nameTaken
    rw [List.any_eq_false]
    intro l hl
    rw [hk] at hl
    simp only [addLinks_links, List.mem_append, List.mem_cons, List.mem_singleton,
      List.not_mem_nil, or_false] at hl
    rw [hsrc, hk]
    simp only [addLinks_cur, Bool.and_eq_true, beq_iff_eq, bne_iff_ne, ne_eq, not_and,
      Decidable.not_not]
    rcases hl with h | h | h
    · intro hl1
      exact absurd hl1 (hasLink_eq_false holdH l h)
    · intro _
      rw [h]
    · intro hl1
      rw [h, hname2] at hl1
      exact absurd hl1.2.symm hne
  obtain ⟨g, hg, hgns, hclear⟩ := ClearInterfaceSetup_ok lib (ifaceNameOf xc2.GetSource)
    xc2.GetSource s1 M1 (by rw [hsrc, hk]; exact hnsA) hX huniq hfree
  have hmod : s1.modify M1.index g = sc.addLinks [g M1, M2] := by
    rw [hk]
    exact modify_addLinks_fst sc M1 M2 g (old_index_ne sc _ (by rw [hi1]))
      (by rw [hi1, hi2]; omega)
  rw [hmod] at hclear
  -- and deleted, which restores the state before the first set-up
  have hdelete : Runs (kernelForwarder.DeleteInterfaces (ifaceNameOf xc2.GetSource))
      (sc.addLinks [g M1, M2]) none sc := by
    have h := veth.DeleteInterfaces_pair (ifaceNameOf xc2.GetSource) sc (g M1) M2
      (by rw [hsrc]; exact holdH)
      (by rw [hgns, hk]; rfl)
      (by rw [(hg M1).2.1, hname1, hsrc])
      (by rw [(hg M1).1, hi1]) hi2
      (by rw [(hg M1).2.2.2, hpeer1])
    unfold KernelForwarder.DeleteInterfaces
    rw [runs_prim]
    show (veth.DeleteInterfaces _ _).1 = none ∧ (veth.DeleteInterfaces _ _).2 = sc
    rw [h]
    exact ⟨rfl, rfl⟩
  -- the set-up is repeated
  have hagain : Runs (createLocalConnectionSetup kernelForwarder lib xc2 r3 r4) sc
      ((devs, none), xc1) s1 :=
    createLocalConnectionSetup_again kernelForwarder lib xc xc1 xc2 r1 r2 r3 r4 sc s1 devs hne
      hrun hxc2
  simp only [handleLocalConnection, if_true]
  rw [runs_bind]
  refine ⟨((devs, none), xc1), s1, ?_, ⟨rfl, rfl⟩⟩
  unfold createLocalConnection
  rw [runs_bind]
  refine ⟨(true, none), s1, hfind, ?_⟩
  simp only [if_true]
  rw [runs_bind]
  refine ⟨(netNsInodeOf xc2.GetSource, none), _, hclear, ?_⟩
  simp only
  rw [runs_bind]
  exact ⟨none, sc, hdelete, hagain⟩

end NSM

namespace NSM

/-- The state in which the set-up of a successful `createLocalConnection` started. -/
theorem createLocalConnection_setup_state (k : KernelForwarder) (lib : Lib)
    (xc xc1 : CrossConnect) (r1 r2 : Nat) (s s1 : Kernel)
    (devs : Option (List (String × Device)))
    (h : Runs (handleLocalConnection k lib xc true r1 r2) s ((devs, none), xc1) s1) :
    ∃ sc, Runs (createLocalConnectionSetup k lib xc r1 r2) sc ((devs, none), xc1) s1 := by
  simp only [handleLocalConnection, if_true] at h
  rw [runs_bind] at h
  obtain ⟨⟨⟨d, err⟩, xc3⟩, s2, hc, hr⟩ := h
  cases err with
  | some e =>
    simp only [runs_pure] at hr
    cases hr.1
  | none =>
    simp only [runs_pure, Prod.mk.injEq] at hr
    obtain ⟨⟨⟨hd, _⟩, hx⟩, hs⟩ := hr
    subst hd hx hs
    unfold createLocalConnection at hc
    rw [runs_bind] at hc
    obtain ⟨⟨found, err⟩, sf, _, hc⟩ := hc
    cases err with
    | some e =>
      simp only [runs_pure] at hc
      cases hc.1
    | none =>
      cases found with
      | false =>
        simp only [Bool.false_eq_true, if_false] at hc
        exact ⟨sf, hc⟩
      | true =>
        simp only [if_true] at hc
        rw [runs_bind] at hc
        obtain ⟨⟨_, err⟩, s3, _, hc⟩ := hc
        cases err with
        | some e =>
          simp only [runs_pure] at hc
          cases hc.1
        | none =>
          simp only at hc
          rw [runs_bind] at hc
          obtain ⟨err, s4, _, hc⟩ := hc
          cases err with
          | some e =>
            simp only [runs_pure] at hc
            cases hc.1
          | none => exact ⟨s4, hc⟩

/-- Install is idempotent for a local cross-connect whose source and destination
interface names differ.  After a first successful
`handleLocalConnection(crossConnect, connect=true)` with the veth collaborator,
calling it again (with the cross-connect as passed the first time or as the
first call left it, and whatever the random draws) returns no error and the
same devices, and leaves the kernel, hence the installed interfaces, exactly
as after the first call. -/
theorem handleLocalConnection_install_twice (lib : Lib) (xc xc1 xc2 : CrossConnect)
    (r1 r2 r3 r4 : Nat) (s : Kernel) (devs : Option (List (String × Device)))
    (hne : ifaceNameOf xc.GetSource ≠ ifaceNameOf xc.GetDestination)
    (hfirst : (handleLocalConnection kernelForwarder lib xc true r1 r2 s).out
      = .ret ((devs, none), xc1))
    (hxc2 : xc2 = xc ∨ xc2 = xc1) :
    (handleLocalConnection kernelForwarder lib xc2 true r3 r4
        (handleLocalConnection kernelForwarder lib xc true r1 r2 s).kernel).out
      = .ret ((devs, none), xc1) ∧
    (handleLocalConnection kernelForwarder lib xc2 true r3 r4
        (handleLocalConnection kernelForwarder lib xc true r1 r2 s).kernel).kernel
      = (handleLocalConnection kernelForwarder lib xc true r1 r2 s).kernel := by
  obtain ⟨sc, hsetup⟩ := createLocalConnection_setup_state kernelForwarder lib xc xc1 r1 r2 s _
    devs ⟨hfirst, rfl⟩
  exact reinstall_after_setup lib xc xc1 xc2 r1 r2 r3 r4 sc _ devs hne hsetup hxc2

/-- The example cross-connect between `eth10` and `eth20`, installed twice on the example
kernel. -/
theorem handleLocalConnection_install_twice_witness :
    ifaceNameOf exampleLocalXcon.GetSource ≠ ifaceNameOf exampleLocalXcon.GetDestination ∧
    (handleLocalConnection kernelForwarder exampleLib exampleLocalXcon true 0 0
        exampleKernel).out
      = .ret ((some [("10", ⟨"eth10", "SRC-1"⟩), ("20", ⟨"eth20", "DST-1"⟩)], none),
          exampleLocalXcon) ∧
    (handleLocalConnection kernelForwarder exampleLib exampleLocalXcon true 3 4
        (handleLocalConnection kernelForwarder exampleLib exampleLocalXcon true 0 0
          exampleKernel).kernel).out
      = .ret ((some [("10", ⟨"eth10", "SRC-1"⟩), ("20", ⟨"eth20", "DST-1"⟩)], none),
          exampleLocalXcon) ∧
    (handleLocalConnection kernelForwarder exampleLib exampleLocalXcon true 3 4
        (handleLocalConnection kernelForwarder exampleLib exampleLocalXcon true 0 0
          exampleKernel).kernel).kernel
      = (handleLocalConnection kernelForwarder exampleLib exampleLocalXcon true 0 0
          exampleKernel).kernel :=
  ⟨by decide, by decide,
    handleLocalConnection_install_twice exampleLib exampleLocalXcon exampleLocalXcon
      exampleLocalXcon 0 0 3 4 exampleKernel _ (by decide) (by decide) (Or.inl rfl)⟩

/-- C1, at the failing input: a local cross-connect whose two mechanisms name no interface.
The first install succeeds under the temporary names `nsm1` and `nsm2`, which the
two interfaces keep.  The second install finds no interface bearing the name of
the source mechanism, clears nothing, succeeds under the temporary names `nsm3`
and `nsm4`, and leaves four interfaces installed where the first call left
two. -/
theorem handleLocalConnection_reinstall_unnamed :
    ifaceNameOf exampleBareXcon.GetSource = "" ∧
    ifaceNameOf exampleBareXcon.GetDestination = "" ∧
    (handleLocalConnection kernelForwarder exampleLib exampleBareXcon true 1 2
        exampleKernel).out
      = .ret ((some [("10", ⟨"nsm1", "SRC-1"⟩), ("20", ⟨"nsm2", "DST-1"⟩)], none),
          exampleBareXcon) ∧
    (handleLocalConnection kernelForwarder exampleLib exampleBareXcon true 1 2
        exampleKernel).kernel.links.map (fun l => (l.ns, l.name))
      = [("10", "nsm1"), ("20", "nsm2")] ∧
    (handleLocalConnection kernelForwarder exampleLib exampleBareXcon true 3 4
        (handleLocalConnection kernelForwarder exampleLib exampleBareXcon true 1 2
          exampleKernel).kernel).out
      = .ret ((some [("10", ⟨"nsm3", "SRC-1"⟩), ("20", ⟨"nsm4", "DST-1"⟩)], none),
          exampleBareXcon) ∧
    (handleLocalConnection kernelForwarder exampleLib exampleBareXcon true 3 4
        (handleLocalConnection kernelForwarder exampleLib exampleBareXcon true 1 2
          exampleKernel).kernel).kernel.links.map (fun l => (l.ns, l.name))
      = [("10", "nsm1"), ("20", "nsm2"), ("10", "nsm3"), ("20", "nsm4")] ∧
    Call.ClearInterfaceSetup "" ∉
      (handleLocalConnection kernelForwarder exampleLib exampleBareXcon true 3 4
        (handleLocalConnection kernelForwarder exampleLib exampleBareXcon true 1 2
          exampleKernel).kernel).trace :=
  ⟨by decide, by decide, by decide, by decide, by decide, by decide, by decide⟩

end NSM

namespace NSM

/-! ## The client: `Connect` and `ConnectRetry` -/

/-- C7, at the failing input: with a network service manager that refuses every
request, `Connect` issues the request twice and returns the refusal of the
second attempt. -/
theorem Connect_issues_two_requests :
    (exampleClient.Connect refusingEnv "nsm0" "KERNEL_INTERFACE" "").requests = 2 ∧
    (exampleClient.Connect refusingEnv "nsm0" "KERNEL_INTERFACE" "").err
      = some "nsm client: Failed to connect: attempt 1 refused" := by
  decide

/-- The retry loop: it issues at least one and at most `retryCount + 1` requests, every
request but the last one issued has failed, and it ends with an error exactly
when all `retryCount + 1` requests fail. -/
theorem requestLoop_spec (env : ClientEnv) (req : NetworkServiceRequest) (n i0 : Nat) :
    i0 < (requestLoop env req n i0).2.2 ∧
    (requestLoop env req n i0).2.2 ≤ i0 + n + 1 ∧
    (∀ i, i0 ≤ i → i + 1 < (requestLoop env req n i0).2.2 → (env.Request i req).2 ≠ none) ∧
    ((requestLoop env req n i0).2.1 ≠ none →
      (requestLoop env req n i0).2.2 = i0 + n + 1 ∧
      (∀ i, i0 ≤ i → i ≤ i0 + n → (env.Request i req).2 ≠ none) ∧
      (requestLoop env req n i0).2.1 = (env.Request (i0 + n) req).2) ∧
    ((∀ i, i0 ≤ i → i ≤ i0 + n → (env.Request i req).2 ≠ none) →
      (requestLoop env req n i0).2.1 ≠ none) ∧
    ((requestLoop env req n i0).2.1 = none →
      env.Request ((requestLoop env req n i0).2.2 - 1) req
        = ((requestLoop env req n i0).1, none)) := by
  induction n generalizing i0 with
  | zero =>
    unfold requestLoop
    rcases h : env.Request i0 req with ⟨c, e⟩
    cases e with
    | none =>
      simp only [h]
      refine ⟨by omega, by omega, fun i _ _ => by omega, fun hc => absurd rfl hc, ?_, ?_⟩
      · intro hall
        have := hall i0 (Nat.le_refl _) (by omega)
        rw [h] at this
        exact absurd rfl this
      · intro _
        simp [h]
    | some e =>
      simp only [h]
      refine ⟨by omega, by omega, fun i _ _ => by omega, fun _ => ⟨trivial, ?_, by simp [h]⟩,
        fun _ => by simp, fun hc => by simp at hc⟩
      intro i h1 h2
      have : i = i0 := by omega
      subst this
      simp [h]
  | succ n ih =>
    unfold requestLoop
    rcases h : env.Request i0 req with ⟨c, e⟩
    cases e with
    | none =>
      simp only [h]
      refine ⟨by omega, by omega, fun i _ _ => by omega, fun hc => absurd rfl hc, ?_, ?_⟩
      · intro hall
        have := hall i0 (Nat.le_refl _) (by omega)
        rw [h] at this
        exact absurd rfl this
      · intro _
        simp [h]
    | some e =>
      simp only [h]
      obtain ⟨h1, h2, h3, h4, h5, h6⟩ := ih (i0 + 1)
      refine ⟨by omega, by omega, ?_, ?_, ?_, ?_⟩
      · intro i hi1 hi2
        by_cases hi : i = i0
        · subst hi
          simp [h]
        · exact h3 i (by omega) hi2
      · intro hc
        obtain ⟨a1, a2, a3⟩ := h4 hc
        refine ⟨by omega, ?_, ?_⟩
        · intro i hi1 hi2
          by_cases hi : i = i0
          · subst hi
            simp [h]
          · exact a2 i (by omega) (by omega)
        · rw [a3]
          congr 2
          omega
      · intro hall
        exact h5 (fun i hi1 hi2 => hall i (by omega) (by omega))
      · intro hc
        exact h6 hc

theorem errorsWrap_ne (e1 e2 : String) :
    errorsWrap e1 "failure to prepare the outgoing mechanism preference with error"
      ≠ errorsWrap e2 "nsm client: Failed to connect" := by
  intro h
  have := congrArg (fun s => s.data.head?) h
  simp [errorsWrap, String.data_append] at this

end NSM

namespace NSM

theorem attemptOf_error (env : ClientEnv) (nsmc : NsmClient) (name mechanism description : String)
    (i : Nat) (err : String)
    (hm : env.NewMechanism cls.LOCAL mechanism
      (if nsmc.NscInterfaceName ≠ "" then nsmc.NscInterfaceName else name) description
        = .error err) :
    attemptOf env nsmc name mechanism description i = none := by
  unfold attemptOf
  rw [hm]

theorem attemptOf_ok (env : ClientEnv) (nsmc : NsmClient) (name mechanism description : String)
    (i : Nat) (m : Mechanism)
    (hm : env.NewMechanism cls.LOCAL mechanism
      (if nsmc.NscInterfaceName ≠ "" then nsmc.NscInterfaceName else name) description = .ok m) :
    attemptOf env nsmc name mechanism description i
      = some (env.Request i (nsmc.outgoingRequest m)) := by
  unfold attemptOf
  rw [hm]

theorem attemptFails_iff (env : ClientEnv) (nsmc : NsmClient)
    (name mechanism description : String) (i : Nat) (m : Mechanism)
    (hm : env.NewMechanism cls.LOCAL mechanism
      (if nsmc.NscInterfaceName ≠ "" then nsmc.NscInterfaceName else name) description = .ok m) :
    attemptFails env nsmc name mechanism description i
      ↔ (env.Request i (nsmc.outgoingRequest m)).2 ≠ none := by
  unfold attemptFails
  rw [attemptOf_ok env nsmc name mechanism description i m hm]
  rcases env.Request i (nsmc.outgoingRequest m) with ⟨c, e⟩
  cases e <;> simp

/-- C8: for every retry count `n ≥ 0`, `ConnectRetry` issues at most `n + 1` requests and
none after a successful one (every request before the last issued has failed);
it returns the error "nsm client: Failed to connect" exactly when all `n + 1`
attempts fail, and that error wraps the failure of the last attempt; whenever
it returns an error the client, with its `OutgoingConnections`, is unchanged;
and on success the returned connection is the answer to the last request
issued and is the one appended to `OutgoingConnections`. -/
theorem ConnectRetry_spec (env : ClientEnv) (nsmc : NsmClient)
    (name mechanism description : String) (n d : Nat) :
    (nsmc.ConnectRetry env name mechanism description (n : Int) d).requests ≤ n + 1 ∧
    (∀ i, i + 1 < (nsmc.ConnectRetry env name mechanism description (n : Int) d).requests →
      attemptFails env nsmc name mechanism description i) ∧
    ((∃ e, (nsmc.ConnectRetry env name mechanism description (n : Int) d).err
        = some (errorsWrap e "nsm client: Failed to connect")) ↔
      ∀ i, i ≤ n → attemptFails env nsmc name mechanism description i) ∧
    (∀ c e, (∀ i, i ≤ n → attemptFails env nsmc name mechanism description i) →
      attemptOf env nsmc name mechanism description n = some (c, some e) →
      (nsmc.ConnectRetry env name mechanism description (n : Int) d).err
          = some (errorsWrap e "nsm client: Failed to connect") ∧
        (nsmc.ConnectRetry env name mechanism description (n : Int) d).conn = none ∧
        (nsmc.ConnectRetry env name mechanism description (n : Int) d).requests = n + 1) ∧
    ((nsmc.ConnectRetry env name mechanism description (n : Int) d).err ≠ none →
      (nsmc.ConnectRetry env name mechanism description (n : Int) d).client = nsmc) ∧
    ((nsmc.ConnectRetry env name mechanism description (n : Int) d).err = none →
      (nsmc.ConnectRetry env name mechanism description (n : Int) d).client.OutgoingConnections
          = nsmc.OutgoingConnections
            ++ [(nsmc.ConnectRetry env name mechanism description (n : Int) d).conn] ∧
        0 < (nsmc.ConnectRetry env name mechanism description (n : Int) d).requests ∧
        attemptOf env nsmc name mechanism description
            ((nsmc.ConnectRetry env name mechanism description (n : Int) d).requests - 1)
          = some ((nsmc.ConnectRetry env name mechanism description (n : Int) d).conn, none)) := by
  cases hm : env.NewMechanism cls.LOCAL mechanism
      (if nsmc.NscInterfaceName ≠ "" then nsmc.NscInterfaceName else name) description with
  | error err =>
    have hR : nsmc.ConnectRetry env name mechanism description (n : Int) d
        = ⟨none, some (errorsWrap err
          "failure to prepare the outgoing mechanism preference with error"), nsmc, 0⟩ := by
      simp only [NsmClient.ConnectRetry, hm]
    have hnone := fun i => attemptOf_error env nsmc name mechanism description i err hm
    rw [hR]
    refine ⟨by simp, fun i hi => by simp at hi, ⟨?_, ?_⟩, ?_, fun _ => rfl, fun h => by simp at h⟩
    · rintro ⟨e, he⟩
      simp only [Option.some.injEq] at he
      exact absurd he (errorsWrap_ne err e)
    · intro hall
      obtain ⟨c, e, hce⟩ := hall 0 (Nat.zero_le _)
      rw [hnone 0] at hce
      cases hce
    · intro c e _ hce
      rw [hnone n] at hce
      cases hce
  | ok m =>
    have hfail := fun i => attemptFails_iff env nsmc name mechanism description i m hm
    have hatt := fun i => attemptOf_ok env nsmc name mechanism description i m hm
    obtain ⟨h1, h2, h3, h4, h5, h6⟩ := requestLoop_spec env (nsmc.outgoingRequest m) n 0
    have hneg : ¬ ((n : Int) < 0) := by omega
    rcases hloop : requestLoop env (nsmc.outgoingRequest m) n 0 with ⟨c, e, cnt⟩
    rw [hloop] at h1 h2 h3 h4 h5 h6
    simp only [Nat.zero_add] at h2 h4 h5
    cases e with
    | some e =>
      have hR : nsmc.ConnectRetry env name mechanism description (n : Int) d
          = ⟨none, some (errorsWrap e "nsm client: Failed to connect"), nsmc, cnt⟩ := by
        simp only [NsmClient.ConnectRetry, hm, if_neg hneg, Int.toNat_ofNat, hloop]
      obtain ⟨a1, a2, a3⟩ := h4 (by simp)
      rw [hR]
      refine ⟨h2, fun i hi => (hfail i).2 (h3 i (Nat.zero_le _) hi), ⟨?_, ?_⟩, ?_, fun _ => rfl,
        fun h => by simp at h⟩
      · intro _ i hi
        exact (hfail i).2 (a2 i (Nat.zero_le _) hi)
      · intro _
        exact ⟨e, rfl⟩
      · intro c2 e2 _ hce
        rw [hatt n] at hce
        simp only [Option.some.injEq] at hce
        have : (env.Request n (nsmc.outgoingRequest m)).2 = some e2 := by rw [hce]
        rw [← a3] at this
        simp only [Option.some.injEq] at this
        subst this
        exact ⟨rfl, rfl, a1⟩
    | none =>
      have hR : nsmc.ConnectRetry env name mechanism description (n : Int) d
          = ⟨c, none, { nsmc with OutgoingConnections := nsmc.OutgoingConnections ++ [c] },
            cnt⟩ := by
        simp only [NsmClient.ConnectRetry, hm, if_neg hneg, Int.toNat_ofNat, hloop]
      have hnot : ¬ ∀ i, i ≤ n → attemptFails env nsmc name mechanism description i := by
        intro hall
        exact h5 (fun i _ hi => (hfail i).1 (hall i hi)) rfl
      rw [hR]
      refine ⟨h2, fun i hi => (hfail i).2 (h3 i (Nat.zero_le _) hi), ⟨?_, ?_⟩, ?_,
        fun h => absurd rfl h, fun _ => ⟨rfl, h1, ?_⟩⟩
      · rintro ⟨e, he⟩
        cases he
      · intro hall
        exact absurd hall hnot
      · intro c2 e2 hall _
        exact absurd hall hnot
      · rw [hatt]
        exact congrArg some (h6 rfl)

end NSM

namespace NSM

/-! ## The constants of the client -/

/-- C12, in the code: the constant `ConnectionRetry` is 18, not the 10 its comment
gives as the default; a call of `ConnectRetry` with `ConnectionRetry` retries
issues up to 19 requests. -/
theorem ConnectionRetry_value :
    ConnectionRetry = 18 ∧ ConnectionRetry ≠ 10 ∧
    (exampleClient.ConnectRetry refusingEnv "nsm0" "KERNEL_INTERFACE" "" ConnectionRetry
      0).requests = 19 := by
  decide

/-- C13, in the code: the constant `RequestDelay` is ten seconds, not the five seconds its
comment gives as the default. -/
theorem RequestDelay_value :
    RequestDelay = 10 * time.Second ∧ RequestDelay ≠ 5 * time.Second ∧
    time.Second = 1000000000 := by
  decide

end NSM

namespace AdmissionWebhook

/-- C19: for every error, `errorReviewResponse` returns a response that is not allowed,
carries no patch and no patch type, and whose result message is the text of
the error; nothing else is set. -/
theorem errorReviewResponse_spec (message : String) :
    ∃ r, errorReviewResponse (some message) = .ret r ∧
      r.Allowed = false ∧ r.Patch = none ∧ r.PatchType = none ∧
      r.Result = some ⟨message⟩ ∧
      r = { AdmissionResponse.zero with Result := some ⟨message⟩ } :=
  ⟨_, rfl, rfl, rfl, rfl, rfl, rfl⟩

/-- C20: for every byte slice, `createReviewResponse` returns an allowed response whose
patch is the slice and whose patch type is `JSONPatch`; `okReviewResponse` is
that response without the patch and the patch type. -/
theorem createReviewResponse_spec (data : Option (List (Fin 256))) :
    (createReviewResponse data).Allowed = true ∧
    (createReviewResponse data).Patch = data ∧
    (createReviewResponse data).PatchType = some PatchTypeJSONPatch ∧
    okReviewResponse.Allowed = true ∧
    okReviewResponse.Patch = none ∧
    okReviewResponse.PatchType = none ∧
    okReviewResponse = { createReviewResponse data with Patch := none, PatchType := none } :=
  ⟨rfl, rfl, rfl, rfl, rfl, rfl, rfl⟩

end AdmissionWebhook

namespace NSM

/-! ## Neighbours on the destination side -/

/-- C16, at the failing input: `SetupInterface` with `isDst = true` for a connection whose
context carries one IP neighbour succeeds and calls `netlink.NeighAdd` for that
neighbour on the destination interface, which then has the neighbour entry. -/
theorem SetupInterface_dst_adds_neighbors :
    GetIpNeighbors (GetIpContext (GetContext (some exampleNeighborConnection)))
      = [⟨"10.0.0.1", "aa:bb:cc:dd:ee:ff"⟩] ∧
    (SetupInterface exampleLib "eth20" "" (some exampleNeighborConnection) true
        exampleVethKernel).out = .ret ("20", none) ∧
    Call.NeighAdd 2 (some "10.0.0.1") "aa:bb:cc:dd:ee:ff" ∈
      (SetupInterface exampleLib "eth20" "" (some exampleNeighborConnection) true
        exampleVethKernel).trace ∧
    ((SetupInterface exampleLib "eth20" "" (some exampleNeighborConnection) true
        exampleVethKernel).kernel.links.map (fun l => (l.name, l.ns, l.neighs)))
      = [("eth10", "1", []),
         ("eth20", "20", [⟨some "10.0.0.1", "aa:bb:cc:dd:ee:ff", 2⟩])] := by
  refine ⟨by decide, by decide, by decide, by decide⟩

/-! ## The interface name of the outgoing mechanism -/

/-- C18: `ConnectRetry` builds the outgoing mechanism with `used`, which is the configured
`NscInterfaceName` when that is non-empty and the `name` argument otherwise.  With
a configured name the `name` argument does not matter.  When building the
mechanism fails the wrapped error is returned and no request is issued; when
it succeeds every request carries the mechanism built and the result is that
of the retry loop on this request. -/
theorem ConnectRetry_interface_name (env : ClientEnv) (nsmc : NsmClient)
    (name mechanism description : String) (retryCount : Int) (retryDelay : Nat) (used : String)
    (hused : (nsmc.NscInterfaceName ≠ "" ∧ used = nsmc.NscInterfaceName) ∨
      (nsmc.NscInterfaceName = "" ∧ used = name)) :
    (nsmc.NscInterfaceName ≠ "" → ∀ other,
      nsmc.ConnectRetry env other mechanism description retryCount retryDelay
        = nsmc.ConnectRetry env name mechanism description retryCount retryDelay) ∧
    (∀ err, env.NewMechanism cls.LOCAL mechanism used description = .error err →
      nsmc.ConnectRetry env name mechanism description retryCount retryDelay
        = ⟨none, some (errorsWrap err
            "failure to prepare the outgoing mechanism preference with error"), nsmc, 0⟩) ∧
    (∀ mech, env.NewMechanism cls.LOCAL mechanism used description = .ok mech →
      0 ≤ retryCount →
      (nsmc.outgoingRequest mech).MechanismPreferences = [some mech] ∧
      (nsmc.ConnectRetry env name mechanism description retryCount retryDelay).requests
        = (requestLoop env (nsmc.outgoingRequest mech) retryCount.toNat 0).2.2 ∧
      (nsmc.ConnectRetry env name mechanism description retryCount retryDelay).err
        = (requestLoop env (nsmc.outgoingRequest mech) retryCount.toNat 0).2.1.map
            (fun e => errorsWrap e "nsm client: Failed to connect") ∧
      ((requestLoop env (nsmc.outgoingRequest mech) retryCount.toNat 0).2.1 = none →
        (nsmc.ConnectRetry env name mechanism description retryCount retryDelay).conn
          = (requestLoop env (nsmc.outgoingRequest mech) retryCount.toNat 0).1)) := by
  have hname : (if nsmc.NscInterfaceName ≠ "" then nsmc.NscInterfaceName else name) = used := by
    rcases hused with ⟨h, hu⟩ | ⟨h, hu⟩
    · rw [if_pos h, hu]
    · rw [if_neg (by simpa using h), hu]
  refine ⟨?_, ?_, ?_⟩
  · intro h other
    unfold NsmClient.ConnectRetry
    simp only [if_pos h]
  · intro err herr
    unfold NsmClient.ConnectRetry
    simp only [hname, herr]
  · intro mech hmech hrc
    have hlt : ¬ retryCount < 0 := by omega
    unfold NsmClient.ConnectRetry
    simp only [hname, hmech, if_neg hlt]
    rcases hloop : requestLoop env (nsmc.outgoingRequest mech) retryCount.toNat 0 with ⟨c, e, n⟩
    cases e with
    | none => exact ⟨rfl, rfl, rfl, fun _ => rfl⟩
    | some e => exact ⟨rfl, rfl, rfl, fun h => by cases h⟩

/-- C18, witness: a client configured with the interface name `nsc-env`, asked to connect
with the name `nsm0`. -/
theorem ConnectRetry_interface_name_witness :
    (exampleConfiguredClient.NscInterfaceName ≠ "" ∧
      "nsc-env" = exampleConfiguredClient.NscInterfaceName) ∧
    (refusingEnv.NewMechanism cls.LOCAL "KERNEL_INTERFACE" "nsc-env" "")
      = .ok ⟨"LOCAL", "KERNEL_INTERFACE", [(InterfaceNameKey, "nsc-env"), ("description", "")]⟩ ∧
    (exampleConfiguredClient.ConnectRetry refusingEnv "nsm0" "KERNEL_INTERFACE" "" 2 0).requests
      = (requestLoop refusingEnv (exampleConfiguredClient.outgoingRequest
          ⟨"LOCAL", "KERNEL_INTERFACE", [(InterfaceNameKey, "nsc-env"), ("description", "")]⟩)
          2 0).2.2 :=
  ⟨⟨by decide, rfl⟩, rfl,
    ((ConnectRetry_interface_name refusingEnv exampleConfiguredClient "nsm0" "KERNEL_INTERFACE"
      "" 2 0 "nsc-env" (Or.inl ⟨by decide, rfl⟩)).2.2 _ rfl (by decide)).2.1⟩

end NSM

namespace NSM

/-! ## Restoring the network namespace -/

theorem setupLinkInNsSwitch_run (lib : Lib) (link : LinkData) (inject : Bool) (s : Kernel) :
    (setupLinkInNsSwitch lib link inject s).kernel.cur = s.cur ∧
    (setupLinkInNsSwitch lib link inject s).trace
      = (.netnsGet :: .netnsSet link.nsHandle ::
          (setupLinkInNsInner lib link inject s.cur { s with cur := link.nsHandle }).trace)
        ++ [.netnsSet s.cur, .nsClose s.cur] := by
  constructor
  · simp [setupLinkInNsSwitch, bind_kernel, bind_out, netns.Get, netns.Set, NsHandle.Close]
  · simp [setupLinkInNsSwitch, bind_trace, bind_kernel, bind_out, netns.Get, netns.Set,
      NsHandle.Close]

theorem restores_switch (lib : Lib) (link : LinkData) (inject : Bool) (target : String)
    (s : Kernel) : Restores target s (setupLinkInNsSwitch lib link inject s) :=
  ⟨(setupLinkInNsSwitch_run lib link inject s).1,
    fun _ => ⟨_, List.mem_cons_self _ _, (setupLinkInNsSwitch_run lib link inject s).2⟩⟩

theorem restores_pure {α : Type} (target : String) (a : α) (s : Kernel) :
    Restores target s ((pure a : M α) s) :=
  ⟨rfl, fun h => by simp at h⟩

theorem restores_prim_bind {α β : Type} (target : String) (c : Call)
    (f : Kernel → α × Kernel) (g : α → M β) (hc : c ≠ .netnsSet target)
    (hf : ∀ s, (f s).2.cur = s.cur) (hg : ∀ a s, Restores target s (g a s)) (s : Kernel) :
    Restores target s ((prim c f >>= g) s) := by
  rw [prim_bind]
  obtain ⟨h1, h2⟩ := hg (f s).1 (f s).2
  refine ⟨h1.trans (hf s), fun hmem => ?_⟩
  simp only [List.mem_cons] at hmem
  rcases hmem with hmem | hmem
  · exact absurd hmem.symm hc
  · obtain ⟨front, hget, htrace⟩ := h2 hmem
    refine ⟨c :: front, List.mem_cons_of_mem _ hget, ?_⟩
    simp only [htrace, hf s, List.cons_append]

theorem restores_pure_bind {α β : Type} (target : String) (a : α) (g : α → M β)
    (hg : ∀ a s, Restores target s (g a s)) (s : Kernel) :
    Restores target s (((pure a : M α) >>= g) s) := by
  have h : ((pure a : M α) >>= g) s = g a s := by
    rw [bind_ret (pure a) g s a rfl]
    simp
  rw [h]
  exact hg a s

theorem setupLinkInNs_restores (lib : Lib) (link : LinkData) (inject : Bool) (s : Kernel) :
    Restores link.nsHandle s (setupLinkInNs lib link inject s) := by
  cases inject with
  | false =>
    simp only [setupLinkInNs, Bool.false_eq_true, if_false]
    exact restores_switch _ _ _ _ _
  | true =>
    simp only [setupLinkInNs, if_true]
    unfold netlink.LinkByName
    refine restores_prim_bind _ _ _ _ (by simp) (fun s => by split <;> rfl)
      (fun r s => ?_) s
    cases r with
    | error e => exact restores_pure _ _ _
    | ok ifaceLink =>
      have hrest : ∀ (err : Option String) (s : Kernel), Restores link.nsHandle s
          ((match err with
            | some e => pure (some e)
            | none => do
              let err ← netlink.LinkSetNsFd ifaceLink link.nsHandle
              match err with
              | some e => pure (some e)
              | none => setupLinkInNsSwitch lib link true : M (Option String)) s) := by
        intro err s
        cases err with
        | some e => exact restores_pure _ _ _
        | none =>
          unfold netlink.LinkSetNsFd
          refine restores_prim_bind _ _ _ _ (by simp)
            (fun s => by repeat' split
                         all_goals rfl) (fun err s => ?_) s
          cases err with
          | some e => exact restores_pure _ _ _
          | none => exact restores_switch _ _ _ _ _
      by_cases ha : link.ifalias ≠ ""
      · simp only [if_pos ha]
        unfold netlink.LinkSetAlias
        exact restores_prim_bind _ _ _ _ (by simp) (fun s => by split <;> rfl)
          hrest s
      · simp only [if_neg ha]
        exact restores_pure_bind _ _ _ hrest s

theorem findLocalSrcConnection_restores (xc : CrossConnect) (s : Kernel) :
    Restores (netNsInodeOf xc.GetSource) s (findLocalSrcConnection xc s) := by
  constructor
  · by_cases hns : mapGet (GetParameters (GetMechanism xc.GetSource)) NetNsInodeKey ∈ s.namespaces
    · simp [findLocalSrcConnection, bind_out, bind_kernel, netns.Get, netns.Set,
        fs.GetNsHandleFromInode, netlink.LinkList, hns, NsHandle.Close]
    · simp [findLocalSrcConnection, bind_out, bind_kernel, netns.Get, netns.Set,
        fs.GetNsHandleFromInode, netlink.LinkList, hns, NsHandle.Close]
  · intro _
    by_cases hns : mapGet (GetParameters (GetMechanism xc.GetSource)) NetNsInodeKey ∈ s.namespaces
    · refine ⟨[.netnsGet,
        .GetNsHandleFromInode (netNsInodeOf xc.GetSource),
        .netnsSet (netNsInodeOf xc.GetSource), .LinkList,
        .nsClose (netNsInodeOf xc.GetSource)], by simp, ?_⟩
      simp [findLocalSrcConnection, bind_out, bind_kernel, bind_trace, netns.Get, netns.Set,
        fs.GetNsHandleFromInode, netlink.LinkList, hns, NsHandle.Close]
    · refine ⟨[.netnsGet, .GetNsHandleFromInode (netNsInodeOf xc.GetSource)], by simp, ?_⟩
      simp [findLocalSrcConnection, bind_out, bind_kernel, bind_trace, netns.Get, netns.Set,
        fs.GetNsHandleFromInode, netlink.LinkList, hns, NsHandle.Close]

theorem findRemoteConnection_restores (conn : Option Connection) (s : Kernel) :
    Restores (netNsInodeOf conn) s (findRemoteConnection conn s) := by
  constructor
  · by_cases hns : mapGet (GetParameters (GetMechanism conn)) NetNsInodeKey ∈ s.namespaces
    · simp [findRemoteConnection, bind_out, bind_kernel, netns.Get, netns.Set,
        fs.GetNsHandleFromInode, netlink.LinkList, hns, NsHandle.Close]
    · simp [findRemoteConnection, bind_out, bind_kernel, netns.Get, netns.Set,
        fs.GetNsHandleFromInode, netlink.LinkList, hns, NsHandle.Close]
  · intro _
    by_cases hns : mapGet (GetParameters (GetMechanism conn)) NetNsInodeKey ∈ s.namespaces
    · refine ⟨[.netnsGet,
        .GetNsHandleFromInode (netNsInodeOf conn),
        .netnsSet (netNsInodeOf conn), .LinkList,
        .nsClose (netNsInodeOf conn)], by simp, ?_⟩
      simp [findRemoteConnection, bind_out, bind_kernel, bind_trace, netns.Get, netns.Set,
        fs.GetNsHandleFromInode, netlink.LinkList, hns, NsHandle.Close]
    · refine ⟨[.netnsGet, .GetNsHandleFromInode (netNsInodeOf conn)], by simp, ?_⟩
      simp [findRemoteConnection, bind_out, bind_kernel, bind_trace, netns.Get, netns.Set,
        fs.GetNsHandleFromInode, netlink.LinkList, hns, NsHandle.Close]

end NSM

namespace NSM

/-- C17: every call of `setupLinkInNs`, `findLocalSrcConnection` and `findRemoteConnection`
leaves the calling thread in the network namespace it was in on entry, on
every path, a panic included; and whenever the call has switched into the
target namespace, its last two calls are `netns.Set` back to the namespace of
entry and then `Close` of the saved host handle. -/
theorem namespace_restored (lib : Lib) (link : LinkData) (inject : Bool) (xc : CrossConnect)
    (conn : Option Connection) (s : Kernel) :
    Restores link.nsHandle s (setupLinkInNs lib link inject s) ∧
    Restores (netNsInodeOf xc.GetSource) s (findLocalSrcConnection xc s) ∧
    Restores (netNsInodeOf conn) s (findRemoteConnection conn s) :=
  ⟨setupLinkInNs_restores lib link inject s, findLocalSrcConnection_restores xc s,
    findRemoteConnection_restores conn s⟩

end NSM

namespace NSM

/-! ## The temporary interface names -/

theorem digitChar_toNat (k : Nat) (h : k < 10) : (Nat.digitChar k).toNat - 48 = k := by
  interval_cases k <;> rfl

theorem toDigitsCore_foldl (acc : List Char) (n fuel : Nat) (hfuel : n < fuel) :
    (Nat.toDigitsCore 10 fuel n acc).foldl (fun a c => 10 * a + (c.toNat - 48)) 0
      = acc.foldl (fun a c => 10 * a + (c.toNat - 48)) n := by
  induction fuel generalizing n acc with
  | zero => omega
  | succ fuel ih =>
    simp only [Nat.toDigitsCore]
    split
    · rename_i h0
      have hn : n % 10 = n := by omega
      simp only [List.foldl_cons, hn, digitChar_toNat n (by omega), Nat.mul_zero, Nat.zero_add]
    · rename_i h0
      rw [ih _ (n / 10) (by omega)]
      simp only [List.foldl_cons, digitChar_toNat (n % 10) (Nat.mod_lt _ (by decide))]
      congr 1
      omega

theorem repr_injective {a b : Nat} (h : Nat.repr a = Nat.repr b) : a = b := by
  have h1 : (Nat.toDigits 10 a) = (Nat.toDigits 10 b) := by
    have := congrArg String.data h
    simpa [Nat.repr, List.asString] using this
  have h2 := congrArg (List.foldl (fun a c => 10 * a + (c.toNat - 48)) 0) h1
  simp only [Nat.toDigits] at h2
  rw [toDigitsCore_foldl [] a (a + 1) (Nat.lt_succ_self a),
    toDigitsCore_foldl [] b (b + 1) (Nat.lt_succ_self b)] at h2
  simpa using h2

theorem tempIfName_eq_iff (r1 r2 : Nat) :
    tempIfName r1 = tempIfName r2 ↔ r1 % 2 ^ 32 = r2 % 2 ^ 32 := by
  constructor
  · intro h
    unfold tempIfName at h
    have h1 := congrArg String.data h
    simp only [String.data_append, List.append_cancel_left_eq] at h1
    exact repr_injective (String.ext h1)
  · intro h
    unfold tempIfName
    rw [h]

end NSM

namespace NSM

theorem createsOnly_pure {α : Type} (a b : String) (v : α) : CreatesOnly a b (pure v : M α) :=
  fun s x y h => by simp at h

theorem createsOnly_panic {α : Type} (a b msg : String) :
    CreatesOnly a b (M.panic msg : M α) :=
  fun s x y h => by simp [M.panic] at h

theorem createsOnly_prim {α : Type} (a b : String) (c : Call) (f : Kernel → α × Kernel)
    (hc : ∀ x y, c = .CreateInterfaces x y → x = a ∧ y = b) : CreatesOnly a b (prim c f) := by
  intro s x y h
  simp only [prim_trace, List.mem_singleton] at h
  exact hc x y h.symm

theorem createsOnly_mark (a b : String) (c : Call)
    (hc : ∀ x y, c = .CreateInterfaces x y → x = a ∧ y = b) : CreatesOnly a b (mark c) := by
  intro s x y h
  simp only [mark_trace, List.mem_singleton] at h
  exact hc x y h.symm

theorem createsOnly_bind {α β : Type} {a b : String} {m : M α} {f : α → M β}
    (hm : CreatesOnly a b m) (hf : ∀ v, CreatesOnly a b (f v)) : CreatesOnly a b (m >>= f) := by
  intro s x y h
  rw [bind_trace] at h
  split at h
  · rcases List.mem_append.1 h with h | h
    · exact hm _ _ _ h
    · exact hf _ _ _ _ h
  · exact hm _ _ _ h

theorem createsOnly_deferred {α : Type} {a b : String} {d : M Unit} {body : M α}
    (hd : CreatesOnly a b d) (hb : CreatesOnly a b body) :
    CreatesOnly a b (M.deferred d body) := by
  intro s x y h
  rw [deferred_trace] at h
  rcases List.mem_append.1 h with h | h
  · exact hb _ _ _ h
  · exact hd _ _ _ h

theorem createsOnly_of_calls {α : Type} {a b : String} {m : M α}
    (h : ∀ s x y, Call.CreateInterfaces x y ∉ collaboratorCalls (m s).trace) :
    CreatesOnly a b m := by
  intro s x y hmem
  exact absurd (List.mem_filter.2 ⟨hmem, rfl⟩) (h s x y)

theorem createsOnly_of_quiet {α : Type} {a b : String} {m : M α} (h : Quiet m) :
    CreatesOnly a b m :=
  createsOnly_of_calls (fun s x y hmem => by rw [h s] at hmem; simp at hmem)

theorem createsOnly_close (a b h : String) :
    CreatesOnly a b (do let _ ← NsHandle.Close h; pure ()) :=
  createsOnly_of_quiet (quiet_close h)

theorem createsOnly_set (a b h : String) :
    CreatesOnly a b (do let _ ← netns.Set h; pure ()) :=
  createsOnly_of_quiet (quiet_set h)

theorem addRoutesLoop_createsOnly (a b : String) (lib : Lib) (link : Link) (nextHop : String)
    (l : List String) : CreatesOnly a b (addRoutesLoop lib link nextHop l) := by
  induction l with
  | nil => exact createsOnly_pure _ _ _
  | cons pfx rest ih =>
    unfold addRoutesLoop
    split
    · exact createsOnly_pure _ _ _
    · split
      · exact createsOnly_panic _ _ _
      · refine createsOnly_bind (createsOnly_prim _ _ _ _ (fun _ _ h => nomatch h))
          (fun err => ?_)
        cases err with
        | none => exact ih
        | some e => exact createsOnly_pure _ _ _

theorem addNeighbors_createsOnly (a b : String) (lib : Lib) (link : Link)
    (l : List IpNeighbor) : CreatesOnly a b (addNeighbors lib link l) := by
  induction l with
  | nil => exact createsOnly_pure _ _ _
  | cons n rest ih =>
    unfold addNeighbors
    split
    · exact createsOnly_pure _ _ _
    · refine createsOnly_bind (createsOnly_prim _ _ _ _ (fun _ _ h => nomatch h))
        (fun err => ?_)
      cases err with
      | none => exact ih
      | some e => exact createsOnly_pure _ _ _

theorem setupLink_createsOnly (a b : String) (lib : Lib) (l : Link) (link : LinkData) :
    CreatesOnly a b (setupLink lib l link) := by
  unfold setupLink
  have hname : CreatesOnly a b
      (if link.tempName ≠ "" then netlink.LinkSetName l link.tempName
        else (pure none : M (Option String))) := by
    split
    · exact createsOnly_prim _ _ _ _ (fun _ _ h => nomatch h)
    · exact createsOnly_pure _ _ _
  refine createsOnly_bind hname (fun err => ?_)
  cases err with
  | some e => exact createsOnly_pure _ _ _
  | none =>
    simp only
    split
    · exact createsOnly_pure _ _ _
    · refine createsOnly_bind (createsOnly_prim _ _ _ _ (fun _ _ h => nomatch h))
        (fun err => ?_)
      cases err with
      | some e => exact createsOnly_pure _ _ _
      | none =>
        refine createsOnly_bind (createsOnly_prim _ _ _ _ (fun _ _ h => nomatch h))
          (fun err => ?_)
        cases err with
        | some e => exact createsOnly_pure _ _ _
        | none =>
          refine createsOnly_bind (addRoutesLoop_createsOnly _ _ _ _ _ _) (fun err => ?_)
          cases err with
          | some e => exact createsOnly_pure _ _ _
          | none =>
            refine createsOnly_bind (addNeighbors_createsOnly _ _ _ _ _) (fun err => ?_)
            cases err with
            | some e => exact createsOnly_pure _ _ _
            | none => exact createsOnly_pure _ _ _

theorem setupLinkInNsSwitch_createsOnly (a b : String) (lib : Lib) (link : LinkData)
    (inject : Bool) : CreatesOnly a b (setupLinkInNsSwitch lib link inject) := by
  unfold setupLinkInNsSwitch
  refine createsOnly_bind (createsOnly_prim _ _ _ _ (fun _ _ h => nomatch h)) (fun r => ?_)
  cases r with
  | error e => exact createsOnly_pure _ _ _
  | ok hostNs =>
    refine createsOnly_deferred (createsOnly_close _ _ _)
      (createsOnly_bind (createsOnly_prim _ _ _ _ (fun _ _ h => nomatch h)) (fun err => ?_))
    cases err with
    | some e => exact createsOnly_pure _ _ _
    | none =>
      refine createsOnly_deferred (createsOnly_set _ _ _) ?_
      unfold setupLinkInNsInner
      refine createsOnly_bind (createsOnly_prim _ _ _ _ (fun _ _ h => nomatch h)) (fun r => ?_)
      cases r with
      | error e => exact createsOnly_pure _ _ _
      | ok l =>
        cases inject with
        | true =>
          simp only [if_true]
          refine createsOnly_bind (setupLink_createsOnly _ _ _ _ _) (fun err => ?_)
          cases err with
          | some e => exact createsOnly_pure _ _ _
          | none => exact createsOnly_pure _ _ _
        | false =>
          simp only [Bool.false_eq_true, if_false]
          refine createsOnly_bind (createsOnly_of_quiet (deleteRoutes_quiet _ _)) (fun _ => ?_)
          refine createsOnly_bind (createsOnly_prim _ _ _ _ (fun _ _ h => nomatch h))
            (fun err => ?_)
          cases err with
          | some e => exact createsOnly_pure _ _ _
          | none =>
            refine createsOnly_bind (createsOnly_prim _ _ _ _ (fun _ _ h => nomatch h))
              (fun err => ?_)
            cases err with
            | some e => exact createsOnly_pure _ _ _
            | none => exact createsOnly_pure _ _ _

theorem SetupInterface_createsOnly (a b : String) (lib : Lib) (ifaceName tempName : String)
    (conn : Option Connection) (isDst : Bool) :
    CreatesOnly a b (SetupInterface lib ifaceName tempName conn isDst) := by
  unfold SetupInterface
  refine createsOnly_bind (createsOnly_mark _ _ _ (fun _ _ h => nomatch h)) (fun _ => ?_)
  refine createsOnly_bind (createsOnly_prim _ _ _ _ (fun _ _ h => nomatch h)) (fun r => ?_)
  cases r with
  | error e => exact createsOnly_pure _ _ _
  | ok nsHandle =>
    refine createsOnly_deferred (createsOnly_close _ _ _) ?_
    have hin : ∀ link : LinkData, CreatesOnly a b (setupLinkInNs lib link true) := by
      intro link
      simp only [setupLinkInNs, if_true]
      refine createsOnly_bind (createsOnly_prim _ _ _ _ (fun _ _ h => nomatch h)) (fun r => ?_)
      cases r with
      | error e => exact createsOnly_pure _ _ _
      | ok ifaceLink =>
        have halias : CreatesOnly a b
            (if link.ifalias ≠ "" then netlink.LinkSetAlias ifaceLink link.ifalias
              else (pure none : M (Option String))) := by
          split
          · exact createsOnly_prim _ _ _ _ (fun _ _ h => nomatch h)
          · exact createsOnly_pure _ _ _
        refine createsOnly_bind halias (fun err => ?_)
        cases err with
        | some e => exact createsOnly_pure _ _ _
        | none =>
          refine createsOnly_bind (createsOnly_prim _ _ _ _ (fun _ _ h => nomatch h))
            (fun err => ?_)
          cases err with
          | some e => exact createsOnly_pure _ _ _
          | none => exact setupLinkInNsSwitch_createsOnly _ _ _ _ _
    refine createsOnly_bind (hin _) (fun err => ?_)
    cases err with
    | some e => exact createsOnly_pure _ _ _
    | none => exact createsOnly_pure _ _ _

theorem createLocalConnectionSetup_createsOnly (k : KernelForwarder) (lib : Lib)
    (xc : CrossConnect) (r1 r2 : Nat) :
    CreatesOnly (createSrcName xc r1) (createDstName xc r2)
      (createLocalConnectionSetup k lib xc r1 r2) := by
  unfold createLocalConnectionSetup
  refine createsOnly_bind (createsOnly_prim _ _ _ _ ?_) (fun err => ?_)
  · intro x y h
    injection h with h1 h2
    exact ⟨h1.symm, h2.symm⟩
  · cases err with
    | some e => exact createsOnly_pure _ _ _
    | none =>
      refine createsOnly_bind (SetupInterface_createsOnly _ _ _ _ _ _ _) (fun p => ?_)
      obtain ⟨x, err⟩ := p
      cases err with
      | some e => exact createsOnly_pure _ _ _
      | none =>
        simp only
        split
        · exact createsOnly_panic _ _ _
        · split
          · exact createsOnly_panic _ _ _
          · refine createsOnly_bind (SetupInterface_createsOnly _ _ _ _ _ _ _) (fun p => ?_)
            obtain ⟨y, err⟩ := p
            cases err with
            | some e => exact createsOnly_pure _ _ _
            | none => exact createsOnly_pure _ _ _

theorem createLocalConnection_createsOnly (k : KernelForwarder) (lib : Lib)
    (xc : CrossConnect) (r1 r2 : Nat) :
    CreatesOnly (createSrcName xc r1) (createDstName xc r2)
      (createLocalConnection k lib xc r1 r2) := by
  unfold createLocalConnection
  refine createsOnly_bind (createsOnly_of_quiet (findLocalSrcConnection_quiet xc)) (fun p => ?_)
  obtain ⟨found, err⟩ := p
  cases err with
  | some e => exact createsOnly_pure _ _ _
  | none =>
    cases found with
    | false =>
      simp only [Bool.false_eq_true, if_false]
      exact createLocalConnectionSetup_createsOnly k lib xc r1 r2
    | true =>
      simp only [if_true]
      refine createsOnly_bind (createsOnly_of_calls (fun s x y hmem => ?_)) (fun p => ?_)
      · rw [ClearInterfaceSetup_calls] at hmem
        simp at hmem
      · obtain ⟨_, err⟩ := p
        cases err with
        | some e => exact createsOnly_pure _ _ _
        | none =>
          refine createsOnly_bind (createsOnly_prim _ _ _ _ (fun _ _ h => nomatch h))
            (fun err => ?_)
          cases err with
          | some e => exact createsOnly_pure _ _ _
          | none => exact createLocalConnectionSetup_createsOnly k lib xc r1 r2

/-- C14, as amended: when the source and destination interface names of a cross-connect
are equal, every call of `CreateInterfaces` that `createLocalConnection` makes
passes the two temporary names `nsm<r1>` and `nsm<r2>` built from the two draws
of `rand.Uint32`, and these differ exactly when the two draws differ. -/
theorem createLocalConnection_temporary_names (k : KernelForwarder) (lib : Lib)
    (xc : CrossConnect) (r1 r2 : Nat) (s : Kernel) (x y : String)
    (hsame : ifaceNameOf xc.GetDestination = ifaceNameOf xc.GetSource)
    (hcall : Call.CreateInterfaces x y ∈ (createLocalConnection k lib xc r1 r2 s).trace) :
    x = tempIfName r1 ∧ y = tempIfName r2 ∧ (x ≠ y ↔ r1 % 2 ^ 32 ≠ r2 % 2 ^ 32) := by
  obtain ⟨hx, hy⟩ := createLocalConnection_createsOnly k lib xc r1 r2 s x y hcall
  simp only [createSrcName, createDstName, if_pos hsame] at hx hy
  subst hx hy
  exact ⟨rfl, rfl, not_congr (tempIfName_eq_iff r1 r2)⟩

/-- C14, witness: the cross-connect with two interfaces named `eth0`, with the draws 5
and 6. -/
theorem createLocalConnection_temporary_names_witness :
    ifaceNameOf exampleSameNameXcon.GetDestination = ifaceNameOf exampleSameNameXcon.GetSource ∧
    Call.CreateInterfaces "nsm5" "nsm6" ∈
      (createLocalConnection kernelForwarder exampleLib exampleSameNameXcon 5 6
        exampleKernel).trace ∧
    "nsm5" = tempIfName 5 ∧ "nsm6" = tempIfName 6 ∧
    (("nsm5" : String) ≠ "nsm6" ↔ 5 % 2 ^ 32 ≠ 6 % 2 ^ 32) :=
  ⟨by decide, by decide,
    createLocalConnection_temporary_names kernelForwarder exampleLib exampleSameNameXcon 5 6
      exampleKernel "nsm5" "nsm6" (by decide) (by decide)⟩

/-- C14, counterexample: for the cross-connect with two interfaces named `eth0`, when both
draws of `rand.Uint32` give 7, `createLocalConnection` passes the name `nsm7`
twice to `CreateInterfaces`, and fails. -/
theorem createLocalConnection_equal_draws :
    ifaceNameOf exampleSameNameXcon.GetDestination = ifaceNameOf exampleSameNameXcon.GetSource ∧
    Call.CreateInterfaces "nsm7" "nsm7" ∈
      (createLocalConnection kernelForwarder exampleLib exampleSameNameXcon 7 7
        exampleKernel).trace ∧
    (createLocalConnection kernelForwarder exampleLib exampleSameNameXcon 7 7
        exampleKernel).out
      = .ret ((none, some "failed to create VETH pair - file exists"), exampleSameNameXcon) :=
  ⟨by decide, by decide, by decide⟩

end NSM

namespace NSM

/-! ## The names of the devices returned by `createLocalConnection` -/

theorem createLocalConnection_setup_run (k : KernelForwarder) (lib : Lib)
    (xc xc1 : CrossConnect) (r1 r2 : Nat) (s : Kernel)
    (devs : Option (List (String × Device)))
    (hok : (createLocalConnection k lib xc r1 r2 s).out = .ret ((devs, none), xc1)) :
    ∃ sc s1, Runs (createLocalConnectionSetup k lib xc r1 r2) sc ((devs, none), xc1) s1 := by
  have h : Runs (handleLocalConnection k lib xc true r1 r2) s ((devs, none), xc1)
      (createLocalConnection k lib xc r1 r2 s).kernel := by
    simp only [handleLocalConnection, if_true]
    rw [runs_bind]
    exact ⟨((devs, none), xc1), _, ⟨hok, rfl⟩, runs_pure.2 ⟨rfl, rfl⟩⟩
  obtain ⟨sc, hsc⟩ := createLocalConnection_setup_state k lib xc xc1 r1 r2 s _ devs h
  exact ⟨sc, _, hsc⟩

/-- C15, as amended: for every cross-connect on which `createLocalConnection` succeeds and
whose source and destination interface names are not both empty, the returned
map holds under the namespace inode of the destination mechanism the
destination device, named by the interface-name parameter of the destination
mechanism, and, when the namespace inode of the source mechanism is another
one, under that inode the source device, named by the interface-name
parameter of the source mechanism, also when the two names are equal and
temporary names were used.  When the two inodes are equal the destination
device is the only one returned. -/
theorem createLocalConnection_device_names (k : KernelForwarder) (lib : Lib)
    (xc xc1 : CrossConnect) (r1 r2 : Nat) (s : Kernel)
    (devs : Option (List (String × Device)))
    (hnames : ifaceNameOf xc.GetSource ≠ "" ∨
      ifaceNameOf xc.GetDestination ≠ ifaceNameOf xc.GetSource)
    (hok : (createLocalConnection k lib xc r1 r2 s).out = .ret ((devs, none), xc1)) :
    devs = some
      (if netNsInodeOf xc.GetSource = netNsInodeOf xc.GetDestination then
        [(netNsInodeOf xc.GetDestination,
          ⟨ifaceNameOf xc.GetDestination, "DST-" ++ xc.GetId⟩)]
      else
        [(netNsInodeOf xc.GetSource, ⟨ifaceNameOf xc.GetSource, "SRC-" ++ xc.GetId⟩),
         (netNsInodeOf xc.GetDestination,
          ⟨ifaceNameOf xc.GetDestination, "DST-" ++ xc.GetId⟩)]) := by
  obtain ⟨sc, s1, hrun⟩ := createLocalConnection_setup_run k lib xc xc1 r1 r2 s devs hok
  rw [createLocalConnectionSetup_runs_iff] at hrun
  obtain ⟨dst, ctx, x, y, s0, s2, hdst, hctx, _, _, hsrcRun, hdstRun, hdevs⟩ := hrun
  have hx : x = netNsInodeOf xc.GetSource := SetupInterface_fst _ _ _ _ _ _ _ _ hsrcRun.1
  have hy := SetupInterface_fst _ _ _ _ _ _ _ _ hdstRun.1
  have hy2 : y = netNsInodeOf xc.GetDestination := by
    rw [hy]
    simp only [CrossConnect.overwriteDstIpContext, CrossConnect.GetDestination, GetMechanism,
      hdst]
    rfl
  subst hdevs
  rw [hy2, hx]
  have hsrcName : (if createTempName xc ≠ "" then createTempName xc else createSrcName xc r1)
      = ifaceNameOf xc.GetSource := by
    unfold createTempName createSrcName
    by_cases hsame : ifaceNameOf xc.GetDestination = ifaceNameOf xc.GetSource
    · have hne : ifaceNameOf xc.GetSource ≠ "" := hnames.resolve_right (not_not.2 hsame)
      simp [hsame, hne]
    · simp [hsame]
  have hdstName : (if createTempName xc ≠ "" then createTempName xc else createDstName xc r2)
      = ifaceNameOf xc.GetDestination := by
    unfold createTempName createDstName
    by_cases hsame : ifaceNameOf xc.GetDestination = ifaceNameOf xc.GetSource
    · have hne : ifaceNameOf xc.GetSource ≠ "" := hnames.resolve_right (not_not.2 hsame)
      simp [hsame, hne]
    · simp [hsame]
  unfold createdDevices
  rw [hsrcName, hdstName]
  by_cases hin : netNsInodeOf xc.GetSource = netNsInodeOf xc.GetDestination
  · simp [mapSet, hin]
  · simp [mapSet, hin]

/-- C15, witness: the cross-connect with two interfaces named `eth0` in two namespaces, set
up under the temporary names `nsm5` and `nsm6`, and the cross-connect with both
interfaces in namespace `10`. -/
theorem createLocalConnection_device_names_witness :
    ((ifaceNameOf exampleSameNameXcon.GetSource ≠ "" ∨
        ifaceNameOf exampleSameNameXcon.GetDestination
          ≠ ifaceNameOf exampleSameNameXcon.GetSource) ∧
      (createLocalConnection kernelForwarder exampleLib exampleSameNameXcon 5 6
          exampleKernel).out
        = .ret ((some [("10", ⟨"eth0", "SRC-1"⟩), ("20", ⟨"eth0", "DST-1"⟩)], none),
            exampleSameNameXcon) ∧
      some [("10", (⟨"eth0", "SRC-1"⟩ : Device)), ("20", ⟨"eth0", "DST-1"⟩)] = some
        (if netNsInodeOf exampleSameNameXcon.GetSource
            = netNsInodeOf exampleSameNameXcon.GetDestination then
          [(netNsInodeOf exampleSameNameXcon.GetDestination,
            ⟨ifaceNameOf exampleSameNameXcon.GetDestination,
              "DST-" ++ exampleSameNameXcon.GetId⟩)]
        else
          [(netNsInodeOf exampleSameNameXcon.GetSource,
            ⟨ifaceNameOf exampleSameNameXcon.GetSource, "SRC-" ++ exampleSameNameXcon.GetId⟩),
           (netNsInodeOf exampleSameNameXcon.GetDestination,
            ⟨ifaceNameOf exampleSameNameXcon.GetDestination,
              "DST-" ++ exampleSameNameXcon.GetId⟩)])) ∧
    ((createLocalConnection kernelForwarder exampleLib exampleOneNamespaceXcon 5 6
          exampleKernel).out
        = .ret ((some [("10", ⟨"eth20", "DST-1"⟩)], none), exampleOneNamespaceXcon) ∧
      some [("10", (⟨"eth20", "DST-1"⟩ : Device))] = some
        (if netNsInodeOf exampleOneNamespaceXcon.GetSource
            = netNsInodeOf exampleOneNamespaceXcon.GetDestination then
          [(netNsInodeOf exampleOneNamespaceXcon.GetDestination,
            ⟨ifaceNameOf exampleOneNamespaceXcon.GetDestination,
              "DST-" ++ exampleOneNamespaceXcon.GetId⟩)]
        else
          [(netNsInodeOf exampleOneNamespaceXcon.GetSource,
            ⟨ifaceNameOf exampleOneNamespaceXcon.GetSource,
              "SRC-" ++ exampleOneNamespaceXcon.GetId⟩),
           (netNsInodeOf exampleOneNamespaceXcon.GetDestination,
            ⟨ifaceNameOf exampleOneNamespaceXcon.GetDestination,
              "DST-" ++ exampleOneNamespaceXcon.GetId⟩)])) :=
  ⟨⟨Or.inl (by decide), by decide,
      createLocalConnection_device_names kernelForwarder exampleLib exampleSameNameXcon
        exampleSameNameXcon 5 6 exampleKernel _ (Or.inl (by decide)) (by decide)⟩,
    by decide,
    createLocalConnection_device_names kernelForwarder exampleLib exampleOneNamespaceXcon
      exampleOneNamespaceXcon 5 6 exampleKernel _ (Or.inl (by decide)) (by decide)⟩

/-- C15, counterexample: for the cross-connect whose interfaces `eth10` and `eth20` are both
in namespace `10`, `createLocalConnection` succeeds and returns one device only:
what the returned map holds under the namespace inode of the source mechanism
is the destination device, named `eth20`, not a device named `eth10`. -/
theorem createLocalConnection_one_namespace :
    ifaceNameOf exampleOneNamespaceXcon.GetSource = "eth10" ∧
    netNsInodeOf exampleOneNamespaceXcon.GetSource = "10" ∧
    (createLocalConnection kernelForwarder exampleLib exampleOneNamespaceXcon 5 6
        exampleKernel).out
      = .ret ((some [("10", ⟨"eth20", "DST-1"⟩)], none), exampleOneNamespaceXcon) ∧
    ([("10", (⟨"eth20", "DST-1"⟩ : Device))].lookup "10").map (fun d => d.Name)
      = some "eth20" :=
  ⟨by decide, by decide, by decide, by decide⟩

/-- With two empty interface names `createLocalConnection` succeeds under the temporary
names `nsm1` and `nsm2`, the interfaces keep these names, and the returned
devices bear them. -/
theorem createLocalConnection_unnamed :
    ifaceNameOf exampleUnnamedXcon.GetSource = "" ∧
    ifaceNameOf exampleUnnamedXcon.GetDestination = "" ∧
    (createLocalConnection kernelForwarder exampleLib exampleUnnamedXcon 1 2
        exampleKernel).out
      = .ret ((some [("10", ⟨"nsm1", "SRC-1"⟩), ("20", ⟨"nsm2", "DST-1"⟩)], none),
          exampleUnnamedXcon) :=
  ⟨by decide, by decide, by decide⟩

end NSM

namespace NSM

/-! ## The devices of a remote connection -/

theorem out_ret_iff_runs {α : Type} {m : M α} {s : Kernel} {a : α} :
    (m s).out = .ret a ↔ ∃ s1, Runs m s a s1 :=
  ⟨fun h => ⟨_, h, rfl⟩, fun ⟨_, h, _⟩ => h⟩

/-- `deleteRemoteConnection` returns devices exactly when `ClearInterfaceSetup` and then
`DeleteInterface` both return no error. -/
theorem deleteRemoteConnection_out_iff (k : KernelForwarder) (lib : Lib) (connID : String)
    (lc rc : Option Connection) (direction : Nat) (s : Kernel) (D : List (String × Device)) :
    (deleteRemoteConnection k lib connID lc rc direction s).out = .ret (some D, none) ↔
      ((ClearInterfaceSetup lib (ifaceNameOf lc) lc s).out = .ret (netNsInodeOf lc, none) ∧
        (k.DeleteInterface (ifaceNameOf lc) rc
          (ClearInterfaceSetup lib (ifaceNameOf lc) lc s).kernel).out = .ret none) ∧
      D = [(netNsInodeOf lc, ⟨ifaceNameOf lc,
        if direction = INCOMING then "DST-" ++ connID else "SRC-" ++ connID⟩)] := by
  constructor
  · intro h
    have hD := deleteRemoteConnection_devices _ _ _ _ _ _ _ _ h
    simp only [Option.some.injEq] at hD
    refine ⟨?_, hD⟩
    unfold deleteRemoteConnection at h
    rw [bind_out_ret] at h
    obtain ⟨⟨nsInode, localErr⟩, hclear, h⟩ := h
    simp only at h
    rw [bind_out_ret] at h
    obtain ⟨remoteErr, hdel, h⟩ := h
    cases localErr with
    | some e => simp at h
    | none =>
      cases remoteErr with
      | some e => simp at h
      | none =>
        have hx := ClearInterfaceSetup_fst _ _ _ _ _ hclear
        subst hx
        exact ⟨hclear, hdel⟩
  · rintro ⟨⟨hclear, hdel⟩, hD⟩
    subst hD
    unfold deleteRemoteConnection
    rw [bind_out_ret]
    refine ⟨(netNsInodeOf lc, none), hclear, ?_⟩
    simp only
    rw [bind_out_ret]
    refine ⟨none, hdel, ?_⟩
    simp [mapSet]

/-- `createRemoteConnection` returns devices exactly when each of its steps returns no
error: the search for the interface, when it was found its clearing and
deletion, the creation of the tunnel interface, and its set-up. -/
theorem createRemoteConnection_out_iff (k : KernelForwarder) (lib : Lib) (connID : String)
    (lc rc : Option Connection) (direction : Nat) (s : Kernel) (D : List (String × Device)) :
    (createRemoteConnection k lib connID lc rc direction s).out = .ret (some D, none) ↔
      (∃ found s1 s2 s3 x s4,
        Runs (findRemoteConnection lc) s (found, none) s1 ∧
        (found = true → ∃ y s0, Runs (ClearInterfaceSetup lib (ifaceNameOf lc) lc) s1 (y, none) s0 ∧
          Runs (k.DeleteInterface (ifaceNameOf lc) rc) s0 none s2) ∧
        (found = false → s2 = s1) ∧
        Runs (k.CreateInterface (ifaceNameOf lc) rc direction) s2 none s3 ∧
        Runs (SetupInterface lib (ifaceNameOf lc) "" lc (direction = INCOMING)) s3 (x, none) s4) ∧
      D = [(netNsInodeOf lc, ⟨ifaceNameOf lc,
        if direction = INCOMING then "DST-" ++ connID else "SRC-" ++ connID⟩)] := by
  constructor
  · intro h
    have hD := createRemoteConnection_devices _ _ _ _ _ _ _ _ h
    simp only [Option.some.injEq] at hD
    refine ⟨?_, hD⟩
    obtain ⟨s5, h⟩ := out_ret_iff_runs.1 h
    unfold createRemoteConnection at h
    rw [runs_bind] at h
    obtain ⟨⟨found, err⟩, s1, hfind, h⟩ := h
    cases err with
    | some e => simp only [runs_pure] at h; cases h.1
    | none =>
      simp only at h
      rw [runs_bind] at h
      obtain ⟨err, s2, hclean, h⟩ := h
      cases err with
      | some e => simp only [runs_pure] at h; cases h.1
      | none =>
        simp only at h
        rw [runs_bind] at h
        obtain ⟨err, s3, hcreate, h⟩ := h
        cases err with
        | some e => simp only [runs_pure] at h; cases h.1
        | none =>
          simp only at h
          rw [runs_bind] at h
          obtain ⟨⟨x, err⟩, s4, hsetup, h⟩ := h
          cases err with
          | some e => simp only [runs_pure] at h; cases h.1
          | none =>
            refine ⟨found, s1, s2, s3, x, s4, hfind, ?_, ?_, hcreate, hsetup⟩
            · intro hf
              subst hf
              simp only [if_true] at hclean
              rw [runs_bind] at hclean
              obtain ⟨⟨y, err⟩, s0, hclear, hclean⟩ := hclean
              cases err with
              | some e => simp only [runs_pure] at hclean; cases hclean.1
              | none => exact ⟨y, s0, hclear, hclean⟩
            · intro hf
              subst hf
              simp only [Bool.false_eq_true, if_false, runs_pure] at hclean
              exact hclean.2.symm
  · rintro ⟨⟨found, s1, s2, s3, x, s4, hfind, hfound, hnot, hcreate, hsetup⟩, hD⟩
    subst hD
    have hx := SetupInterface_fst _ _ _ _ _ _ _ _ hsetup.1
    apply out_ret_iff_runs.2
    refine ⟨s4, ?_⟩
    unfold createRemoteConnection
    rw [runs_bind]
    refine ⟨(found, none), s1, hfind, ?_⟩
    simp only
    rw [runs_bind]
    refine ⟨none, s2, ?_, ?_⟩
    · cases found with
      | true =>
        obtain ⟨y, s0, hclear, hdel⟩ := hfound rfl
        simp only [if_true]
        rw [runs_bind]
        exact ⟨(y, none), s0, hclear, hdel⟩
      | false =>
        simp only [Bool.false_eq_true, if_false, runs_pure]
        exact ⟨trivial, (hnot rfl).symm⟩
    · simp only
      rw [runs_bind]
      refine ⟨none, s3, hcreate, ?_⟩
      simp only
      rw [runs_bind]
      refine ⟨(x, none), s4, hsetup, ?_⟩
      simp only [runs_pure]
      subst hx
      simp [mapSet]

theorem handleConnection_out_iff (k : KernelForwarder) (lib : Lib) (connID : String)
    (lc rc : Option Connection) (connect : Bool) (direction : Nat) (s : Kernel)
    (D : List (String × Device)) :
    (handleConnection k lib connID lc rc connect direction s).out = .ret (some D, none) ↔
      ((if connect then createRemoteConnection k lib connID lc rc direction
          else deleteRemoteConnection k lib connID lc rc direction) s).out
        = .ret (some D, none) := by
  unfold handleConnection
  cases connect with
  | true =>
    simp only [if_true]
    rw [bind_out_ret]
    constructor
    · rintro ⟨⟨d, err⟩, hc, h⟩
      cases err with
      | some e => simp at h
      | none =>
        simp at h
        subst h
        exact hc
    · intro h
      exact ⟨_, h, rfl⟩
  | false =>
    simp only [Bool.false_eq_true, if_false]
    rw [bind_out_ret]
    constructor
    · rintro ⟨⟨d, err⟩, hc, h⟩
      cases err with
      | some e => simp at h
      | none =>
        simp at h
        subst h
        exact hc
    · intro h
      exact ⟨_, h, rfl⟩

/-- C5: for a cross-connect with exactly one remote side, a successful
`handleRemoteConnection` (connect or disconnect) returns a map with exactly one
device.  Its key is the namespace-inode parameter of the local side, its `Name`
the interface-name parameter of the local side, and its `XconName` is
`"DST-" + id` when the source is remote (the local side is the destination)
and `"SRC-" + id` when the destination is remote (the local side is the
source).  A disconnect is successful, with this map, exactly when
`ClearInterfaceSetup` and then `DeleteInterface` return no error; a connect is
successful, with this map, exactly when the search for the interface, the
clearing and deletion of an interface found, `CreateInterface` and
`SetupInterface` return no error. -/
theorem handleRemoteConnection_devices (k : KernelForwarder) (lib : Lib) (xc : CrossConnect)
    (connect : Bool) (s : Kernel)
    (hside : lib.IsRemote xc.GetSource ≠ lib.IsRemote xc.GetDestination) :
    (∀ devs, (handleRemoteConnection k lib xc connect s).out = .ret (devs, none) →
      devs = some (if lib.IsRemote xc.GetSource then
          [(netNsInodeOf xc.GetDestination,
            ⟨ifaceNameOf xc.GetDestination, "DST-" ++ xc.GetId⟩)]
        else
          [(netNsInodeOf xc.GetSource, ⟨ifaceNameOf xc.GetSource, "SRC-" ++ xc.GetId⟩)])) ∧
    (connect = false →
      ((∃ devs, (handleRemoteConnection k lib xc connect s).out = .ret (some devs, none)) ↔
        (remoteClear lib xc s).out = .ret (netNsInodeOf (localSide lib xc), none) ∧
        (remoteDelete k lib xc s).out = .ret none)) ∧
    (connect = true →
      ((∃ devs, (handleRemoteConnection k lib xc connect s).out = .ret (some devs, none)) ↔
        ∃ found s1 s2 s3 x s4,
          Runs (findRemoteConnection (localSide lib xc)) s (found, none) s1 ∧
          (found = true → ∃ y s0,
            Runs (ClearInterfaceSetup lib (ifaceNameOf (localSide lib xc)) (localSide lib xc))
              s1 (y, none) s0 ∧
            Runs (k.DeleteInterface (ifaceNameOf (localSide lib xc)) (remoteSide lib xc))
              s0 none s2) ∧
          (found = false → s2 = s1) ∧
          Runs (k.CreateInterface (ifaceNameOf (localSide lib xc)) (remoteSide lib xc)
            (directionOf lib xc)) s2 none s3 ∧
          Runs (SetupInterface lib (ifaceNameOf (localSide lib xc)) "" (localSide lib xc)
            (lib.IsRemote xc.GetSource)) s3 (x, none) s4)) := by
  have hcases := handleRemoteConnection_cases k lib xc connect s
  rw [if_neg hside] at hcases
  refine ⟨?_, ?_, ?_⟩
  · intro devs hok
    rw [hcases] at hok
    split at hok
    · rename_i hs
      rw [if_pos hs]
      simpa using handleConnection_devices _ _ _ _ _ _ _ _ _ hok
    · rename_i hs
      rw [if_neg hs]
      simpa [INCOMING, OUTGOING] using handleConnection_devices _ _ _ _ _ _ _ _ _ hok
  · intro hc
    subst hc
    rw [hcases]
    by_cases hs : lib.IsRemote xc.GetSource = true
    · simp only [if_pos hs, handleConnection_out_iff, Bool.false_eq_true, if_false,
        deleteRemoteConnection_out_iff, remoteClear, remoteDelete, localSide, remoteSide]
      constructor
      · rintro ⟨_, h, _⟩
        exact h
      · intro h
        exact ⟨_, h, rfl⟩
    · simp only [if_neg hs, handleConnection_out_iff, Bool.false_eq_true, if_false,
        deleteRemoteConnection_out_iff, remoteClear, remoteDelete, localSide, remoteSide]
      constructor
      · rintro ⟨_, h, _⟩
        exact h
      · intro h
        exact ⟨_, h, rfl⟩
  · intro hc
    subst hc
    rw [hcases]
    by_cases hs : lib.IsRemote xc.GetSource = true
    · simp only [if_pos hs, handleConnection_out_iff, if_true,
        createRemoteConnection_out_iff, localSide, remoteSide, directionOf]
      simp only [hs, decide_True]
      constructor
      · rintro ⟨_, h, _⟩
        exact h
      · intro h
        exact ⟨_, h, rfl⟩
    · have hdir : decide (OUTGOING = INCOMING) = lib.IsRemote xc.GetSource := by
        simp [hs, OUTGOING, INCOMING]
      simp only [if_neg hs, handleConnection_out_iff, if_true,
        createRemoteConnection_out_iff, localSide, remoteSide, directionOf, hdir]
      constructor
      · rintro ⟨_, h, _⟩
        exact h
      · intro h
        exact ⟨_, h, rfl⟩

/-- C5, witness: the incoming example cross-connect (remote source, local destination
`eth20` in namespace `20`) is connected on the example kernel and disconnected
again; both calls return the device of the local side. -/
theorem handleRemoteConnection_devices_witness :
    exampleLib.IsRemote exampleIncomingXcon.GetSource
        ≠ exampleLib.IsRemote exampleIncomingXcon.GetDestination ∧
    (handleRemoteConnection kernelForwarder exampleLib exampleIncomingXcon true
        exampleKernel).out = .ret (some [("20", ⟨"eth20", "DST-1"⟩)], none) ∧
    (handleRemoteConnection kernelForwarder exampleLib exampleIncomingXcon false
        exampleRemoteKernel).out = .ret (some [("20", ⟨"eth20", "DST-1"⟩)], none) ∧
    some [("20", (⟨"eth20", "DST-1"⟩ : Device))] =
      some (if exampleLib.IsRemote exampleIncomingXcon.GetSource then
        [(netNsInodeOf exampleIncomingXcon.GetDestination,
          ⟨ifaceNameOf exampleIncomingXcon.GetDestination, "DST-" ++ exampleIncomingXcon.GetId⟩)]
      else
        [(netNsInodeOf exampleIncomingXcon.GetSource,
          ⟨ifaceNameOf exampleIncomingXcon.GetSource, "SRC-" ++ exampleIncomingXcon.GetId⟩)]) ∧
    (∃ devs, (handleRemoteConnection kernelForwarder exampleLib exampleIncomingXcon false
        exampleRemoteKernel).out = .ret (some devs, none)) :=
  ⟨by decide, by decide, by decide,
    (handleRemoteConnection_devices kernelForwarder exampleLib exampleIncomingXcon true
      exampleKernel (by decide)).1 _ (by decide),
    ((handleRemoteConnection_devices kernelForwarder exampleLib exampleIncomingXcon false
      exampleRemoteKernel (by decide)).2.1 rfl).2 ⟨by decide, by decide⟩⟩

end NSM

namespace ControlPlane

/-! ## The Model Store, the agent and fresh ids -/

theorem GetClientConnection_add {s s1 : ModelStore} {c : ClientConnection}
    (h : s.AddClientConnection c = .ok s1) :
    s1.GetClientConnection c.clientConnectionId = some c := by
  unfold ModelStore.AddClientConnection at h
  split at h
  · cases h
  · rename_i hn
    cases h
    simp only [ModelStore.GetClientConnection] at hn ⊢
    rw [List.find?_append]
    have : s.clientConnections.find? (fun x => x.clientConnectionId == c.clientConnectionId)
        = none := by
      cases hf : s.clientConnections.find? (fun x => x.clientConnectionId == c.clientConnectionId)
      · rfl
      · simp [hf] at hn
    simp [this]

theorem GetClientConnection_remove {s s1 : ModelStore} {id : Nat}
    (h : s.RemoveClientConnection id = .ok s1) : s1.GetClientConnection id = none := by
  unfold ModelStore.RemoveClientConnection at h
  split at h
  · simp only [Except.ok.injEq] at h
    subst h
    unfold ModelStore.GetClientConnection
    simp [List.find?_eq_none]
  · cases h

theorem RemoveClientConnection_ok {s : ModelStore} {id : Nat} {c : ClientConnection}
    (h : s.GetClientConnection id = some c) :
    ∃ s1, s.RemoveClientConnection id = .ok s1 := by
  unfold ModelStore.RemoveClientConnection
  simp [h]

theorem clientConnection_lt_freshId (i : Instance) :
    ∀ c ∈ i.store.clientConnections, c.clientConnectionId < i.freshId := by
  have key : ∀ l : List ClientConnection, ∀ c ∈ l,
      c.clientConnectionId
        < l.foldr (fun c n => max (max c.clientConnectionId c.crossConnect.topId + 1) n) 1 := by
    intro l
    induction l with
    | nil => intro c hc; cases hc
    | cons d rest ih =>
      intro c hc
      simp only [List.foldr_cons]
      rcases List.mem_cons.1 hc with h | h
      · subst h
        omega
      · have := ih c h
        omega
  intro c hc
  have := key _ c hc
  unfold Instance.freshId
  omega

theorem crossConnect_lt_freshId (i : Instance) :
    ∀ x ∈ i.agent.connections, x.id < i.freshId := by
  have key : ∀ l : List CrossConnect, ∀ x ∈ l,
      x.id < l.foldr (fun x n => max (x.topId + 1) n) 1 := by
    intro l
    induction l with
    | nil => intro c hc; cases hc
    | cons d rest ih =>
      intro x hx
      simp only [List.foldr_cons]
      rcases List.mem_cons.1 hx with h | h
      · subst h
        have : x.id ≤ x.topId := by unfold CrossConnect.topId; omega
        omega
      · have := ih x h
        omega
  intro x hx
  have := key _ x hx
  unfold Instance.freshId
  omega

theorem GetClientConnection_fresh (i : Instance) :
    i.store.GetClientConnection i.freshId = none := by
  simp only [ModelStore.GetClientConnection]
  rw [List.find?_eq_none]
  intro c hc
  have := clientConnection_lt_freshId i c hc
  simp only [beq_iff_eq]
  omega

theorem AddClientConnection_fresh (i : Instance) (x : CrossConnect) (name : String) :
    i.store.AddClientConnection ⟨i.freshId, x, name⟩
      = .ok { i.store with
          clientConnections := i.store.clientConnections ++ [⟨i.freshId, x, name⟩] } := by
  unfold ModelStore.AddClientConnection
  simp [GetClientConnection_fresh]

theorem InstallMechanism_fresh (i : Instance) (x : CrossConnect) (hid : x.id = i.freshId)
    (h : i.agent.installs = true) :
    i.agent.InstallMechanism x
      = .ok { i.agent with connections := i.agent.connections ++ [x] } := by
  unfold Agent.InstallMechanism
  have hany : i.agent.connections.any (fun y => y.id == x.id) = false := by
    rw [Bool.eq_false_iff]
    intro hany
    rw [List.any_eq_true] at hany
    obtain ⟨y, hy, hyx⟩ := hany
    have := crossConnect_lt_freshId i y hy
    simp only [beq_iff_eq] at hyx
    omega
  simp [h, hany]

theorem InstallMechanism_installs {a a1 : Agent} {x : CrossConnect}
    (h : a.InstallMechanism x = .ok a1) :
    a.installs = true ∧ a1.installs = a.installs ∧ a1.removes = a.removes := by
  unfold Agent.InstallMechanism at h
  split at h
  · rename_i hh
    split at h
    · cases h; exact ⟨hh, rfl, rfl⟩
    · cases h; exact ⟨hh, rfl, rfl⟩
  · cases h

theorem RemoveMechanism_ok {a : Agent} (x : CrossConnect) (h : a.removes = true) :
    ∃ a1, a.RemoveMechanism x = .ok a1 := by
  unfold Agent.RemoveMechanism
  simp [h]

/-- Closing a connection whose ClientConnection is in the store, on an instance whose
agent removes without error, succeeds and leaves no ClientConnection under the
id. -/
theorem closeLocal_ok (i : Instance) (id : Nat) (c : ClientConnection)
    (hget : i.store.GetClientConnection id = some c) (hh : i.agent.removes = true) :
    (i.closeLocal id).1 = none ∧ (i.closeLocal id).2.store.GetClientConnection id = none := by
  obtain ⟨a1, ha⟩ := RemoveMechanism_ok c.crossConnect hh
  obtain ⟨s1, hs⟩ := RemoveClientConnection_ok hget
  unfold Instance.closeLocal
  simp only [hget, ha, hs]
  exact ⟨trivial, GetClientConnection_remove hs⟩

/-- Closing a connection on an instance whose agent fails to remove reports the
failure and keeps the ClientConnection. -/
theorem closeLocal_fails (i : Instance) (id : Nat) (c : ClientConnection)
    (hget : i.store.GetClientConnection id = some c) (hh : i.agent.removes = false) :
    i.closeLocal id = (some .RemoveFailed, i) := by
  unfold Instance.closeLocal
  simp [hget, Agent.RemoveMechanism, hh]

/-! ## `Request` on the instance of the endpoint -/

/-- The state of an instance after it has established a connection on the forwarder
`f` with the source mechanism `m` towards the endpoint `e`. -/
theorem requestLocal_run (i : Instance) (remote : Bool) (req : Request) (e : Endpoint)
    (f : Forwarder) (mech : Mechanism)
    (hf : i.store.selectForwarder remote = some f) (hc : f.mechanismsConfigured = true)
    (hn : negotiate req.mechanismPreferences f = some mech)
    (hh : i.agent.installs = true) :
    i.requestLocal remote req e =
      (.ok ⟨i.freshId, req.networkService, mech⟩,
        { i with
          store := { i.store with clientConnections := i.store.clientConnections ++
            [⟨i.freshId, ⟨i.freshId, ⟨i.freshId, req.networkService, mech⟩,
              .connection ⟨i.freshId + 1, req.networkService, e.mechanism⟩⟩, f.registeredName⟩] }
          agent := { i.agent with connections := i.agent.connections ++
            [⟨i.freshId, ⟨i.freshId, req.networkService, mech⟩,
              .connection ⟨i.freshId + 1, req.networkService, e.mechanism⟩⟩] } }) := by
  have hi := InstallMechanism_fresh i
    ⟨i.freshId, ⟨i.freshId, req.networkService, mech⟩,
      .connection ⟨i.freshId + 1, req.networkService, e.mechanism⟩⟩ rfl hh
  unfold Instance.requestLocal
  simp only [hf, hc, if_true, hn, hi, AddClientConnection_fresh]

/-- A successful request on the instance of the endpoint: the forwarder was selected
and configured, supports the mechanism of the connection returned, and the
agent installed the cross-connect. -/
theorem requestLocal_ok (i : Instance) (remote : Bool) (req : Request) (e : Endpoint)
    (c : Connection) (h : (i.requestLocal remote req e).1 = .ok c) :
    ∃ f, i.store.selectForwarder remote = some f ∧ f.mechanismsConfigured = true ∧
      negotiate req.mechanismPreferences f = some c.mechanism ∧
      i.agent.installs = true ∧
      c = ⟨i.freshId, req.networkService, c.mechanism⟩ := by
  unfold Instance.requestLocal at h
  cases hf : i.store.selectForwarder remote with
  | none => simp [hf] at h
  | some f =>
    simp only [hf] at h
    by_cases hc : f.mechanismsConfigured = true
    · simp only [hc, if_true] at h
      cases hn : negotiate req.mechanismPreferences f with
      | none => simp [hn] at h
      | some mech =>
        simp only [hn] at h
        cases hi : i.agent.InstallMechanism
            ⟨i.freshId, ⟨i.freshId, req.networkService, mech⟩,
              .connection ⟨i.freshId + 1, req.networkService, e.mechanism⟩⟩ with
        | error err => simp [hi] at h
        | ok agent =>
          simp only [hi, AddClientConnection_fresh, Outcome.ok.injEq] at h
          subst h
          exact ⟨f, rfl, hc, hn, (InstallMechanism_installs hi).1, rfl⟩
    · simp [hc] at h

end ControlPlane

namespace ControlPlane

/-! ## `Request` across two instances -/

/-- A request whose endpoint is on the peer, when both instances have a ready forwarder,
the mechanisms agree and both agents install: the answer and the state left. -/
theorem Request_remote_run (m : Mesh) (req : Request) (e : Endpoint) (rest : List Endpoint)
    (fI fP : Forwarder) (mech transport : Mechanism)
    (hnoLocal : m.initiator.store.ListEndpointsByNetworkService req.networkService = [])
    (hpeer : m.peer.store.ListEndpointsByNetworkService req.networkService = e :: rest)
    (hfI : m.initiator.store.selectForwarder false = some fI)
    (hcI : fI.mechanismsConfigured = true)
    (hfP : m.peer.store.selectForwarder true = some fP) (hcP : fP.mechanismsConfigured = true)
    (hmech : negotiate req.mechanismPreferences fI = some mech)
    (htransport : negotiate (delegatedRequest req fI).mechanismPreferences fP = some transport)
    (hhI : m.initiator.agent.installs = true) (hhP : m.peer.agent.installs = true) :
    m.Request req =
      (.ok ⟨m.initiator.freshId, req.networkService, mech⟩,
        { initiator := { m.initiator with
            store := { m.initiator.store with
              clientConnections := m.initiator.store.clientConnections ++
                [⟨m.initiator.freshId, ⟨m.initiator.freshId,
                  ⟨m.initiator.freshId, req.networkService, mech⟩,
                  .remoteReference m.peer.freshId⟩, fI.registeredName⟩] }
            agent := { m.initiator.agent with connections := m.initiator.agent.connections ++
              [⟨m.initiator.freshId, ⟨m.initiator.freshId, req.networkService, mech⟩,
                .remoteReference m.peer.freshId⟩] } }
          peer := (m.peer.requestLocal true (delegatedRequest req fI) e).2 }) := by
  have hr := requestLocal_run m.peer true (delegatedRequest req fI) e fP transport hfP hcP
    htransport hhP
  have hi := InstallMechanism_fresh m.initiator
    ⟨m.initiator.freshId, ⟨m.initiator.freshId, req.networkService, mech⟩,
      .remoteReference m.peer.freshId⟩ rfl hhI
  unfold Mesh.Request
  simp only [hnoLocal, hpeer, hfI, hcI, if_true, hmech, hr, hi, AddClientConnection_fresh]

/-- A successful request for a network service without local endpoint: what was
selected and negotiated on the two instances, and the state left. -/
theorem Request_remote_ok (m : Mesh) (req : Request) (c : Connection)
    (hnoLocal : m.initiator.store.ListEndpointsByNetworkService req.networkService = [])
    (hreq : (m.Request req).1 = .ok c) :
    ∃ e rest fI fP mech transport,
      m.peer.store.ListEndpointsByNetworkService req.networkService = e :: rest ∧
      m.initiator.store.selectForwarder false = some fI ∧ fI.mechanismsConfigured = true ∧
      m.peer.store.selectForwarder true = some fP ∧ fP.mechanismsConfigured = true ∧
      negotiate req.mechanismPreferences fI = some mech ∧
      negotiate (delegatedRequest req fI).mechanismPreferences fP = some transport ∧
      m.initiator.agent.installs = true ∧ m.peer.agent.installs = true := by
  unfold Mesh.Request at hreq
  simp only [hnoLocal] at hreq
  cases hp : m.peer.store.ListEndpointsByNetworkService req.networkService with
  | nil => simp [hp] at hreq
  | cons e rest =>
    simp only [hp] at hreq
    cases hf : m.initiator.store.selectForwarder false with
    | none => simp [hf] at hreq
    | some f =>
      simp only [hf] at hreq
      by_cases hc : f.mechanismsConfigured = true
      · simp only [hc, if_true] at hreq
        cases hn : negotiate req.mechanismPreferences f with
        | none => simp [hn] at hreq
        | some mech =>
          simp only [hn] at hreq
          rcases hr : m.peer.requestLocal true (delegatedRequest req f) e with ⟨o, peer⟩
          cases o with
          | failed err => simp [hr] at hreq
          | suspended => simp [hr] at hreq
          | ok rc =>
            have hrc : (m.peer.requestLocal true (delegatedRequest req f) e).1 = .ok rc := by
              rw [hr]
            obtain ⟨fP, hfP, hcP, hnP, hhP, _⟩ := requestLocal_ok _ _ _ _ _ hrc
            simp only [hr] at hreq
            cases hi : m.initiator.agent.InstallMechanism
                ⟨m.initiator.freshId, ⟨m.initiator.freshId, req.networkService, mech⟩,
                  .remoteReference rc.id⟩ with
            | error err => simp [hi] at hreq
            | ok agent =>
              exact ⟨e, rest, f, fP, mech, rc.mechanism, rfl, rfl, hc, hfP, hcP, hn, hnP,
                (InstallMechanism_installs hi).1, hhP⟩
      · simp [hc] at hreq

/-- C9, as amended: a request for a network service without local endpoint, whose only
endpoint is registered on the peer, which has a ready forwarder, succeeds when
the initiating instance has a ready forwarder as well, the request prefers a
mechanism that forwarder supports, the two forwarders share a remote
transport, and the install calls of both forwarding agents succeed.  The
returned connection names the requested network service, and the agent of the
peer, which had recorded no cross-connect, has then recorded exactly one,
whose destination is local to the peer. -/
theorem Request_remote_succeeds (m : Mesh) (req : Request) (e : Endpoint) (fI fP : Forwarder)
    (mech transport : Mechanism)
    (hnoLocal : m.initiator.store.ListEndpointsByNetworkService req.networkService = [])
    (honly : m.peer.store.ListEndpointsByNetworkService req.networkService = [e])
    (hfP : m.peer.store.selectForwarder true = some fP) (hcP : fP.mechanismsConfigured = true)
    (hfI : m.initiator.store.selectForwarder false = some fI)
    (hcI : fI.mechanismsConfigured = true)
    (hmech : negotiate req.mechanismPreferences fI = some mech)
    (htransport : negotiate (delegatedRequest req fI).mechanismPreferences fP = some transport)
    (hhI : m.initiator.agent.installs = true) (hhP : m.peer.agent.installs = true)
    (hemptyP : m.peer.agent.connections = []) :
    ∃ c x d, (m.Request req).1 = .ok c ∧ c.networkService = req.networkService ∧
      (m.Request req).2.peer.agent.connections = [x] ∧ x.Destination = .connection d := by
  have hrun := Request_remote_run m req e [] fI fP mech transport hnoLocal honly hfI hcI hfP hcP
    hmech htransport hhI hhP
  have hr := requestLocal_run m.peer true (delegatedRequest req fI) e fP transport hfP hcP
    htransport hhP
  refine ⟨⟨m.initiator.freshId, req.networkService, mech⟩,
    ⟨m.peer.freshId, ⟨m.peer.freshId, req.networkService, transport⟩,
      .connection ⟨m.peer.freshId + 1, req.networkService, e.mechanism⟩⟩,
    ⟨m.peer.freshId + 1, req.networkService, e.mechanism⟩, ?_, rfl, ?_, rfl⟩
  · rw [hrun]
  · rw [hrun, hr]
    simp only [hemptyP, List.nil_append]
    rfl

/-- C9, witness: the two-instance scenario of `TestNSMDRequestClientRemoteNSMD`, where the
endpoint of `golden_network` is registered on the peer only. -/
theorem Request_remote_succeeds_witness :
    ∃ c x d, (scenarioMesh.Request scenarioRequest).1 = .ok c ∧
      c.networkService = scenarioRequest.networkService ∧
      (scenarioMesh.Request scenarioRequest).2.peer.agent.connections = [x] ∧
      x.Destination = .connection d :=
  Request_remote_succeeds scenarioMesh scenarioRequest goldenEndpoint masterForwarder
    workerForwarder kernelPreference ⟨true, "VXLAN", []⟩ (by decide) (by decide) (by decide)
    (by decide) (by decide) (by decide) (by decide) (by decide) (by decide) (by decide)
    (by decide)

/-- C9, counterexample: in each of these meshes the only endpoint of `golden_network` is
registered on the peer, whose forwarder is ready, and `Request` does not
succeed as claimed: a request without mechanism preference is answered
`NoCompatibleMechanism`, and so is the request of the scenarios when the
forwarder of the peer shares no remote transport with that of the initiating
instance; the request stays suspended when the forwarder of the initiating
instance is not ready; it is answered `InstallFailed` when the agent of the
peer, or that of the initiating instance, fails to install; and when the peer
had recorded a cross-connect before it has recorded two afterwards. -/
theorem Request_remote_fails :
    (scenarioMesh.initiator.store.ListEndpointsByNetworkService "golden_network" = [] ∧
      scenarioMesh.peer.store.ListEndpointsByNetworkService "golden_network"
        = [goldenEndpoint] ∧
      scenarioMesh.peer.store.selectForwarder true = some workerForwarder ∧
      workerForwarder.mechanismsConfigured = true ∧
      greForwarder.mechanismsConfigured = true) ∧
    ((scenarioMesh.Request ⟨"golden_network", []⟩).1 = .failed .NoCompatibleMechanism ∧
      (scenarioMesh.Request ⟨"golden_network", []⟩).2.peer.agent.connections = []) ∧
    ((scenarioMesh.withPeerForwarders [greForwarder]).Request scenarioRequest).1
      = .failed .NoCompatibleMechanism ∧
    ((scenarioMesh.withInitiatorForwarders [delayedForwarder]).Request scenarioRequest).1
      = .suspended ∧
    ((scenarioMesh.withPeerAgent ⟨false, true, []⟩).Request scenarioRequest).1
      = .failed .InstallFailed ∧
    ((scenarioMesh.withInitiatorAgent ⟨false, true, []⟩).Request scenarioRequest).1
      = .failed .InstallFailed ∧
    (((scenarioMesh.Request scenarioRequest).2.Request scenarioRequest).1
        = .ok ⟨2, "golden_network", kernelPreference⟩ ∧
      ((scenarioMesh.Request scenarioRequest).2.Request
        scenarioRequest).2.peer.agent.connections.length = 2) := by
  refine ⟨by decide, by decide, by decide, by decide, by decide, by decide, by decide⟩

end ControlPlane

namespace ControlPlane

/-! ## `Close` across two instances -/

/-- C10, as amended: for a connection established by a successful `Request` whose endpoint
is on the peer instance, the ClientConnection of the returned connection is in
the store of the initiating instance, its destination is a remote reference
whose ClientConnection is in the store of the peer, and when the remove calls
of both forwarding agents succeed, `Close` on the returned connection
succeeds, and afterwards `GetClientConnection` finds neither of the two. -/
theorem Close_after_remote_Request (m : Mesh) (req : Request) (c : Connection)
    (hremote : m.initiator.store.ListEndpointsByNetworkService req.networkService = [])
    (hreq : (m.Request req).1 = .ok c)
    (hremI : m.initiator.agent.removes = true) (hremP : m.peer.agent.removes = true) :
    ∃ cc remoteId,
      (m.Request req).2.initiator.store.GetClientConnection c.id = some cc ∧
      cc.crossConnect.Destination = .remoteReference remoteId ∧
      ((m.Request req).2.peer.store.GetClientConnection remoteId).isSome = true ∧
      ((m.Request req).2.Close c.id).1 = none ∧
      ((m.Request req).2.Close c.id).2.initiator.store.GetClientConnection c.id = none ∧
      ((m.Request req).2.Close c.id).2.peer.store.GetClientConnection remoteId = none := by
  obtain ⟨e, rest, fI, fP, mech, transport, hpeer, hfI, hcI, hfP, hcP, hmech, htransport, hhI,
    hhP⟩ := Request_remote_ok m req c hremote hreq
  have hrun := Request_remote_run m req e rest fI fP mech transport hremote hpeer hfI hcI hfP
    hcP hmech htransport hhI hhP
  have hr := requestLocal_run m.peer true (delegatedRequest req fI) e fP transport hfP hcP
    htransport hhP
  rw [hrun] at hreq
  simp only [Outcome.ok.injEq] at hreq
  subst hreq
  have hgetI : (m.Request req).2.initiator.store.GetClientConnection m.initiator.freshId
      = some ⟨m.initiator.freshId, ⟨m.initiator.freshId,
          ⟨m.initiator.freshId, req.networkService, mech⟩,
          .remoteReference m.peer.freshId⟩, fI.registeredName⟩ := by
    rw [hrun]
    exact GetClientConnection_add (AddClientConnection_fresh m.initiator _ _)
  have hgetP : (m.Request req).2.peer.store.GetClientConnection m.peer.freshId
      = some ⟨m.peer.freshId, ⟨m.peer.freshId,
          ⟨m.peer.freshId, req.networkService, transport⟩,
          .connection ⟨m.peer.freshId + 1, req.networkService, e.mechanism⟩⟩,
          fP.registeredName⟩ := by
    rw [hrun, hr]
    exact GetClientConnection_add (AddClientConnection_fresh m.peer _ _)
  have hI : (m.Request req).2.initiator.agent.removes = true := by
    rw [hrun]
    exact hremI
  have hP : (m.Request req).2.peer.agent.removes = true := by
    rw [hrun, hr]
    exact hremP
  obtain ⟨hl1, hl2⟩ := closeLocal_ok (m.Request req).2.initiator m.initiator.freshId _ hgetI hI
  obtain ⟨hp1, hp2⟩ := closeLocal_ok (m.Request req).2.peer m.peer.freshId _ hgetP hP
  refine ⟨_, m.peer.freshId, hgetI, rfl, by simp [hgetP], ?_, ?_, ?_⟩
  · unfold Mesh.Close
    simp only [hgetI, hl1, hp1]
    rfl
  · unfold Mesh.Close
    simp only [hgetI]
    exact hl2
  · unfold Mesh.Close
    simp only [hgetI]
    exact hp2

/-- C10, witness: the two-instance scenario of `TestNSMDCloseCrossConnection`, closed after
its request succeeded. -/
theorem Close_after_remote_Request_witness :
    closeMesh.initiator.store.ListEndpointsByNetworkService scenarioRequest.networkService
        = [] ∧
    (closeMesh.Request scenarioRequest).1 = .ok ⟨1, "golden_network", kernelPreference⟩ ∧
    ∃ cc remoteId,
      (closeMesh.Request scenarioRequest).2.initiator.store.GetClientConnection 1 = some cc ∧
      cc.crossConnect.Destination = .remoteReference remoteId ∧
      ((closeMesh.Request scenarioRequest).2.peer.store.GetClientConnection
          remoteId).isSome = true ∧
      ((closeMesh.Request scenarioRequest).2.Close 1).1 = none ∧
      ((closeMesh.Request scenarioRequest).2.Close 1).2.initiator.store.GetClientConnection 1
          = none ∧
      ((closeMesh.Request scenarioRequest).2.Close 1).2.peer.store.GetClientConnection
          remoteId = none :=
  ⟨by decide, by decide,
    Close_after_remote_Request closeMesh scenarioRequest
      ⟨1, "golden_network", kernelPreference⟩ (by decide) (by decide) (by decide) (by decide)⟩

/-- C10, counterexample: in the scenario of `TestNSMDCloseCrossConnection` with a forwarding
agent whose remove call fails, on the initiating instance or on the peer, the
request across the two instances succeeds and `Close` on the returned
connection does not: it reports `RemoveFailed`. -/
theorem Close_after_remote_Request_fails :
    (((closeMesh.withInitiatorAgent ⟨true, false, []⟩).Request scenarioRequest).1
        = .ok ⟨1, "golden_network", kernelPreference⟩ ∧
      (((closeMesh.withInitiatorAgent ⟨true, false, []⟩).Request scenarioRequest).2.Close 1).1
        = some .RemoveFailed) ∧
    (((closeMesh.withPeerAgent ⟨true, false, []⟩).Request scenarioRequest).1
        = .ok ⟨1, "golden_network", kernelPreference⟩ ∧
      (((closeMesh.withPeerAgent ⟨true, false, []⟩).Request scenarioRequest).2.Close 1).1
        = some .RemoveFailed) := by
  refine ⟨⟨by decide, by decide⟩, by decide, by decide⟩

/-! ## Readiness release -/

/-- A request whose endpoint is on the peer is suspended, and nothing changes, when
the forwarder selected on the peer has not configured its mechanisms. -/
theorem Request_remote_suspended (m : Mesh) (req : Request) (e : Endpoint)
    (rest : List Endpoint) (fI fP : Forwarder) (mech : Mechanism)
    (hnoLocal : m.initiator.store.ListEndpointsByNetworkService req.networkService = [])
    (hpeer : m.peer.store.ListEndpointsByNetworkService req.networkService = e :: rest)
    (hfI : m.initiator.store.selectForwarder false = some fI)
    (hcI : fI.mechanismsConfigured = true)
    (hfP : m.peer.store.selectForwarder true = some fP) (hcP : fP.mechanismsConfigured = false)
    (hmech : negotiate req.mechanismPreferences fI = some mech) :
    m.Request req = (.suspended, m) := by
  have hr : m.peer.requestLocal true (delegatedRequest req fI) e = (.suspended, m.peer) := by
    unfold Instance.requestLocal
    simp [hfP, hcP]
  unfold Mesh.Request
  simp only [hnoLocal, hpeer, hfI, hcI, if_true, hmech, hr]

/-- A forwarder that supports a transport the delegated request prefers offers
remote transports. -/
theorem offers_of_negotiate (req : Request) (fI f : Forwarder) (transport : Mechanism)
    (h : negotiate (delegatedRequest req fI).mechanismPreferences f = some transport) :
    f.offers true = true := by
  unfold negotiate delegatedRequest at h
  have hs := List.find?_some h
  have hm := List.mem_of_find?_eq_some h
  simp only [List.mem_map] at hm
  obtain ⟨t, _, ht⟩ := hm
  subst ht
  simp only [Forwarder.supports, if_true] at hs
  unfold Forwarder.offers
  simp only [if_true]
  cases hl : f.remoteMechanisms with
  | nil => simp [hl] at hs
  | cons a l => rfl

/-- The first forwarder with a property, once every forwarder of its name is replaced by
one that has the property, is the replacement. -/
theorem find?_map_replace (p : Forwarder → Bool) (f f1 : Forwarder)
    (hname : f1.registeredName = f.registeredName) (hp : p f1 = true) :
    ∀ l : List Forwarder, l.find? p = some f →
      (l.map (fun x => if x.registeredName == f1.registeredName then f1 else x)).find? p
        = some f1 := by
  intro l
  induction l with
  | nil => intro h; cases h
  | cons x xs ih =>
    intro h
    simp only [List.map_cons, List.find?_cons] at h ⊢
    by_cases hx : (x.registeredName == f1.registeredName) = true
    · simp only [hx, if_true, hp]
    · simp only [hx, if_false, Bool.false_eq_true]
      cases hpx : p x with
      | true =>
        simp only [hpx, Option.some.injEq] at h
        subst h
        simp [hname] at hx
      | false =>
        simp only [hpx] at h
        exact ih h

/-- Updating the selected forwarder of a store under its registered name, with
mechanisms of the required class, succeeds, selects the updated forwarder, and
keeps endpoints and client connections. -/
theorem UpdateForwarder_selected (s : ModelStore) (remote : Bool) (f f1 : Forwarder)
    (hf : s.selectForwarder remote = some f) (hname : f1.registeredName = f.registeredName)
    (hoffers : f1.offers remote = true) :
    ∃ s1, s.UpdateForwarder f1 = .ok s1 ∧ s1.selectForwarder remote = some f1 ∧
      s1.endpoints = s.endpoints ∧ s1.clientConnections = s.clientConnections := by
  have hmem : f ∈ s.forwarders := List.mem_of_find?_eq_some hf
  have hany : s.forwarders.any (fun x => x.registeredName == f1.registeredName) = true := by
    rw [List.any_eq_true]
    exact ⟨f, hmem, by simp [hname]⟩
  refine ⟨{ s with forwarders :=
      s.forwarders.map (fun x => if x.registeredName == f1.registeredName then f1 else x) },
    ?_, ?_, rfl, rfl⟩
  · unfold ModelStore.UpdateForwarder
    simp only [hany, if_true]
  · exact find?_map_replace _ f f1 hname (by simp [hoffers]) s.forwarders hf

/-- C11, as amended: a request for a network service without endpoint on the initiating
instance and with an endpoint on the peer, submitted while the forwarder
selected on the peer has `mechanismsConfigured = false`, and while the
initiating instance has a ready forwarder that supports a mechanism the
request prefers, is not answered with a failure: it stays in flight,
suspended, and nothing is recorded.  Once `UpdateForwarder` on the peer
reports that forwarder as configured with a remote transport that matches,
and when the install calls of both forwarding agents succeed and the agent of
the peer had recorded no cross-connect, the request in flight completes with a
connection for the requested network service, and the agent of the peer has
recorded exactly one cross-connect, whose destination is local to the peer. -/
theorem readiness_release (m : Mesh) (req : Request) (e : Endpoint) (rest : List Endpoint)
    (fI fP fP1 : Forwarder) (mech transport : Mechanism)
    (hnoLocal : m.initiator.store.ListEndpointsByNetworkService req.networkService = [])
    (hpeer : m.peer.store.ListEndpointsByNetworkService req.networkService = e :: rest)
    (hfP : m.peer.store.selectForwarder true = some fP)
    (hunready : fP.mechanismsConfigured = false)
    (hname : fP1.registeredName = fP.registeredName)
    (hready : fP1.mechanismsConfigured = true)
    (htransport : negotiate (delegatedRequest req fI).mechanismPreferences fP1 = some transport)
    (hfI : m.initiator.store.selectForwarder false = some fI)
    (hcI : fI.mechanismsConfigured = true)
    (hmech : negotiate req.mechanismPreferences fI = some mech)
    (hhI : m.initiator.agent.installs = true) (hhP : m.peer.agent.installs = true)
    (hemptyP : m.peer.agent.connections = []) :
    (System.submit ⟨m, [], []⟩ req = ⟨m, [req], []⟩) ∧
    ∃ c x d,
      ((System.submit ⟨m, [], []⟩ req).UpdatePeerForwarder fP1).1 = none ∧
      ((System.submit ⟨m, [], []⟩ req).UpdatePeerForwarder fP1).2.waiting = [] ∧
      ((System.submit ⟨m, [], []⟩ req).UpdatePeerForwarder fP1).2.answers = [(req, .ok c)] ∧
      c.networkService = req.networkService ∧
      ((System.submit ⟨m, [], []⟩ req).UpdatePeerForwarder fP1).2.mesh.peer.agent.connections
        = [x] ∧
      x.Destination = .connection d := by
  have hsub : System.submit ⟨m, [], []⟩ req = ⟨m, [req], []⟩ := by
    unfold System.submit
    simp only [Request_remote_suspended m req e rest fI fP mech hnoLocal hpeer hfI hcI hfP
      hunready hmech, List.nil_append]
  refine ⟨hsub, ?_⟩
  rw [hsub]
  obtain ⟨store1, hupd, hsel, hend, hcc⟩ := UpdateForwarder_selected m.peer.store true fP fP1 hfP
    hname (offers_of_negotiate req fI fP1 transport htransport)
  have hpeer1 : store1.ListEndpointsByNetworkService req.networkService = e :: rest := by
    simpa [ModelStore.ListEndpointsByNetworkService, hend] using hpeer
  have hrun := Request_remote_run
    { m with peer := { m.peer with store := store1 } } req e rest fI fP1 mech transport
    hnoLocal hpeer1 hfI hcI hsel hready hmech htransport hhI hhP
  have hr := requestLocal_run ({ m.peer with store := store1 } : Instance) true
    (delegatedRequest req fI) e fP1 transport hsel hready htransport hhP
  refine ⟨⟨m.initiator.freshId, req.networkService, mech⟩,
    ⟨({ m.peer with store := store1 } : Instance).freshId,
      ⟨({ m.peer with store := store1 } : Instance).freshId, req.networkService, transport⟩,
      .connection ⟨({ m.peer with store := store1 } : Instance).freshId + 1,
        req.networkService, e.mechanism⟩⟩,
    ⟨({ m.peer with store := store1 } : Instance).freshId + 1, req.networkService,
      e.mechanism⟩, ?_, ?_, ?_, rfl, ?_, rfl⟩
  · simp only [System.UpdatePeerForwarder, hupd]
  · simp only [System.UpdatePeerForwarder, hupd, System.release, List.foldl_cons, List.foldl_nil,
      System.submit, hrun]
  · simp only [System.UpdatePeerForwarder, hupd, System.release, List.foldl_cons, List.foldl_nil,
      System.submit, hrun, List.nil_append]
  · simp only [System.UpdatePeerForwarder, hupd, System.release, List.foldl_cons, List.foldl_nil,
      System.submit, hrun, hr, hemptyP, List.nil_append]
    rfl

/-- C11, witness: the scenario of `TestNSMDDelayRemoteMechanisms`: the forwarder of the peer
is registered without mechanisms and updated after the request was submitted. -/
theorem readiness_release_witness :
    (System.submit ⟨delayedMesh, [], []⟩ scenarioRequest = ⟨delayedMesh, [scenarioRequest], []⟩) ∧
    ∃ c x d,
      ((System.submit ⟨delayedMesh, [], []⟩ scenarioRequest).UpdatePeerForwarder
        configuredForwarder).1 = none ∧
      ((System.submit ⟨delayedMesh, [], []⟩ scenarioRequest).UpdatePeerForwarder
        configuredForwarder).2.waiting = [] ∧
      ((System.submit ⟨delayedMesh, [], []⟩ scenarioRequest).UpdatePeerForwarder
        configuredForwarder).2.answers = [(scenarioRequest, .ok c)] ∧
      c.networkService = scenarioRequest.networkService ∧
      ((System.submit ⟨delayedMesh, [], []⟩ scenarioRequest).UpdatePeerForwarder
        configuredForwarder).2.mesh.peer.agent.connections = [x] ∧
      x.Destination = .connection d :=
  readiness_release delayedMesh scenarioRequest goldenEndpoint [] masterForwarder
    delayedForwarder configuredForwarder kernelPreference ⟨true, "VXLAN", []⟩ (by decide)
    (by decide) (by decide) (by decide) (by decide) (by decide) (by decide) (by decide)
    (by decide) (by decide) (by decide) (by decide) (by decide)

/-- C11, counterexample: in each of these systems the forwarder selected on the peer has
`mechanismsConfigured = false` when the request is submitted, and is updated
to the configured forwarder of the scenario afterwards.  A request without
mechanism preference is answered at once, with `NoCompatibleMechanism`,
instead of staying suspended.  The request of the scenario is still suspended
after the update when the forwarder of the initiating instance is not ready;
it is answered `InstallFailed` after the update when the agent of the peer, or
that of the initiating instance, fails to install; and when the agent of the
peer had recorded a cross-connect before, it has recorded two once the request
has completed. -/
theorem readiness_release_fails :
    (delayedMesh.peer.store.selectForwarder true = some delayedForwarder ∧
      delayedForwarder.mechanismsConfigured = false) ∧
    System.submit ⟨delayedMesh, [], []⟩ ⟨"golden_network", []⟩
      = ⟨delayedMesh, [], [(⟨"golden_network", []⟩, .failed .NoCompatibleMechanism)]⟩ ∧
    (((System.submit ⟨delayedMesh.withInitiatorForwarders [delayedForwarder], [], []⟩
        scenarioRequest).UpdatePeerForwarder configuredForwarder).2.waiting = [scenarioRequest] ∧
      ((System.submit ⟨delayedMesh.withInitiatorForwarders [delayedForwarder], [], []⟩
        scenarioRequest).UpdatePeerForwarder configuredForwarder).2.answers = []) ∧
    ((System.submit ⟨delayedMesh.withPeerAgent ⟨false, true, []⟩, [], []⟩
        scenarioRequest).UpdatePeerForwarder configuredForwarder).2.answers
      = [(scenarioRequest, .failed .InstallFailed)] ∧
    ((System.submit ⟨delayedMesh.withInitiatorAgent ⟨false, true, []⟩, [], []⟩
        scenarioRequest).UpdatePeerForwarder configuredForwarder).2.answers
      = [(scenarioRequest, .failed .InstallFailed)] ∧
    (((System.submit ⟨delayedMesh.withPeerAgent ⟨true, true, [earlierCrossConnect]⟩, [], []⟩
        scenarioRequest).UpdatePeerForwarder configuredForwarder).2.answers
        = [(scenarioRequest, .ok ⟨1, "golden_network", kernelPreference⟩)] ∧
      ((System.submit ⟨delayedMesh.withPeerAgent ⟨true, true, [earlierCrossConnect]⟩, [], []⟩
        scenarioRequest).UpdatePeerForwarder
          configuredForwarder).2.mesh.peer.agent.connections.length = 2) := by
  refine ⟨by decide, by decide, ⟨by decide, by decide⟩, by decide, by decide, by decide,
    by decide⟩

end ControlPlane

namespace NSM

/-- `unique.Strings` does not sort: of two prefixes in descending order only the first
is kept, an empty prefix after another prefix is dropped, and a prefix that
comes again after a greater one is dropped. -/
theorem uniqueStrings_unsorted :
    uniqueStrings ["9.9.9.0/24", "8.8.8.0/24"] = ["9.9.9.0/24"] ∧
    uniqueStrings ["9.9.9.0/24", ""] = ["9.9.9.0/24"] ∧
    uniqueStrings ["8.8.8.0/24", "9.9.9.0/24", "8.8.8.0/24"] = ["8.8.8.0/24", "9.9.9.0/24"] := by
  have h1 : ¬ ("9.9.9.0/24" < "8.8.8.0/24") := by rw [String.lt_iff_toList_lt]; decide
  have h2 : ¬ ("9.9.9.0/24" < "") := by rw [String.lt_iff_toList_lt]; decide
  have h3 : "8.8.8.0/24" < "9.9.9.0/24" := by rw [String.lt_iff_toList_lt]; decide
  simp [uniqueStrings, uniqueToFront, h1, h2, h3]

end NSM
